import Mathlib

/-! # Harbor: deployment dispatch engine

A shallow embedding of the dispatch engine of Harbor (`internal/domain`,
`internal/repository/postgres`, `internal/service`) and theorems about it.

* Identifiers (`uuid.UUID`) are natural numbers; `uuid.Nil` is `0`.
* Timestamps (`time.Time`) are natural numbers; a nullable timestamp
  (`*time.Time`) is an `Option Nat`. `NOW()` is an explicit argument `now`.
* The persistent store is a record of four tables, each a list of rows in
  physical (insertion) order. Every SQL statement of the repositories is a
  pure function on that record. Infrastructure failures of the connection
  pool are not modelled: a statement fails only through the error kinds of
  `internal/domain/errors.go`.
* The artifact file store is the list of its directories and of its files,
  each file a path with its bytes; byte streams are lists of bytes. Digests, JSON string quoting, date
  formatting and path joining are parameters of the model.
-/

namespace Harbor

/-! ## internal/domain -/

/-- UUIDs of the source are modelled as natural numbers. -/
abbrev UUID := Nat

deriving instance DecidableEq for Except

/-- Error kinds of `internal/domain/errors.go`. -/
inductive DomainError where
  | ErrNotFound
  | ErrConflict
  | ErrUnauthorized
  | ErrForbidden
  | ErrDevicePending
  | ErrDeviceRejected
  | ErrInvalidInput
  | ErrArtifactInUse
  | ErrDeploymentActive
  deriving DecidableEq, Repr

/-- Status of a device (`domain.DeviceStatus`). -/
inductive DeviceStatus where
  | Pending
  | Accepted
  | Rejected
  | Decommissioned
  deriving DecidableEq, Repr

/-- Status of a deployment (`domain.DeploymentStatus`). -/
inductive DeploymentStatus where
  | Scheduled
  | Active
  | Completed
  | Cancelled
  deriving DecidableEq, Repr

/-- Status of a per-device work row (`domain.DeploymentDeviceStatus`). -/
inductive DeploymentDeviceStatus where
  | Pending
  | Downloading
  | Installing
  | Success
  | Failure
  | Skipped
  deriving DecidableEq, Repr

/-- A row of `devices` (`domain.Device`). -/
structure Device where
  ID : UUID
  IdentityHash : String
  IdentityData : List (String × String)
  Status : DeviceStatus
  AuthTokenHash : String
  Inventory : List (String × String)
  DeviceType : String
  Tags : List String
  LastCheckIn : Option Nat
  CreatedAt : Nat
  UpdatedAt : Nat
  deriving DecidableEq, Repr

/-- Filter of a device listing (`domain.DeviceFilter`). `SortBy` and
`SortOrder` are left empty by every caller in the service layer, so the
listing order is the default `created_at DESC`. -/
structure DeviceFilter where
  Status : Option DeviceStatus
  DeviceType : Option String
  Tags : List String
  Page : Int
  PerPage : Int
  deriving DecidableEq, Repr

/-- A row of `artifacts` (`domain.Artifact`). -/
structure Artifact where
  ID : UUID
  Name : String
  Version : String
  Description : String
  FileName : String
  FileSize : Int
  ChecksumSHA256 : String
  TargetPath : String
  FileMode : String
  FileOwner : String
  DeviceTypes : List String
  StoragePath : String
  PreInstallCmd : String
  PostInstallCmd : String
  RollbackCmd : String
  CreatedAt : Nat
  deriving DecidableEq, Repr

/-- A row of `deployments` (`domain.Deployment`). -/
structure Deployment where
  ID : UUID
  Name : String
  ArtifactID : UUID
  Status : DeploymentStatus
  TargetDeviceIDs : List UUID
  TargetDeviceTags : List String
  TargetDeviceTypes : List String
  MaxParallel : Int
  CreatedAt : Nat
  StartedAt : Option Nat
  FinishedAt : Option Nat
  deriving DecidableEq, Repr

/-- A row of `deployment_devices` (`domain.DeploymentDevice`). -/
structure DeploymentDevice where
  ID : UUID
  DeploymentID : UUID
  DeviceID : UUID
  Status : DeploymentDeviceStatus
  Attempts : Int
  Log : String
  StartedAt : Option Nat
  FinishedAt : Option Nat
  deriving DecidableEq, Repr

/-- Input of deployment creation (`service.CreateDeploymentInput`). -/
structure CreateDeploymentInput where
  Name : String
  ArtifactID : UUID
  TargetDeviceIDs : List UUID
  TargetDeviceTags : List String
  TargetDeviceTypes : List String
  MaxParallel : Int
  deriving DecidableEq, Repr

/-! ## The persistent store -/

/-- The four tables, rows in physical order. -/
structure Store where
  devices : List Device
  artifacts : List Artifact
  deployments : List Deployment
  deploymentDevices : List DeploymentDevice
  deriving DecidableEq, Repr

/-- Every identifier that occurs in the store, as a key or as a reference. -/
def Store.usedIDs (s : Store) : List UUID :=
  s.devices.map (fun d => d.ID) ++ s.artifacts.map (fun a => a.ID) ++
    s.deployments.map (fun d => d.ID) ++ s.deployments.map (fun d => d.ArtifactID) ++
    s.deploymentDevices.map (fun r => r.ID) ++
    s.deploymentDevices.map (fun r => r.DeploymentID) ++
    s.deploymentDevices.map (fun r => r.DeviceID)

/-- Modelled from the spec: the table declarations (the `id` column defaults)
are not part of the source; the spec says identifiers are 128-bit UUIDs
generated on insert. A generated identifier is modelled as a value that
occurs nowhere in the store and is not `uuid.Nil`. -/
def Store.freshID (s : Store) : UUID :=
  s.usedIDs.foldr max 0 + 1

/-! ## internal/repository/postgres/device_repo.go -/

/-- `DeviceRepo.GetByID`: `SELECT ... FROM devices WHERE id = $1`. -/
def DeviceRepo.GetByID (s : Store) (id : UUID) : Except DomainError Device :=
  match s.devices.find? (fun d => decide (d.ID = id)) with
  | some d => .ok d
  | none => .error .ErrNotFound

/-- The `WHERE` clause that `DeviceRepo.List` builds from a filter:
`status = $n`, `device_type = $n`, and `tags @> $n` when tags are given. -/
def DeviceRepo.matchesFilter (f : DeviceFilter) (d : Device) : Bool :=
  (match f.Status with
    | some st => decide (d.Status = st)
    | none => true) &&
  (match f.DeviceType with
    | some dt => decide (d.DeviceType = dt)
    | none => true) &&
  (if f.Tags.length > 0 then f.Tags.all (fun t => d.Tags.contains t) else true)

/-- `DeviceRepo.List`: page and per-page normalisation, the filtered rows in
`created_at DESC` order, `LIMIT per_page OFFSET (page-1)*per_page`, together
with the total count of matching rows. The column list of the query has no
`auth_token_hash`, so the returned devices carry an empty `AuthTokenHash`. -/
def DeviceRepo.List (s : Store) (f : DeviceFilter) : List Device × Nat :=
  let page : Int := if f.Page < 1 then 1 else f.Page
  let perPage : Int := if f.PerPage < 1 ∨ f.PerPage > 100 then 20 else f.PerPage
  let rows := s.devices.filter (DeviceRepo.matchesFilter f)
  let total := rows.length
  let ordered := rows.insertionSort (fun a b => b.CreatedAt ≤ a.CreatedAt)
  let offset : Int := (page - 1) * perPage
  let pageRows := (ordered.drop offset.toNat).take perPage.toNat
  (pageRows.map (fun d => { d with AuthTokenHash := "" }), total)

/-! ## internal/repository/postgres/artifact_repo.go -/

/-- `ArtifactRepo.GetByID`: `SELECT ... FROM artifacts WHERE id = $1`. -/
def ArtifactRepo.GetByID (s : Store) (id : UUID) : Except DomainError Artifact :=
  match s.artifacts.find? (fun a => decide (a.ID = id)) with
  | some a => .ok a
  | none => .error .ErrNotFound

/-! ## internal/service/deployment_service.go: target resolution -/

/-- The assignment `deviceIDSet[id] = true` on the Go map used as a set; the
set is kept as a duplicate-free list in order of first insertion. -/
def setInsert (set : List UUID) (id : UUID) : List UUID :=
  if id ∈ set then set else set ++ [id]

/-- The filter literal of the tag listing in `resolveTargets`. -/
def tagFilter (tags : List String) : DeviceFilter :=
  { Status := some DeviceStatus.Accepted, DeviceType := none, Tags := tags,
    Page := 1, PerPage := 100 }

/-- The filter literal of the per-type listing in `resolveTargets`. -/
def typeFilter (dt : String) : DeviceFilter :=
  { Status := some DeviceStatus.Accepted, DeviceType := some dt, Tags := [],
    Page := 1, PerPage := 100 }

/-- First loop of `resolveTargets`: explicitly targeted devices. A missing
device is skipped; a found one is added only when accepted. -/
def resolveExplicit (s : Store) (ids : List UUID) (set : List UUID) : List UUID :=
  ids.foldl (fun acc id =>
    match DeviceRepo.GetByID s id with
    | .error _ => acc
    | .ok device => if device.Status = DeviceStatus.Accepted then setInsert acc id else acc) set

/-- Second block of `resolveTargets`: one listing of accepted devices carrying
all requested tags (page 1, 100 per page), run only when tags are given. -/
def resolveTags (s : Store) (tags : List String) (set : List UUID) : List UUID :=
  if tags.length > 0 then
    (DeviceRepo.List s (tagFilter tags)).1.foldl (fun acc d => setInsert acc d.ID) set
  else set

/-- Third block of `resolveTargets`: one listing of accepted devices per target
type (page 1, 100 per page). -/
def resolveTypes (s : Store) (targetTypes : List String) (set : List UUID) : List UUID :=
  targetTypes.foldl (fun acc dt =>
    (DeviceRepo.List s (typeFilter dt)).1.foldl (fun acc2 d => setInsert acc2 d.ID) acc) set

/-- `DeploymentService.resolveTargets`. The Go function returns the keys of the
set in map-iteration order; here they come in order of first insertion. -/
def DeploymentService.resolveTargets (s : Store) (input : CreateDeploymentInput)
    (artifact : Artifact) : List UUID :=
  let set0 := resolveExplicit s input.TargetDeviceIDs []
  let set1 := resolveTags s input.TargetDeviceTags set0
  let targetTypes :=
    if input.TargetDeviceTypes.length = 0 then artifact.DeviceTypes else input.TargetDeviceTypes
  resolveTypes s targetTypes set1

/-! ## internal/repository/postgres/deployment_repo.go -/

/-- `DeploymentRepo.Create`: `INSERT INTO deployments (...) RETURNING id,
created_at`. The row gets a generated id and `created_at = NOW()`; the two
nullable timestamps are not part of the insert. The caller's struct receives
the id and the creation time and is otherwise unchanged. -/
def DeploymentRepo.Create (s : Store) (now : Nat) (d : Deployment) : Store × Deployment :=
  let d1 := { d with ID := s.freshID, CreatedAt := now }
  let row := { d1 with StartedAt := none, FinishedAt := none }
  ({ s with deployments := s.deployments ++ [row] }, d1)

/-- `DeploymentRepo.GetByID`: `SELECT ... FROM deployments WHERE id = $1`. -/
def DeploymentRepo.GetByID (s : Store) (id : UUID) : Except DomainError Deployment :=
  match s.deployments.find? (fun d => decide (d.ID = id)) with
  | some d => .ok d
  | none => .error .ErrNotFound

/-- `DeploymentRepo.SetStarted`:
`UPDATE deployments SET started_at = NOW(), status = 'active' WHERE id = $1`.
The number of affected rows is not inspected. -/
def DeploymentRepo.SetStarted (s : Store) (now : Nat) (id : UUID) : Store :=
  { s with deployments := s.deployments.map (fun d =>
      if d.ID = id then { d with StartedAt := some now, Status := DeploymentStatus.Active }
      else d) }

/-- `DeploymentRepo.SetFinished`:
`UPDATE deployments SET finished_at = NOW(), status = 'completed' WHERE id = $1`. -/
def DeploymentRepo.SetFinished (s : Store) (now : Nat) (id : UUID) : Store :=
  { s with deployments := s.deployments.map (fun d =>
      if d.ID = id then { d with FinishedAt := some now, Status := DeploymentStatus.Completed }
      else d) }

/-- `DeploymentRepo.CreateDeploymentDevice`:
`INSERT INTO deployment_devices (deployment_id, device_id, status) ... RETURNING id`.
Modelled from the spec: the table declaration is not part of the source; the
spec requires `deployment_devices(deployment_id, device_id) UNIQUE`, whose
violation is the `ErrConflict` branch, and a fresh row has `attempts = 0`, an
empty log and no timestamps. -/
def DeploymentRepo.CreateDeploymentDevice (s : Store) (dd : DeploymentDevice) :
    Store × Except DomainError DeploymentDevice :=
  if s.deploymentDevices.any
      (fun r => decide (r.DeploymentID = dd.DeploymentID ∧ r.DeviceID = dd.DeviceID)) then
    (s, .error .ErrConflict)
  else
    let dd1 := { dd with ID := s.freshID }
    let row : DeploymentDevice :=
      { ID := s.freshID, DeploymentID := dd.DeploymentID, DeviceID := dd.DeviceID,
        Status := dd.Status, Attempts := 0, Log := "", StartedAt := none, FinishedAt := none }
    ({ s with deploymentDevices := s.deploymentDevices ++ [row] }, .ok dd1)

/-- `DeploymentRepo.GetDeploymentDevices`:
`SELECT ... FROM deployment_devices WHERE deployment_id = $1 ORDER BY device_id`. -/
def DeploymentRepo.GetDeploymentDevices (s : Store) (deploymentID : UUID) :
    List DeploymentDevice :=
  (s.deploymentDevices.filter (fun r => decide (r.DeploymentID = deploymentID))).insertionSort
    (fun a b => a.DeviceID ≤ b.DeviceID)

/-- The rows of the three-table join of `GetPendingDeploymentForDevice`
(`deployment_devices JOIN deployments JOIN artifacts`) that pass its `WHERE`
clause, in physical order. -/
def DeploymentRepo.pendingJoin (s : Store) (deviceID : UUID) :
    List (DeploymentDevice × Deployment × Artifact) :=
  (s.deploymentDevices.flatMap (fun dd =>
    (s.deployments.filter (fun d => decide (d.ID = dd.DeploymentID))).flatMap (fun d =>
      (s.artifacts.filter (fun a => decide (a.ID = d.ArtifactID))).map (fun a => (dd, d, a))))).filter
    (fun r => decide (r.1.DeviceID = deviceID ∧ r.1.Status = DeploymentDeviceStatus.Pending ∧
      (r.2.1.Status = DeploymentStatus.Scheduled ∨ r.2.1.Status = DeploymentStatus.Active)))

/-- The columns that `GetPendingDeploymentForDevice` scans into its three
result structs; every other field keeps its Go zero value. -/
def DeploymentRepo.scanPending (r : DeploymentDevice × Deployment × Artifact) :
    DeploymentDevice × Deployment × Artifact :=
  ({ ID := r.1.ID, DeploymentID := r.1.DeploymentID, DeviceID := r.1.DeviceID,
     Status := r.1.Status, Attempts := r.1.Attempts, Log := "", StartedAt := none,
     FinishedAt := none },
   { ID := r.2.1.ID, Name := r.2.1.Name, ArtifactID := r.2.1.ArtifactID,
     Status := r.2.1.Status, TargetDeviceIDs := [], TargetDeviceTags := [],
     TargetDeviceTypes := [], MaxParallel := 0, CreatedAt := 0, StartedAt := none,
     FinishedAt := none },
   { r.2.2 with Description := "", CreatedAt := 0 })

/-- `DeploymentRepo.GetPendingDeploymentForDevice`: the join ordered by
`d.created_at ASC`, `LIMIT 1`. The query names no second sort key, so SQL
leaves the order of rows with equal `created_at` open; here such rows are
taken in physical order, which is one of the results the query may give. -/
def DeploymentRepo.GetPendingDeploymentForDevice (s : Store) (deviceID : UUID) :
    Except DomainError (DeploymentDevice × Deployment × Artifact) :=
  match (DeploymentRepo.pendingJoin s deviceID).insertionSort
      (fun a b => a.2.1.CreatedAt ≤ b.2.1.CreatedAt) with
  | [] => .error .ErrNotFound
  | r :: _ => .ok (DeploymentRepo.scanPending r)

/-- The `SET` clause that `UpdateDeploymentDeviceStatus` picks for a status. -/
def DeploymentRepo.applyStatus (now : Nat) (status : DeploymentDeviceStatus) (log : String)
    (r : DeploymentDevice) : DeploymentDevice :=
  match status with
  | .Downloading | .Installing =>
    { r with Status := status, Log := log, Attempts := r.Attempts + 1,
             StartedAt := some (r.StartedAt.getD now) }
  | .Success | .Failure =>
    { r with Status := status, Log := log, FinishedAt := some now }
  | _ => { r with Status := status, Log := log }

/-- `DeploymentRepo.UpdateDeploymentDeviceStatus`: `UPDATE deployment_devices
SET ... WHERE id = $3`; `ErrNotFound` when no row is affected. -/
def DeploymentRepo.UpdateDeploymentDeviceStatus (s : Store) (now : Nat) (id : UUID)
    (status : DeploymentDeviceStatus) (log : String) : Store × Except DomainError Unit :=
  if s.deploymentDevices.any (fun r => decide (r.ID = id)) then
    ({ s with deploymentDevices := s.deploymentDevices.map (fun r =>
        if r.ID = id then DeploymentRepo.applyStatus now status log r else r) }, .ok ())
  else (s, .error .ErrNotFound)

/-! ## internal/service/deployment_service.go: operations -/

/-- The `domain.Deployment` literal that `Create` builds from its input. -/
def newDeployment (input : CreateDeploymentInput) : Deployment :=
  { ID := 0, Name := input.Name, ArtifactID := input.ArtifactID,
    Status := DeploymentStatus.Scheduled, TargetDeviceIDs := input.TargetDeviceIDs,
    TargetDeviceTags := input.TargetDeviceTags, TargetDeviceTypes := input.TargetDeviceTypes,
    MaxParallel := input.MaxParallel, CreatedAt := 0, StartedAt := none, FinishedAt := none }

/-- The `domain.DeploymentDevice` literal of the insert loop of `Create`. -/
def pendingRow (deploymentID deviceID : UUID) : DeploymentDevice :=
  { ID := 0, DeploymentID := deploymentID, DeviceID := deviceID,
    Status := DeploymentDeviceStatus.Pending, Attempts := 0, Log := "", StartedAt := none,
    FinishedAt := none }

/-- The insert loop of `Create`: one `CreateDeploymentDevice` per resolved
device. A conflict is skipped and any other error is only logged, so the loop
carries on with the store each insert leaves behind. -/
def createDeviceRows (s : Store) (deploymentID : UUID) (deviceIDs : List UUID) : Store :=
  deviceIDs.foldl (fun st deviceID =>
    (DeploymentRepo.CreateDeploymentDevice st (pendingRow deploymentID deviceID)).1) s

/-- `DeploymentService.Create`. The value returned on success is the local
`deployment` struct, which `DeploymentRepo.Create` filled with the generated id
and creation time; `SetStarted` receives the id only. -/
def DeploymentService.Create (s : Store) (now : Nat) (input : CreateDeploymentInput) :
    Store × Except DomainError Deployment :=
  if input.Name = "" then (s, .error .ErrInvalidInput)
  else
    match ArtifactRepo.GetByID s input.ArtifactID with
    | .error e => (s, .error e)
    | .ok artifact =>
      let deviceIDs := DeploymentService.resolveTargets s input artifact
      if deviceIDs.length = 0 then (s, .error .ErrInvalidInput)
      else
        let created := DeploymentRepo.Create s now (newDeployment input)
        let s2 := createDeviceRows created.1 created.2.ID deviceIDs
        let s3 := DeploymentRepo.SetStarted s2 now created.2.ID
        (s3, .ok created.2)

/-- `DeploymentService.GetNextForDevice`: the repository query, unchanged. It
reads the store and leaves it as it is. -/
def DeploymentService.GetNextForDevice (s : Store) (deviceID : UUID) :
    Store × Except DomainError (DeploymentDevice × Deployment × Artifact) :=
  (s, DeploymentRepo.GetPendingDeploymentForDevice s deviceID)

/-- `DeploymentService.checkDeploymentCompletion`: the body holds two comments
and no statement. -/
def DeploymentService.checkDeploymentCompletion (s : Store) (_ddID : UUID) : Store :=
  s

/-- `DeploymentService.UpdateDeviceStatus`. -/
def DeploymentService.UpdateDeviceStatus (s : Store) (now : Nat) (ddID : UUID)
    (status : DeploymentDeviceStatus) (log : String) : Store × Except DomainError Unit :=
  match DeploymentRepo.UpdateDeploymentDeviceStatus s now ddID status log with
  | (s1, .error e) => (s1, .error e)
  | (s1, .ok _) =>
    if status = DeploymentDeviceStatus.Success ∨ status = DeploymentDeviceStatus.Failure then
      (DeploymentService.checkDeploymentCompletion s1 ddID, .ok ())
    else (s1, .ok ())

/-- `DeploymentRepo.UpdateStatus`: `UPDATE deployments SET status = $1 WHERE
id = $2`; `ErrNotFound` when no row is affected. No timestamp is written. -/
def DeploymentRepo.UpdateStatus (s : Store) (id : UUID) (status : DeploymentStatus) :
    Store × Except DomainError Unit :=
  if s.deployments.any (fun d => decide (d.ID = id)) then
    ({ s with deployments := s.deployments.map (fun d =>
        if d.ID = id then { d with Status := status } else d) }, .ok ())
  else (s, .error .ErrNotFound)

/-- The loop of `Cancel` over the rows read by `GetDeploymentDevices`: for each
row that was pending when read, one `UpdateDeploymentDeviceStatus` by the
row's id to skipped with the log `deployment cancelled`; the result of that
call is discarded. -/
def skipPending (s : Store) (now : Nat) (devices : List DeploymentDevice) : Store :=
  devices.foldl (fun st dd =>
    if dd.Status = DeploymentDeviceStatus.Pending then
      (DeploymentRepo.UpdateDeploymentDeviceStatus st now dd.ID
        DeploymentDeviceStatus.Skipped "deployment cancelled").1
    else st) s

/-- `DeploymentService.Cancel`. -/
def DeploymentService.Cancel (s : Store) (now : Nat) (id : UUID) :
    Store × Except DomainError Unit :=
  match DeploymentRepo.GetByID s id with
  | .error e => (s, .error e)
  | .ok dep =>
    if dep.Status = DeploymentStatus.Completed ∨ dep.Status = DeploymentStatus.Cancelled then
      (s, .error .ErrInvalidInput)
    else
      let devices := DeploymentRepo.GetDeploymentDevices s id
      let s1 := skipPending s now devices
      DeploymentRepo.UpdateStatus s1 id DeploymentStatus.Cancelled

/-- The row that the skip update of `Cancel` writes: status skipped and the
log `deployment cancelled`, every other column kept. -/
def skipRow (r : DeploymentDevice) : DeploymentDevice :=
  { r with Status := DeploymentDeviceStatus.Skipped, Log := "deployment cancelled" }

/-- The ids that the loop of `Cancel` updates for a list of rows: the ids of
those that are pending. -/
def pendingIDs (devices : List DeploymentDevice) : List UUID :=
  (devices.filter (fun dd => decide (dd.Status = DeploymentDeviceStatus.Pending))).map
    (fun dd => dd.ID)

/-! ## Sequences of engine calls -/

/-- A call of the engine that can touch a work row after its creation: a
status report (`UpdateDeviceStatus`) or a cancellation (`Cancel`). -/
inductive EngineOp where
  | report (ddID : UUID) (status : DeploymentDeviceStatus) (log : String)
  | cancel (deploymentID : UUID)
  deriving DecidableEq, Repr

/-- The store a call leaves behind when made at clock time `now`; the error
result is dropped. -/
def EngineOp.apply (s : Store) (now : Nat) : EngineOp → Store
  | .report ddID status log => (DeploymentService.UpdateDeviceStatus s now ddID status log).1
  | .cancel deploymentID => (DeploymentService.Cancel s now deploymentID).1

/-- The store after a sequence of timed calls, applied in order. -/
def runOps (s : Store) : List (Nat × EngineOp) → Store
  | [] => s
  | (now, op) :: rest => runOps (op.apply s now) rest

/-- The clock times of a sequence of calls never decrease and none is earlier
than `clock`. -/
def nonDecreasingFrom (clock : Nat) : List (Nat × EngineOp) → Prop
  | [] => True
  | (now, _) :: rest => clock ≤ now ∧ nonDecreasingFrom now rest

/-- A call does not report downloading or installing for a row that already
has a finish time and no start time. -/
def EngineOp.startsUnfinished (s : Store) : EngineOp → Prop
  | .report ddID status _ =>
    status = DeploymentDeviceStatus.Downloading ∨ status = DeploymentDeviceStatus.Installing →
      ∀ r ∈ s.deploymentDevices, r.ID = ddID → r.StartedAt = none → r.FinishedAt = none
  | .cancel _ => True

/-- Every call of the sequence satisfies `startsUnfinished` in the store it is
made on. -/
def startsUnfinishedRun (s : Store) : List (Nat × EngineOp) → Prop
  | [] => True
  | (now, op) :: rest => op.startsUnfinished s ∧ startsUnfinishedRun (op.apply s now) rest

instance instDecidableNonDecreasingFrom (clock : Nat) (ops : List (Nat × EngineOp)) :
    Decidable (nonDecreasingFrom clock ops) := by
  induction ops generalizing clock with
  | nil => exact isTrue trivial
  | cons x rest ih =>
    obtain ⟨now, op⟩ := x
    unfold nonDecreasingFrom
    haveI := ih now
    infer_instance

instance instDecidableStartsUnfinished (s : Store) (op : EngineOp) :
    Decidable (op.startsUnfinished s) := by
  cases op with
  | report ddID status log => unfold EngineOp.startsUnfinished; infer_instance
  | cancel deploymentID => exact isTrue trivial

instance instDecidableStartsUnfinishedRun (s : Store) (ops : List (Nat × EngineOp)) :
    Decidable (startsUnfinishedRun s ops) := by
  induction ops generalizing s with
  | nil => exact isTrue trivial
  | cons x rest ih =>
    obtain ⟨now, op⟩ := x
    unfold startsUnfinishedRun
    haveI := ih (op.apply s now)
    infer_instance

/-- The timestamps of a work row are consistent at clock time `clock`: none is
later than the clock and the finish time is not before the start time. -/
def rowTimesOK (clock : Nat) (r : DeploymentDevice) : Prop :=
  (∀ a, r.StartedAt = some a → a ≤ clock) ∧ (∀ b, r.FinishedAt = some b → b ≤ clock) ∧
  (∀ a b, r.StartedAt = some a → r.FinishedAt = some b → a ≤ b)

/-! ## Library functions used by the device registry -/

/-- The two library functions the registry calls, left abstract: `sha256` is
`crypto/sha256.Sum256` applied to the bytes of a string, giving the digest
bytes; `jsonString` is the encoding of one string by `encoding/json`, quotes
included. -/
structure Lib where
  sha256 : String → List Nat
  jsonString : String → String

/-- The digit alphabet of `encoding/hex`. -/
def hexDigits : List Char := "0123456789abcdef".toList

/-- One digit of `hex.EncodeToString`, for a value below 16. -/
def hexDigit (n : Nat) : Char := hexDigits.getD n '0'

/-- `hex.EncodeToString`: two lowercase digits per byte, high nibble first. -/
def hexEncode (bytes : List Nat) : String :=
  String.mk (bytes.flatMap (fun b => [hexDigit (b % 256 / 16), hexDigit (b % 16)]))

/-! ## internal/auth/device_token.go -/

/-- `auth.HashToken`: hex of the SHA-256 of the token. -/
def HashToken (lib : Lib) (token : String) : String :=
  hexEncode (lib.sha256 token)

/-- The 32 bytes that `rand.Read` writes, taken from an entropy source. -/
def randRead (entropy : Nat → Nat) (n : Nat) : List Nat :=
  (List.range n).map (fun i => entropy i % 256)

/-- `auth.GenerateDeviceToken`: the hex of 32 random bytes and its hash. A
failing `rand.Read` is not modelled. -/
def GenerateDeviceToken (lib : Lib) (entropy : Nat → Nat) : String × String :=
  let token := hexEncode (randRead entropy 32)
  (token, HashToken lib token)

/-! ## internal/service/device_service.go and device_repo.go: admission -/

/-- Lexicographic comparison of two character sequences by code point, which
is the order of their UTF-8 bytes. -/
def charsLE : List Char → List Char → Bool
  | [], _ => true
  | _ :: _, [] => false
  | a :: as, b :: bs =>
    if a.toNat < b.toNat then true
    else if b.toNat < a.toNat then false
    else charsLE as bs

/-- The order in which `encoding/json` sorts the keys of a map: Go string
comparison. -/
def keyLE (a b : String) : Bool := charsLE a.data b.data

/-- `json.Marshal` of a `map[string]string`: a compact object whose members
come in the order of the sorted keys. -/
def jsonMarshalMap (lib : Lib) (data : List (String × String)) : String :=
  "\x7b" ++ String.intercalate ","
    ((data.insertionSort (fun a b => keyLE a.1 b.1 = true)).map
      (fun kv => lib.jsonString kv.1 ++ ":" ++ lib.jsonString kv.2)) ++ "\x7d"

/-- `computeIdentityHash`: hex of the SHA-256 of the marshalled map. The
sorted key slice that the function builds first is not used by it. -/
def computeIdentityHash (lib : Lib) (data : List (String × String)) : String :=
  hexEncode (lib.sha256 (jsonMarshalMap lib data))

/-- `DeviceRepo.Create`: `INSERT INTO devices (identity_hash, identity_data,
status, device_type, inventory, tags) ... RETURNING id, created_at,
updated_at`. Modelled from the spec: the table declaration is not part of the
source; the spec requires `devices(identity_hash) UNIQUE`, whose violation is
the `ErrConflict` branch, and a fresh row has an empty `auth_token_hash` and
no check-in time. -/
def DeviceRepo.Create (s : Store) (now : Nat) (d : Device) : Store × Except DomainError Device :=
  if s.devices.any (fun e => decide (e.IdentityHash = d.IdentityHash)) then
    (s, .error .ErrConflict)
  else
    let d1 := { d with ID := s.freshID, CreatedAt := now, UpdatedAt := now }
    let row := { d1 with AuthTokenHash := "", LastCheckIn := none }
    ({ s with devices := s.devices ++ [row] }, .ok d1)

/-- `DeviceRepo.GetByIdentityHash`: `SELECT ... FROM devices WHERE
identity_hash = $1`. -/
def DeviceRepo.GetByIdentityHash (s : Store) (hash : String) : Except DomainError Device :=
  match s.devices.find? (fun d => decide (d.IdentityHash = hash)) with
  | some d => .ok d
  | none => .error .ErrNotFound

/-- `DeviceRepo.UpdateAuthToken`: `UPDATE devices SET auth_token_hash = $1,
updated_at = NOW() WHERE id = $2`; `ErrNotFound` when no row is affected. -/
def DeviceRepo.UpdateAuthToken (s : Store) (now : Nat) (id : UUID) (tokenHash : String) :
    Store × Except DomainError Unit :=
  if s.devices.any (fun d => decide (d.ID = id)) then
    ({ s with devices := s.devices.map (fun d =>
        if d.ID = id then { d with AuthTokenHash := tokenHash, UpdatedAt := now } else d) },
      .ok ())
  else (s, .error .ErrNotFound)

/-- `DeviceRepo.UpdateLastCheckIn`: `UPDATE devices SET last_check_in = NOW(),
updated_at = NOW() WHERE id = $1`. The number of affected rows is not
inspected. -/
def DeviceRepo.UpdateLastCheckIn (s : Store) (now : Nat) (id : UUID) : Store :=
  { s with devices := s.devices.map (fun d =>
      if d.ID = id then { d with LastCheckIn := some now, UpdatedAt := now } else d) }

/-- The `domain.Device` literal that `Authenticate` builds for an unknown
identity. -/
def newDevice (hash : String) (identityData : List (String × String)) (deviceType : String) :
    Device :=
  { ID := 0, IdentityHash := hash, IdentityData := identityData,
    Status := DeviceStatus.Pending, AuthTokenHash := "", Inventory := [],
    DeviceType := deviceType, Tags := [], LastCheckIn := none, CreatedAt := 0, UpdatedAt := 0 }

/-- The first half of `Authenticate` after the input check: look the device
up by hash and, when it is not found, insert it as pending; on a conflict of
that insert, look it up again. -/
def lookupOrRegister (s : Store) (now : Nat) (hash : String)
    (identityData : List (String × String)) (deviceType : String) :
    Store × Except DomainError Device :=
  match DeviceRepo.GetByIdentityHash s hash with
  | .ok device => (s, .ok device)
  | .error e =>
    if e = DomainError.ErrNotFound then
      match DeviceRepo.Create s now (newDevice hash identityData deviceType) with
      | (s1, .ok device) => (s1, .ok device)
      | (s1, .error e2) =>
        if e2 = DomainError.ErrConflict then (s1, DeviceRepo.GetByIdentityHash s1 hash)
        else (s1, .error e2)
    else (s, .error e)

/-- The `switch device.Status` of `Authenticate`. For an accepted device a
new token is generated, its hash is stored and the check-in time is updated;
the result of the check-in update is discarded. -/
def issueByStatus (lib : Lib) (s : Store) (now : Nat) (entropy : Nat → Nat) (device : Device) :
    Store × Except DomainError String :=
  match device.Status with
  | .Pending => (s, .error .ErrDevicePending)
  | .Rejected => (s, .error .ErrDeviceRejected)
  | .Decommissioned => (s, .error .ErrDeviceRejected)
  | .Accepted =>
    let generated := GenerateDeviceToken lib entropy
    match DeviceRepo.UpdateAuthToken s now device.ID generated.2 with
    | (s1, .error e) => (s1, .error e)
    | (s1, .ok _) => (DeviceRepo.UpdateLastCheckIn s1 now device.ID, .ok generated.1)

/-- `DeviceService.Authenticate`. The identity map is a list of key and value
pairs. -/
def DeviceService.Authenticate (lib : Lib) (s : Store) (now : Nat) (entropy : Nat → Nat)
    (identityData : List (String × String)) : Store × Except DomainError String :=
  match identityData.lookup "device_type" with
  | none => (s, .error .ErrInvalidInput)
  | some deviceType =>
    if deviceType = "" then (s, .error .ErrInvalidInput)
    else
      match lookupOrRegister s now (computeIdentityHash lib identityData) identityData
          deviceType with
      | (s1, .error e) => (s1, .error e)
      | (s1, .ok device) => issueByStatus lib s1 now entropy device

/-! ## internal/service/device_service.go: token validation and registry updates -/

/-- A string-keyed map of the registry (inventory), as a list of members. -/
abbrev StringMap := List (String × String)

/-- A string slice (tags). -/
abbrev StringList := List String

/-- The filter literal of `findByTokenHash`: no condition, page 1, 100 rows. -/
def tokenScanFilter : DeviceFilter :=
  { Status := none, DeviceType := none, Tags := [], Page := 1, PerPage := 100 }

/-- `DeviceService.findByTokenHash`: one listing of devices (page 1, 100 per
page) and a scan of the listed structs for the first one whose
`AuthTokenHash` is the given hash and whose status is accepted. -/
def DeviceService.findByTokenHash (s : Store) (tokenHash : String) : Except DomainError Device :=
  match (DeviceRepo.List s tokenScanFilter).1.find?
      (fun d => decide (d.AuthTokenHash = tokenHash ∧ d.Status = DeviceStatus.Accepted)) with
  | some d => .ok d
  | none => .error .ErrUnauthorized

/-- `DeviceService.ValidateToken`. -/
def DeviceService.ValidateToken (lib : Lib) (s : Store) (token : String) :
    Except DomainError Device :=
  DeviceService.findByTokenHash s (HashToken lib token)

/-- `DeviceRepo.UpdateStatus`: `UPDATE devices SET status = $1, updated_at =
NOW() WHERE id = $2`; `ErrNotFound` when no row is affected. -/
def DeviceRepo.UpdateStatus (s : Store) (now : Nat) (id : UUID) (status : DeviceStatus) :
    Store × Except DomainError Unit :=
  if s.devices.any (fun d => decide (d.ID = id)) then
    ({ s with devices := s.devices.map (fun d =>
        if d.ID = id then { d with Status := status, UpdatedAt := now } else d) }, .ok ())
  else (s, .error .ErrNotFound)

/-- `DeviceRepo.UpdateInventory`: `UPDATE devices SET inventory = $1,
updated_at = NOW() WHERE id = $2`; `ErrNotFound` when no row is affected. -/
def DeviceRepo.UpdateInventory (s : Store) (now : Nat) (id : UUID)
    (inventory : StringMap) : Store × Except DomainError Unit :=
  if s.devices.any (fun d => decide (d.ID = id)) then
    ({ s with devices := s.devices.map (fun d =>
        if d.ID = id then { d with Inventory := inventory, UpdatedAt := now } else d) }, .ok ())
  else (s, .error .ErrNotFound)

/-- `DeviceRepo.UpdateTags`: `UPDATE devices SET tags = $1, updated_at = NOW()
WHERE id = $2`; `ErrNotFound` when no row is affected. -/
def DeviceRepo.UpdateTags (s : Store) (now : Nat) (id : UUID) (tags : StringList) :
    Store × Except DomainError Unit :=
  if s.devices.any (fun d => decide (d.ID = id)) then
    ({ s with devices := s.devices.map (fun d =>
        if d.ID = id then { d with Tags := tags, UpdatedAt := now } else d) }, .ok ())
  else (s, .error .ErrNotFound)

/-- `DeviceRepo.Delete`: `UPDATE devices SET status = 'decommissioned',
updated_at = NOW() WHERE id = $1`; `ErrNotFound` when no row is affected. No
row is removed. -/
def DeviceRepo.Delete (s : Store) (now : Nat) (id : UUID) : Store × Except DomainError Unit :=
  if s.devices.any (fun d => decide (d.ID = id)) then
    ({ s with devices := s.devices.map (fun d =>
        if d.ID = id then { d with Status := DeviceStatus.Decommissioned, UpdatedAt := now }
        else d) }, .ok ())
  else (s, .error .ErrNotFound)

/-- `DeviceService.UpdateStatus`: the repository call, unchanged. -/
def DeviceService.UpdateStatus (s : Store) (now : Nat) (id : UUID) (status : DeviceStatus) :
    Store × Except DomainError Unit :=
  DeviceRepo.UpdateStatus s now id status

/-- `DeviceService.UpdateInventory`: the repository call, unchanged. -/
def DeviceService.UpdateInventory (s : Store) (now : Nat) (id : UUID)
    (inventory : StringMap) : Store × Except DomainError Unit :=
  DeviceRepo.UpdateInventory s now id inventory

/-- `DeviceService.UpdateTags`: the repository call, unchanged. -/
def DeviceService.UpdateTags (s : Store) (now : Nat) (id : UUID) (tags : StringList) :
    Store × Except DomainError Unit :=
  DeviceRepo.UpdateTags s now id tags

/-- `DeviceService.Decommission`: `DeviceRepo.Delete`. -/
def DeviceService.Decommission (s : Store) (now : Nat) (id : UUID) :
    Store × Except DomainError Unit :=
  DeviceRepo.Delete s now id

/-! ## internal/api/management/device_handler.go -/

/-- The answer that the update handlers give for the result of a service
call: 404 for `ErrNotFound`, 500 for another error, 204 on success. -/
def respondNoContent (r : Store × Except DomainError Unit) : Store × Nat :=
  match r with
  | (s1, .error e) => if e = DomainError.ErrNotFound then (s1, 404) else (s1, 500)
  | (s1, .ok _) => (s1, 204)

/-- `DeviceHandler.UpdateStatus` of the management API, after the id and the
request body were parsed: the status must be `accepted` or `rejected`
(otherwise 400); the service call answers 404 for `ErrNotFound`, 500 for
another error and 204 on success. The result is the store and the HTTP
status. -/
def DeviceHandler.UpdateStatus (s : Store) (now : Nat) (id : UUID) (status : String) :
    Store × Nat :=
  if status = "accepted" then
    respondNoContent (DeviceService.UpdateStatus s now id DeviceStatus.Accepted)
  else if status = "rejected" then
    respondNoContent (DeviceService.UpdateStatus s now id DeviceStatus.Rejected)
  else (s, 400)

/-! ## internal/api/device/deployment_handler.go: status reports -/

/-- The conversion `domain.DeploymentDeviceStatus(req.Status)` followed by the
`switch` of the device `UpdateStatus` handler: the four statuses a device may
report; every other string is refused. -/
def reportableStatus (status : String) : Option DeploymentDeviceStatus :=
  if status = "downloading" then some DeploymentDeviceStatus.Downloading
  else if status = "installing" then some DeploymentDeviceStatus.Installing
  else if status = "success" then some DeploymentDeviceStatus.Success
  else if status = "failure" then some DeploymentDeviceStatus.Failure
  else none

/-- `DeploymentHandler.UpdateStatus` of the device API, after the row id of
the URL and the request body were parsed. `deviceID` is the id that the
device authentication put in the request context; the handler does not read
it. The result is the store and the HTTP status. -/
def DeploymentHandler.UpdateStatus (s : Store) (now : Nat) (_deviceID : UUID) (ddID : UUID)
    (status : String) (log : String) : Store × Nat :=
  match reportableStatus status with
  | none => (s, 400)
  | some st => respondNoContent (DeploymentService.UpdateDeviceStatus s now ddID st log)

/-! ## internal/storage/local/local.go -/

/-- Library functions used by the artifact store, left abstract: `sum256` is
the digest of `crypto/sha256` over a byte sequence; `dateDir` is
`time.Now().Format("2006/01/02")` for a clock value; `join` is
`filepath.Join` of two path elements; `parents` gives the directories above a
path, nearest first, as repeated `filepath.Dir` does. -/
structure StoreLib where
  sum256 : List Nat → List Nat
  dateDir : Nat → String
  join : String → String → String
  parents : String → List String

/-- The state of `LocalStore`: its base path and the file system, as the
paths of the directories and the regular files, each file with its bytes.
Failures of the operating system other than those of a missing or misplaced
path (permissions, a full disk) are not modelled. -/
structure LocalStore where
  basePath : String
  dirs : List String
  files : List (String × List Nat)
  deriving DecidableEq, Repr

/-- An `io.Reader` over a byte sequence: the bytes, the read offset, and
whether the stream ends in a read error instead of the end of the file. -/
structure Reader where
  data : List Nat
  offset : Nat
  fails : Bool
  deriving DecidableEq, Repr

/-- The bytes a reader still has to give. -/
def Reader.remaining (r : Reader) : List Nat := r.data.drop r.offset

/-- The reader after it was read to the end, as `io.Copy` does. -/
def Reader.drain (r : Reader) : Reader := { r with offset := max r.offset r.data.length }

/-- `os.MkdirAll`: it fails when the path or a directory above it is a
regular file; otherwise the path and the directories above it exist
afterwards. -/
def mkdirAll (lib : StoreLib) (fs : LocalStore) (dir : String) : Option LocalStore :=
  if (dir :: lib.parents dir).any (fun p => (fs.files.lookup p).isSome) then none
  else some { fs with dirs := fs.dirs ++
    (dir :: lib.parents dir).filter (fun p => decide (p ∉ fs.dirs)) }

/-- Whether `os.Create` of a path succeeds: the directory right above the
path exists and the path is not itself a directory. -/
def canCreate (lib : StoreLib) (fs : LocalStore) (path : String) : Bool :=
  match lib.parents path with
  | [] => false
  | p :: _ => decide (p ∈ fs.dirs ∧ path ∉ fs.dirs)

/-- The write that follows a successful `os.Create` of a path: the file at
the path is created or truncated and then holds exactly the bytes. -/
def writeFile (files : List (String × List Nat)) (path : String) (bytes : List Nat) :
    List (String × List Nat) :=
  (path, bytes) :: files.filter (fun f => decide (f.1 ≠ path))

/-- `LocalStore.Save`: `MkdirAll` of `basePath/<date>`, `os.Create` of
`basePath/<date>/<name>` (which truncates the file when it exists) and the
copy of the reader into it to the end. The result is the store, the reader
and, on success, the path and the number of bytes copied; it is `none` when
the date directory cannot be made, when the file cannot be created (nothing
is read then), or when the copy ends in a read error (the file is removed
then). -/
def LocalStore.Save (lib : StoreLib) (fs : LocalStore) (now : Nat) (name : String)
    (reader : Reader) : LocalStore × Reader × Option (String × Int) :=
  let dir := lib.join fs.basePath (lib.dateDir now)
  match mkdirAll lib fs dir with
  | none => (fs, reader, none)
  | some fs1 =>
    let path := lib.join dir name
    if canCreate lib fs1 path = true then
      if reader.fails = true then
        ({ fs1 with files := fs1.files.filter (fun f => decide (f.1 ≠ path)) }, reader.drain, none)
      else
        ({ fs1 with files := writeFile fs1.files path reader.remaining }, reader.drain,
          some (path, (reader.remaining.length : Int)))
    else (fs1, reader, none)

/-- `LocalStore.Open`: the bytes that the reader of `os.Open` gives, or `none`
when `os.Open` fails because nothing exists at the path. The reader of a
directory gives no byte. -/
def LocalStore.Open (fs : LocalStore) (path : String) : Option (List Nat) :=
  match fs.files.lookup path with
  | some bytes => some bytes
  | none => if path ∈ fs.dirs then some [] else none

/-- `LocalStore.Delete`: `os.Remove` of the path of a regular file; a missing
file is not an error. -/
def LocalStore.Delete (fs : LocalStore) (path : String) : LocalStore :=
  { fs with files := fs.files.filter (fun f => decide (f.1 ≠ path)) }

/-! ## internal/repository/postgres/artifact_repo.go: insert, list, delete -/

/-- `ArtifactRepo.Create`: `INSERT INTO artifacts (...) RETURNING id,
created_at`. Modelled from the spec: the table declaration is not part of the
source; the spec requires `artifacts(name, version) UNIQUE`, whose violation
is the `ErrConflict` branch. -/
def ArtifactRepo.Create (s : Store) (now : Nat) (a : Artifact) :
    Store × Except DomainError Artifact :=
  if s.artifacts.any (fun e => decide (e.Name = a.Name ∧ e.Version = a.Version)) then
    (s, .error .ErrConflict)
  else
    let a1 := { a with ID := s.freshID, CreatedAt := now }
    ({ s with artifacts := s.artifacts ++ [a1] }, .ok a1)

/-- Filter of an artifact listing (`domain.ArtifactFilter`). The `Name`
condition (`name ILIKE`) is left out: no caller modelled here sets it.
`SortBy` and `SortOrder` are left empty by the caller, so the listing order
is the default `created_at DESC`. -/
structure ArtifactFilter where
  DeviceType : Option String
  Page : Int
  PerPage : Int
  deriving DecidableEq, Repr

/-- `ArtifactRepo.List`: page and per-page normalisation, the filtered rows in
`created_at DESC` order, `LIMIT per_page OFFSET (page-1)*per_page`, together
with the total count of matching rows. -/
def ArtifactRepo.List (s : Store) (f : ArtifactFilter) : List Artifact × Nat :=
  let page : Int := if f.Page < 1 then 1 else f.Page
  let perPage : Int := if f.PerPage < 1 ∨ f.PerPage > 100 then 20 else f.PerPage
  let rows := s.artifacts.filter (fun a =>
    match f.DeviceType with
    | some dt => a.DeviceTypes.contains dt
    | none => true)
  let total := rows.length
  let ordered := rows.insertionSort (fun a b => b.CreatedAt ≤ a.CreatedAt)
  let offset : Int := (page - 1) * perPage
  ((ordered.drop offset.toNat).take perPage.toNat, total)

/-- `ArtifactRepo.Delete`: `DELETE FROM artifacts WHERE id = $1`;
`ErrNotFound` when no row is affected. Modelled from the spec: the table
declarations are not part of the source; the spec says that the deletion of
an artifact that a deployment references is not prevented by a database
constraint, so the statement removes the row whatever refers to it. -/
def ArtifactRepo.Delete (s : Store) (id : UUID) : Store × Except DomainError Unit :=
  if s.artifacts.any (fun a => decide (a.ID = id)) then
    ({ s with artifacts := s.artifacts.filter (fun a => decide (a.ID ≠ id)) }, .ok ())
  else (s, .error .ErrNotFound)

/-- Filter of a deployment listing (`domain.DeploymentFilter`). `SortBy` and
`SortOrder` are left empty by the caller, so the listing order is the default
`created_at DESC`. -/
structure DeploymentFilter where
  Status : Option DeploymentStatus
  Page : Int
  PerPage : Int
  deriving DecidableEq, Repr

/-- `DeploymentRepo.List`: page and per-page normalisation, the filtered rows
in `created_at DESC` order, `LIMIT per_page OFFSET (page-1)*per_page`,
together with the total count of matching rows. -/
def DeploymentRepo.List (s : Store) (f : DeploymentFilter) : List Deployment × Nat :=
  let page : Int := if f.Page < 1 then 1 else f.Page
  let perPage : Int := if f.PerPage < 1 ∨ f.PerPage > 100 then 20 else f.PerPage
  let rows := s.deployments.filter (fun d =>
    match f.Status with
    | some st => decide (d.Status = st)
    | none => true)
  let total := rows.length
  let ordered := rows.insertionSort (fun a b => b.CreatedAt ≤ a.CreatedAt)
  let offset : Int := (page - 1) * perPage
  ((ordered.drop offset.toNat).take perPage.toNat, total)

/-! ## internal/service/artifact_service.go -/

/-- The database together with the artifact file store. -/
structure System where
  db : Store
  files : LocalStore
  deriving DecidableEq, Repr

/-- Input of an artifact upload (`service.CreateArtifactInput`). -/
structure CreateArtifactInput where
  Name : String
  Version : String
  Description : String
  FileName : String
  TargetPath : String
  FileMode : String
  FileOwner : String
  DeviceTypes : List String
  PreInstallCmd : String
  PostInstallCmd : String
  RollbackCmd : String
  File : Reader
  deriving DecidableEq, Repr

/-- The bytes that passed through the `io.TeeReader` into the hasher: those
by which the reader advanced. -/
def teeBytes (before after : Reader) : List Nat :=
  (before.data.drop before.offset).take (after.offset - before.offset)

/-- The `domain.Artifact` literal that `Create` builds after the save. -/
def newArtifact (input : CreateArtifactInput) (fileMode : String) (fileSize : Int)
    (checksum storagePath : String) : Artifact :=
  { ID := 0, Name := input.Name, Version := input.Version, Description := input.Description,
    FileName := input.FileName, FileSize := fileSize, ChecksumSHA256 := checksum,
    TargetPath := input.TargetPath, FileMode := fileMode, FileOwner := input.FileOwner,
    DeviceTypes := input.DeviceTypes, StoragePath := storagePath,
    PreInstallCmd := input.PreInstallCmd, PostInstallCmd := input.PostInstallCmd,
    RollbackCmd := input.RollbackCmd, CreatedAt := 0 }

/-- The path under which `Create` saves an upload: `Save` joins the base path,
the date directory and the storage name `<name>_<version>_<file name>`. -/
def uploadPath (lib : StoreLib) (fs : LocalStore) (now : Nat) (input : CreateArtifactInput) :
    String :=
  lib.join (lib.join fs.basePath (lib.dateDir now))
    (input.Name ++ "_" ++ input.Version ++ "_" ++ input.FileName)

/-- Errors of `Create`: a kind of `internal/domain/errors.go`, or the wrapped
error of the file store (`save file`). -/
inductive CreateError where
  | kind (e : DomainError)
  | saveFile
  deriving DecidableEq, Repr

/-- `ArtifactService.Create`: the two input checks, the default file mode, the
save of the stream under the name `<name>_<version>_<file name>` with the
hash taken on the way, the error return when the save fails, the insert of the
row and, when the insert fails, the deletion of the stored path. The result
is the system, the input reader and the artifact or the error. -/
def ArtifactService.Create (lib : StoreLib) (sys : System) (now : Nat)
    (input : CreateArtifactInput) : System × Reader × Except CreateError Artifact :=
  if input.Name = "" ∨ input.Version = "" ∨ input.TargetPath = "" then
    (sys, input.File, .error (.kind .ErrInvalidInput))
  else if input.DeviceTypes.length = 0 then
    (sys, input.File, .error (.kind .ErrInvalidInput))
  else
    let fileMode := if input.FileMode = "" then "0644" else input.FileMode
    let storageName := input.Name ++ "_" ++ input.Version ++ "_" ++ input.FileName
    let saved := LocalStore.Save lib sys.files now storageName input.File
    match saved.2.2 with
    | none => ({ sys with files := saved.1 }, saved.2.1, .error .saveFile)
    | some (storagePath, fileSize) =>
      let checksum := hexEncode (lib.sum256 (teeBytes input.File saved.2.1))
      let artifact := newArtifact input fileMode fileSize checksum storagePath
      match ArtifactRepo.Create sys.db now artifact with
      | (db1, .error e) =>
        ({ db := db1, files := LocalStore.Delete saved.1 storagePath }, saved.2.1,
          .error (.kind e))
      | (db1, .ok a) => ({ db := db1, files := saved.1 }, saved.2.1, .ok a)

/-- Errors of `OpenFile`: a kind of `internal/domain/errors.go`, or the
wrapped error of the file store. -/
inductive OpenError where
  | kind (e : DomainError)
  | openFile
  deriving DecidableEq, Repr

/-- `ArtifactService.OpenFile`: the row by id, then the file at its storage
path. The result holds the bytes the returned reader gives. -/
def ArtifactService.OpenFile (sys : System) (id : UUID) : Except OpenError (List Nat × Artifact) :=
  match ArtifactRepo.GetByID sys.db id with
  | .error e => .error (.kind e)
  | .ok artifact =>
    match LocalStore.Open sys.files artifact.StoragePath with
    | none => .error .openFile
    | some bytes => .ok (bytes, artifact)

/-! ## internal/service/cleanup_service.go -/

/-- The filter literal of the artifact listing of `RunCleanup`. -/
def cleanupArtifactFilter : ArtifactFilter :=
  { DeviceType := none, Page := 1, PerPage := 100 }

/-- The filter literal of the deployment listing of `RunCleanup`. -/
def cleanupDeploymentFilter : DeploymentFilter :=
  { Status := none, Page := 1, PerPage := 100 }

/-- The inner loop of `RunCleanup`: some listed deployment has the artifact's
id and is scheduled or active. -/
def inUse (deployments : List Deployment) (art : Artifact) : Bool :=
  deployments.any (fun dep => decide (dep.ArtifactID = art.ID ∧
    (dep.Status = DeploymentStatus.Scheduled ∨ dep.Status = DeploymentStatus.Active)))

/-- The body of the outer loop of `RunCleanup` for one listed artifact: list
the deployments (page 1, 100 per page); skip the artifact when it is in use;
otherwise open its storage path and delete the row when the open fails. The
result of the delete only feeds a counter and the log. -/
def cleanupArtifact (files : LocalStore) (s : Store) (art : Artifact) : Store :=
  if inUse (DeploymentRepo.List s cleanupDeploymentFilter).1 art then s
  else
    match LocalStore.Open files art.StoragePath with
    | none => (ArtifactRepo.Delete s art.ID).1
    | some _ => s

/-- `CleanupService.RunCleanup`: one listing of artifacts (page 1, 100 per
page) and the loop over it. The file store is only read. -/
def CleanupService.RunCleanup (sys : System) : System :=
  let artifacts := (ArtifactRepo.List sys.db cleanupArtifactFilter).1
  { sys with db := artifacts.foldl (cleanupArtifact sys.files) sys.db }

/-! ## internal/api/device/deployment_handler.go: download -/

/-- `DeploymentHandler.Download`, after the id of the URL was parsed, up to
the point where the artifact is chosen and its file is open: the id of the URL
is not used after the parse; the artifact is the one `GetNextForDevice` gives
for the device of the request context (404 on any error), opened through
`OpenFile` (500 on error). The result is the HTTP error status, or the chosen
artifact row and the bytes of its file. Writing the response is not
modelled. -/
def DeploymentHandler.Download (sys : System) (deviceID : UUID) (_ddID : UUID) :
    Except Nat (Artifact × List Nat) :=
  match (DeploymentService.GetNextForDevice sys.db deviceID).2 with
  | .error _ => .error 404
  | .ok (_, _, art) =>
    match ArtifactService.OpenFile sys art.ID with
    | .error _ => .error 500
    | .ok (bytes, artifact) => .ok (artifact, bytes)

/-! ## Target resolution as the specification words it -/

/-- Effective type set: the input types if non-empty, otherwise the
artifact's device types. -/
def effectiveTypes (input : CreateDeploymentInput) (artifact : Artifact) : List String :=
  if input.TargetDeviceTypes = [] then artifact.DeviceTypes else input.TargetDeviceTypes

/-- A device is picked by one of the three selectors: its id is listed, or
tags are given and its tags are a superset of them, or its type is in the
effective type set. -/
def selectedBy (input : CreateDeploymentInput) (artifact : Artifact) (d : Device) : Prop :=
  d.ID ∈ input.TargetDeviceIDs ∨
  (input.TargetDeviceTags ≠ [] ∧ ∀ t ∈ input.TargetDeviceTags, t ∈ d.Tags) ∨
  d.DeviceType ∈ effectiveTypes input artifact

instance (input : CreateDeploymentInput) (artifact : Artifact) (d : Device) :
    Decidable (selectedBy input artifact d) := by
  unfold selectedBy; infer_instance

/-- The union of the three selector passes restricted to accepted devices, as
the list of ids of the registry rows it holds. -/
def targetUnion (s : Store) (input : CreateDeploymentInput) (artifact : Artifact) : List UUID :=
  (s.devices.filter (fun d =>
    decide (d.Status = DeviceStatus.Accepted ∧ selectedBy input artifact d))).map (fun d => d.ID)

/-- A candidate of next-work selection for a device, as the specification
words it: a row of the device with status pending, together with its parent
deployment, whose status is scheduled or active. -/
def isCandidate (s : Store) (deviceID : UUID) (r : DeploymentDevice) (d : Deployment) : Prop :=
  r ∈ s.deploymentDevices ∧ d ∈ s.deployments ∧ d.ID = r.DeploymentID ∧
  r.DeviceID = deviceID ∧ r.Status = DeploymentDeviceStatus.Pending ∧
  (d.Status = DeploymentStatus.Scheduled ∨ d.Status = DeploymentStatus.Active)

instance (s : Store) (deviceID : UUID) (r : DeploymentDevice) (d : Deployment) :
    Decidable (isCandidate s deviceID r d) := by
  unfold isCandidate; infer_instance

/-- Terminal states of a work row: success, failure, skipped. -/
def DeploymentDeviceStatus.isTerminal (st : DeploymentDeviceStatus) : Bool :=
  match st with
  | .Success | .Failure | .Skipped => true
  | _ => false

/-! ## The canonical serialization as the specification words it -/

/-- A compact JSON object as the specification words it: the given members in
the given order, each a quoted key, a colon and a quoted value, separated by
commas, with no insignificant whitespace. -/
def compactObject (lib : Lib) (members : List (String × String)) : String :=
  "\x7b" ++ String.intercalate ","
    (members.map (fun kv => lib.jsonString kv.1 ++ ":" ++ lib.jsonString kv.2)) ++ "\x7d"

/-! ## Concrete registries and inputs -/

/-- A device row with the given key, status, type, tags and creation time. -/
def mkDevice (id : UUID) (status : DeviceStatus) (deviceType : String) (tags : List String)
    (createdAt : Nat) : Device :=
  { ID := id, IdentityHash := "", IdentityData := [("device_type", deviceType)],
    Status := status, AuthTokenHash := "", Inventory := [], DeviceType := deviceType,
    Tags := tags, LastCheckIn := none, CreatedAt := createdAt, UpdatedAt := createdAt }

/-- An artifact row with the given key and compatible device types. -/
def mkArtifact (id : UUID) (deviceTypes : List String) : Artifact :=
  { ID := id, Name := "myapp", Version := "1.0.0", Description := "", FileName := "myapp",
    FileSize := 100, ChecksumSHA256 := "", TargetPath := "/usr/local/bin/myapp",
    FileMode := "0644", FileOwner := "", DeviceTypes := deviceTypes,
    StoragePath := "/mock/myapp", PreInstallCmd := "", PostInstallCmd := "",
    RollbackCmd := "", CreatedAt := 1 }

/-- The artifact of the examples: id 10, compatible with type `pi4`. -/
def exArtifact : Artifact := mkArtifact 10 ["pi4"]

/-- A registry of five devices: two accepted `pi4` (one tagged `production`),
one accepted `bbb` tagged `production`, one pending and one rejected `pi4`. -/
def exStore : Store :=
  { devices :=
      [mkDevice 1 DeviceStatus.Accepted "pi4" ["production"] 10,
       mkDevice 2 DeviceStatus.Accepted "pi4" [] 20,
       mkDevice 3 DeviceStatus.Accepted "bbb" ["production"] 30,
       mkDevice 4 DeviceStatus.Pending "pi4" ["production"] 40,
       mkDevice 5 DeviceStatus.Rejected "pi4" [] 50],
    artifacts := [exArtifact], deployments := [], deploymentDevices := [] }

/-- A creation input with all selector kinds: two explicit ids that exist
(one accepted, one pending), one that does not, the tag `production`, and no
type filter. -/
def exInput : CreateDeploymentInput :=
  { Name := "deploy-1", ArtifactID := 10, TargetDeviceIDs := [3, 4, 99],
    TargetDeviceTags := ["production"], TargetDeviceTypes := [], MaxParallel := 0 }

/-- The input `exInput` with the name left empty. -/
def unnamedInput : CreateDeploymentInput :=
  { exInput with Name := "" }

/-- An input that names only the pending and the rejected device. -/
def nonAcceptedInput : CreateDeploymentInput :=
  { Name := "deploy-2", ArtifactID := 10, TargetDeviceIDs := [4, 5],
    TargetDeviceTags := [], TargetDeviceTypes := ["none"], MaxParallel := 0 }

/-- The input `nonAcceptedInput` with an artifact id that no artifact has. -/
def unknownArtifactInput : CreateDeploymentInput :=
  { nonAcceptedInput with ArtifactID := 999 }

/-- An input with a tag selector only, against the `pi4` artifact. -/
def tagOnlyInput : CreateDeploymentInput :=
  { Name := "deploy-3", ArtifactID := 10, TargetDeviceIDs := [],
    TargetDeviceTags := ["production"], TargetDeviceTypes := [], MaxParallel := 0 }

/-- A registry of 101 accepted `pi4` devices with ids 1..101, device `i`
created at time `i - 1`, so device 1 is the oldest. -/
def bigStore : Store :=
  { devices := (List.range 101).map (fun i => mkDevice (i + 1) DeviceStatus.Accepted "pi4" [] i),
    artifacts := [exArtifact], deployments := [], deploymentDevices := [] }

/-- An input with no selector at all: the artifact's types decide. -/
def typeFallbackInput : CreateDeploymentInput :=
  { Name := "deploy-4", ArtifactID := 10, TargetDeviceIDs := [],
    TargetDeviceTags := [], TargetDeviceTypes := [], MaxParallel := 0 }

/-- A deployment row of the examples: artifact 10, no selectors stored. -/
def mkDeployment (id : UUID) (status : DeploymentStatus) (createdAt : Nat) : Deployment :=
  { ID := id, Name := "deploy", ArtifactID := 10, Status := status, TargetDeviceIDs := [],
    TargetDeviceTags := [], TargetDeviceTypes := [], MaxParallel := 0, CreatedAt := createdAt,
    StartedAt := some createdAt, FinishedAt := none }

/-- A work row of the examples, never started. -/
def mkRow (id deploymentID deviceID : UUID) (status : DeploymentDeviceStatus) :
    DeploymentDevice :=
  { ID := id, DeploymentID := deploymentID, DeviceID := deviceID, Status := status,
    Attempts := 0, Log := "", StartedAt := none, FinishedAt := none }

/-- The registry `exStore` with four deployments and five work rows: device 1
has pending rows in the active deployments 21 (created at 300) and 20 (created
at 200) and in the completed deployment 22; device 2 is downloading in
deployment 20; the rejected device 5 has a pending row in the scheduled
deployment 23. -/
def pollStore : Store :=
  { exStore with
    deployments :=
      [mkDeployment 21 DeploymentStatus.Active 300, mkDeployment 20 DeploymentStatus.Active 200,
       mkDeployment 22 DeploymentStatus.Completed 100,
       mkDeployment 23 DeploymentStatus.Scheduled 250],
    deploymentDevices :=
      [mkRow 31 21 1 DeploymentDeviceStatus.Pending, mkRow 32 20 1 DeploymentDeviceStatus.Pending,
       mkRow 33 22 1 DeploymentDeviceStatus.Pending,
       mkRow 34 20 2 DeploymentDeviceStatus.Downloading,
       mkRow 35 23 5 DeploymentDeviceStatus.Pending] }

/-- Two active deployments 42 and 41 created at the same time 100, each with
a pending row for device 1; the rows of deployment 42 come first. -/
def tieStore : Store :=
  { exStore with
    deployments :=
      [mkDeployment 42 DeploymentStatus.Active 100, mkDeployment 41 DeploymentStatus.Active 100],
    deploymentDevices :=
      [mkRow 51 42 1 DeploymentDeviceStatus.Pending,
       mkRow 52 41 1 DeploymentDeviceStatus.Pending] }

/-- One active deployment 60 whose single work row 61, of device 1, is
pending. -/
def singleStore : Store :=
  { exStore with
    deployments := [mkDeployment 60 DeploymentStatus.Active 100],
    deploymentDevices := [mkRow 61 60 1 DeploymentDeviceStatus.Pending] }


/-- The store `singleStore` after its artifact row was deleted: the pending
row 61 of device 1 and the active deployment 60 remain. -/
def orphanStore : Store :=
  { singleStore with artifacts := [] }

/-- An input with one explicit id, no tags and a type that no device has. -/
def explicitOnlyInput : CreateDeploymentInput :=
  { Name := "deploy-5", ArtifactID := 10, TargetDeviceIDs := [7],
    TargetDeviceTags := [], TargetDeviceTypes := ["bbb"], MaxParallel := 0 }

/-- A work row of the examples with all columns given. -/
def mkRowAt (id deploymentID deviceID : UUID) (status : DeploymentDeviceStatus)
    (attempts : Int) (startedAt finishedAt : Option Nat) : DeploymentDevice :=
  { ID := id, DeploymentID := deploymentID, DeviceID := deviceID, Status := status,
    Attempts := attempts, Log := "", StartedAt := startedAt, FinishedAt := finishedAt }

/-- Two active deployments 70 and 71. Deployment 70 has a pending row 81, a
downloading row 82 and a finished row 83; deployment 71 has a pending row 84. -/
def cancelStore : Store :=
  { exStore with
    deployments :=
      [mkDeployment 70 DeploymentStatus.Active 100, mkDeployment 71 DeploymentStatus.Active 110],
    deploymentDevices :=
      [mkRow 81 70 1 DeploymentDeviceStatus.Pending,
       mkRowAt 82 70 2 DeploymentDeviceStatus.Downloading 1 (some 150) none,
       mkRowAt 83 70 3 DeploymentDeviceStatus.Success 2 (some 120) (some 180),
       mkRow 84 71 1 DeploymentDeviceStatus.Pending] }

/-- The store `singleStore` after row 61 was reported successful at time 500
without an earlier report: the row is terminal, finished at 500, never
started. -/
def finishedStore : Store :=
  { exStore with
    deployments := [mkDeployment 60 DeploymentStatus.Active 100],
    deploymentDevices :=
      [mkRowAt 61 60 1 DeploymentDeviceStatus.Success 0 none (some 500)] }

/-- A stand-in for the library functions, used to run the registry on
examples: a digest of 32 bytes computed from the length of the input, and
quoting without escapes. The theorems hold for every `Lib`. -/
def exLib : Lib :=
  { sha256 := fun x => (List.range 32).map (fun i => (x.length + 7 * i) % 256),
    jsonString := fun x => String.singleton (Char.ofNat 34) ++ x ++
      String.singleton (Char.ofNat 34) }

/-- The identity of the specification's first scenario. -/
def exIdentity : List (String × String) :=
  [("device_type", "raspberry-pi-4"), ("mac", "aa:bb:cc:dd:ee:ff")]

/-- The same identity with its members in the other order. -/
def exIdentitySwapped : List (String × String) :=
  [("mac", "aa:bb:cc:dd:ee:ff"), ("device_type", "raspberry-pi-4")]

/-- An identity without a device type. -/
def exIdentityUntyped : List (String × String) :=
  [("mac", "aa:bb:cc:dd:ee:ff")]

/-- An entropy source for the examples. -/
def exEntropy (i : Nat) : Nat := 37 * i + 11

/-- A registry with one device, of identity `exIdentity`, in the given
status and with the given token hash. -/
def registryWith (status : DeviceStatus) (tokenHash : String) : Store :=
  { devices :=
      [{ ID := 1, IdentityHash := computeIdentityHash exLib exIdentity,
         IdentityData := exIdentity, Status := status, AuthTokenHash := tokenHash,
         Inventory := [], DeviceType := "raspberry-pi-4", Tags := [], LastCheckIn := none,
         CreatedAt := 10, UpdatedAt := 10 },
       mkDevice 2 DeviceStatus.Accepted "pi4" [] 20],
    artifacts := [], deployments := [], deploymentDevices := [] }

/-- An entropy source for a second token. -/
def exEntropy2 (i : Nat) : Nat := 5 * i + 3

/-- The prefixes of a path that end right before a slash, longest first; the
empty prefix is left out. `acc` holds the characters read so far. -/
def slashPrefixes (acc : List Char) : List Char → List String
  | [] => []
  | c :: cs =>
    if c = '/' ∧ acc ≠ [] then slashPrefixes (acc ++ [c]) cs ++ [String.mk acc]
    else slashPrefixes (acc ++ [c]) cs

/-- A stand-in for the library functions of the artifact store, used to run
uploads on examples: a digest of 32 bytes computed from the sum and the
number of the bytes, a directory name made of the day number of the clock
value, path elements joined by a slash, and the directories above a path read
off its slashes. The theorems hold for every `StoreLib`. -/
def exStoreLib : StoreLib :=
  { sum256 := fun bytes =>
      (List.range 32).map (fun i => (bytes.foldl (fun a b => a + b) 0 + bytes.length + 7 * i) % 256),
    dateDir := fun t => "day" ++ String.mk (Nat.toDigits 10 (t / 86400)),
    join := fun a b => a ++ "/" ++ b,
    parents := fun p => slashPrefixes [] p.data }

/-- A system with an empty database and a file store under the existing
directory `/data` that holds no file. -/
def emptySystem : System :=
  { db := { devices := [], artifacts := [], deployments := [], deploymentDevices := [] },
    files := { basePath := "/data", dirs := ["/data"], files := [] } }

/-- The upload of the specification's second scenario: `myapp` version
`1.0.0`, the five bytes of `hello`, for type `pi4`, no file mode given. -/
def helloUpload : CreateArtifactInput :=
  { Name := "myapp", Version := "1.0.0", Description := "", FileName := "app.bin",
    TargetPath := "/usr/local/bin/myapp", FileMode := "", FileOwner := "",
    DeviceTypes := ["pi4"], PreInstallCmd := "", PostInstallCmd := "", RollbackCmd := "",
    File := { data := [104, 101, 108, 108, 111], offset := 0, fails := false } }

/-- A second upload of the same name, version and file name with other
bytes. -/
def worldUpload : CreateArtifactInput :=
  { helloUpload with
    File := { data := [119, 111, 114, 108, 100, 33], offset := 0, fails := false } }

/-- The upload `helloUpload` with no device type. -/
def untypedUpload : CreateArtifactInput :=
  { helloUpload with DeviceTypes := [] }

/-- A deployment row of the examples for a given artifact. -/
def mkDeploymentOf (id artifactID : UUID) (status : DeploymentStatus) (createdAt : Nat) :
    Deployment :=
  { mkDeployment id status createdAt with ArtifactID := artifactID }

/-- An artifact row of the examples with a given storage path. -/
def mkArtifactAt (id : UUID) (version storagePath : String) (createdAt : Nat) : Artifact :=
  { mkArtifact id ["pi4"] with Version := version, StoragePath := storagePath,
                               CreatedAt := createdAt }

/-- A system with 101 deployments of artifact 10 and no stored file: the
oldest deployment, 200, is active; the 100 later ones are completed. -/
def crowdedSystem : System :=
  { db := { exStore with
            deployments := mkDeployment 200 DeploymentStatus.Active 0 ::
              (List.range 100).map (fun i => mkDeployment (201 + i) DeploymentStatus.Completed (i + 1)) },
    files := { basePath := "/data", dirs := ["/data"], files := [] } }

/-- A system with three artifacts: 10, whose file is missing and whose only
deployment is completed; 11, whose file is missing and which an active
deployment references; 12, whose file is stored and which nothing
references. -/
def janitorSystem : System :=
  { db := { devices := [],
            artifacts := [mkArtifactAt 10 "1.0.0" "/data/a10" 1, mkArtifactAt 11 "1.1.0" "/data/a11" 2,
              mkArtifactAt 12 "1.2.0" "/data/a12" 3],
            deployments := [mkDeploymentOf 20 10 DeploymentStatus.Completed 100,
              mkDeploymentOf 21 11 DeploymentStatus.Active 110],
            deploymentDevices := [] },
    files := { basePath := "/data", dirs := ["/data"], files := [("/data/a12", [1, 2, 3])] } }

/-- The store `singleStore` with the file of its artifact stored: device 1
has the pending row 61 of deployment 60, whose artifact 10 is stored under
`/mock/myapp` with three bytes. -/
def downloadSystem : System :=
  { db := singleStore,
    files := { basePath := "/mock", dirs := ["/mock"], files := [("/mock/myapp", [1, 2, 3])] } }

/-! ## Lemmas: the set of resolved targets -/

theorem mem_setInsert (set : List UUID) (id x : UUID) :
    x ∈ setInsert set id ↔ x ∈ set ∨ x = id := by
  unfold setInsert
  split
  · constructor
    · intro h; exact Or.inl h
    · rintro (h | h)
      · exact h
      · subst h; assumption
  · simp

theorem nodup_setInsert (set : List UUID) (id : UUID) (h : set.Nodup) :
    (setInsert set id).Nodup := by
  unfold setInsert
  split
  · exact h
  · rename_i hn
    rw [List.nodup_append]
    refine ⟨h, List.nodup_singleton _, ?_⟩
    intro a ha hb
    simp at hb
    subst hb
    exact hn ha

theorem mem_foldl_setInsert {α : Type} (f : α → UUID) (l : List α) (set : List UUID) (x : UUID) :
    x ∈ l.foldl (fun acc d => setInsert acc (f d)) set ↔ x ∈ set ∨ ∃ d ∈ l, f d = x := by
  induction l generalizing set with
  | nil => simp
  | cons a l ih =>
    simp only [List.foldl_cons, ih, mem_setInsert, List.mem_cons, exists_eq_or_imp]
    constructor
    · rintro ((h | h) | h)
      · exact Or.inl h
      · exact Or.inr (Or.inl h.symm)
      · exact Or.inr (Or.inr h)
    · rintro (h | h | h)
      · exact Or.inl (Or.inl h)
      · exact Or.inl (Or.inr h.symm)
      · exact Or.inr h

theorem nodup_foldl_setInsert {α : Type} (f : α → UUID) (l : List α) (set : List UUID)
    (h : set.Nodup) : (l.foldl (fun acc d => setInsert acc (f d)) set).Nodup := by
  induction l generalizing set with
  | nil => simpa using h
  | cons a l ih => exact ih _ (nodup_setInsert _ _ h)

theorem GetByID_ok_mem {s : Store} {id : UUID} {d : Device}
    (h : DeviceRepo.GetByID s id = .ok d) : d ∈ s.devices ∧ d.ID = id := by
  unfold DeviceRepo.GetByID at h
  split at h
  · rename_i d' hf
    injection h with h; subst h
    have h1 := List.mem_of_find?_eq_some hf
    have h2 := List.find?_some hf
    exact ⟨h1, by simpa using h2⟩
  · cases h

theorem GetByID_of_mem {s : Store} {d : Device}
    (hkey : (s.devices.map (fun d => d.ID)).Nodup) (hd : d ∈ s.devices) :
    DeviceRepo.GetByID s d.ID = .ok d := by
  unfold DeviceRepo.GetByID
  have : s.devices.find? (fun e => decide (e.ID = d.ID)) = some d := by
    generalize s.devices = l at hkey hd
    induction l with
    | nil => cases hd
    | cons a l ih =>
      simp only [List.map_cons, List.nodup_cons] at hkey
      rcases List.mem_cons.1 hd with h | h
      · subst h; simp
      · have hne : a.ID ≠ d.ID := by
          intro he
          exact hkey.1 (List.mem_map.2 ⟨d, h, he.symm⟩)
        simp [List.find?_cons, hne, ih hkey.2 h]
  rw [this]

theorem mem_resolveExplicit (s : Store) (ids : List UUID) (set : List UUID) (x : UUID) :
    x ∈ resolveExplicit s ids set ↔
      x ∈ set ∨ (x ∈ ids ∧ ∃ d, DeviceRepo.GetByID s x = .ok d ∧ d.Status = DeviceStatus.Accepted) := by
  unfold resolveExplicit
  induction ids generalizing set with
  | nil => simp
  | cons a l ih =>
    rw [List.foldl_cons, ih]
    constructor
    · rintro (h | ⟨h1, h2⟩)
      · cases hg : DeviceRepo.GetByID s a with
        | error e => rw [hg] at h; exact Or.inl h
        | ok dev =>
          rw [hg] at h
          by_cases hs : dev.Status = DeviceStatus.Accepted
          · simp only [hs, if_true, mem_setInsert] at h
            rcases h with h | h
            · exact Or.inl h
            · subst h
              exact Or.inr ⟨List.mem_cons_self _ _, dev, hg, hs⟩
          · simp only [hs, if_false] at h
            exact Or.inl h
      · exact Or.inr ⟨List.mem_cons_of_mem _ h1, h2⟩
    · rintro (h | ⟨h1, d, hd, hs⟩)
      · left
        cases hg : DeviceRepo.GetByID s a with
        | error e => exact h
        | ok dev =>
          show x ∈ (if dev.Status = DeviceStatus.Accepted then setInsert set a else set)
          split
          · exact (mem_setInsert _ _ _).2 (Or.inl h)
          · exact h
      · rcases List.mem_cons.1 h1 with h | h
        · subst h
          left
          rw [hd]
          show x ∈ (if d.Status = DeviceStatus.Accepted then setInsert set x else set)
          rw [if_pos hs]
          exact (mem_setInsert _ _ _).2 (Or.inr rfl)
        · exact Or.inr ⟨h, d, hd, hs⟩

theorem nodup_resolveExplicit (s : Store) (ids : List UUID) (set : List UUID) (h : set.Nodup) :
    (resolveExplicit s ids set).Nodup := by
  unfold resolveExplicit
  induction ids generalizing set with
  | nil => simpa using h
  | cons a l ih =>
    rw [List.foldl_cons]
    apply ih
    cases hg : DeviceRepo.GetByID s a with
    | error e => exact h
    | ok dev =>
      show (if dev.Status = DeviceStatus.Accepted then setInsert set a else set).Nodup
      split
      · exact nodup_setInsert _ _ h
      · exact h

theorem matches_tagFilter (tags : List String) (d : Device) (ht : tags ≠ []) :
    DeviceRepo.matchesFilter (tagFilter tags) d = true ↔
      d.Status = DeviceStatus.Accepted ∧ ∀ t ∈ tags, t ∈ d.Tags := by
  have hl : tags.length > 0 := List.length_pos.2 ht
  simp [DeviceRepo.matchesFilter, tagFilter, hl]

theorem matches_typeFilter (dt : String) (d : Device) :
    DeviceRepo.matchesFilter (typeFilter dt) d = true ↔
      d.Status = DeviceStatus.Accepted ∧ d.DeviceType = dt := by
  simp [DeviceRepo.matchesFilter, typeFilter]

theorem List_sub (s : Store) (f : DeviceFilter) (d : Device) (h : d ∈ (DeviceRepo.List s f).1) :
    ∃ e ∈ s.devices, DeviceRepo.matchesFilter f e = true ∧ e.ID = d.ID := by
  unfold DeviceRepo.List at h
  simp only [List.mem_map] at h
  obtain ⟨e, he, rfl⟩ := h
  have h1 := List.mem_of_mem_drop (List.mem_of_mem_take he)
  rw [List.mem_insertionSort, List.mem_filter] at h1
  exact ⟨e, h1.1, h1.2, rfl⟩

theorem List_sup (s : Store) (f : DeviceFilter) (hp : f.Page = 1) (hpp : f.PerPage = 100)
    (hsmall : (DeviceRepo.List s f).2 ≤ 100) (e : Device) (he : e ∈ s.devices)
    (hm : DeviceRepo.matchesFilter f e = true) :
    ∃ d ∈ (DeviceRepo.List s f).1, d.ID = e.ID := by
  unfold DeviceRepo.List at hsmall ⊢
  simp only [hp, hpp] at hsmall ⊢
  refine ⟨{ e with AuthTokenHash := "" }, ?_, rfl⟩
  simp only [List.mem_map]
  refine ⟨e, ?_, rfl⟩
  norm_num
  rw [List.take_of_length_le]
  · rw [List.mem_insertionSort, List.mem_filter]
    exact ⟨he, hm⟩
  · rw [List.length_insertionSort]
    exact hsmall

theorem resolveTags_sound (s : Store) (tags : List String) (set : List UUID) (x : UUID)
    (h : x ∈ resolveTags s tags set) :
    x ∈ set ∨ (tags ≠ [] ∧ ∃ e ∈ s.devices, e.Status = DeviceStatus.Accepted ∧
      (∀ t ∈ tags, t ∈ e.Tags) ∧ e.ID = x) := by
  unfold resolveTags at h
  split at h
  · rename_i hl
    have ht : tags ≠ [] := List.length_pos.1 hl
    rw [mem_foldl_setInsert] at h
    rcases h with h | ⟨d, hd, rfl⟩
    · exact Or.inl h
    · obtain ⟨e, he, hm, hid⟩ := List_sub s _ d hd
      rw [matches_tagFilter _ _ ht] at hm
      exact Or.inr ⟨ht, e, he, hm.1, hm.2, hid⟩
  · exact Or.inl h

theorem resolveTags_complete (s : Store) (tags : List String) (set : List UUID) (x : UUID)
    (hsmall : tags ≠ [] → (DeviceRepo.List s (tagFilter tags)).2 ≤ 100)
    (h : x ∈ set ∨ (tags ≠ [] ∧ ∃ e ∈ s.devices, e.Status = DeviceStatus.Accepted ∧
      (∀ t ∈ tags, t ∈ e.Tags) ∧ e.ID = x)) :
    x ∈ resolveTags s tags set := by
  unfold resolveTags
  split
  · rw [mem_foldl_setInsert]
    rcases h with h | ⟨ht, e, he, hs, htag, rfl⟩
    · exact Or.inl h
    · right
      exact List_sup s _ rfl rfl (hsmall ht) e he ((matches_tagFilter _ _ ht).2 ⟨hs, htag⟩)
  · rename_i hl
    rcases h with h | ⟨ht, _⟩
    · exact h
    · exact absurd (List.length_pos.2 ht) hl

theorem nodup_resolveTags (s : Store) (tags : List String) (set : List UUID) (h : set.Nodup) :
    (resolveTags s tags set).Nodup := by
  unfold resolveTags
  split
  · exact nodup_foldl_setInsert _ _ _ h
  · exact h

theorem resolveTypes_sound (s : Store) (types : List String) (set : List UUID) (x : UUID)
    (h : x ∈ resolveTypes s types set) :
    x ∈ set ∨ ∃ e ∈ s.devices, e.Status = DeviceStatus.Accepted ∧
      e.DeviceType ∈ types ∧ e.ID = x := by
  unfold resolveTypes at h
  induction types generalizing set with
  | nil => exact Or.inl h
  | cons dt l ih =>
    rw [List.foldl_cons] at h
    rcases ih _ h with h1 | ⟨e, he, hs, ht, hid⟩
    · rw [mem_foldl_setInsert] at h1
      rcases h1 with h1 | ⟨d, hd, rfl⟩
      · exact Or.inl h1
      · obtain ⟨e, he, hm, hid⟩ := List_sub s _ d hd
        rw [matches_typeFilter] at hm
        exact Or.inr ⟨e, he, hm.1, by rw [hm.2]; exact List.mem_cons_self _ _, hid⟩
    · exact Or.inr ⟨e, he, hs, List.mem_cons_of_mem _ ht, hid⟩

theorem resolveTypes_mono (s : Store) (types : List String) (set : List UUID) (x : UUID)
    (h : x ∈ set) : x ∈ resolveTypes s types set := by
  unfold resolveTypes
  induction types generalizing set with
  | nil => exact h
  | cons dt l ih =>
    rw [List.foldl_cons]
    apply ih
    rw [mem_foldl_setInsert]
    exact Or.inl h

theorem resolveTypes_complete (s : Store) (types : List String) (set : List UUID) (x : UUID)
    (hsmall : ∀ dt ∈ types, (DeviceRepo.List s (typeFilter dt)).2 ≤ 100)
    (h : x ∈ set ∨ ∃ e ∈ s.devices, e.Status = DeviceStatus.Accepted ∧
      e.DeviceType ∈ types ∧ e.ID = x) :
    x ∈ resolveTypes s types set := by
  rcases h with h | ⟨e, he, hs, ht, rfl⟩
  · exact resolveTypes_mono s types set x h
  · induction types generalizing set with
    | nil => cases ht
    | cons dt l ih =>
      rcases List.mem_cons.1 ht with h1 | h1
      · have : e.ID ∈ (DeviceRepo.List s (typeFilter dt)).1.foldl
            (fun acc2 d => setInsert acc2 d.ID) set := by
          rw [mem_foldl_setInsert]
          right
          exact List_sup s _ rfl rfl (hsmall dt (List.mem_cons_self _ _)) e he
            ((matches_typeFilter _ _).2 ⟨hs, h1⟩)
        have h2 := resolveTypes_mono s l _ _ this
        unfold resolveTypes at h2 ⊢
        rw [List.foldl_cons]
        exact h2
      · have h2 := ih
          ((DeviceRepo.List s (typeFilter dt)).1.foldl (fun acc2 d => setInsert acc2 d.ID) set)
          (fun dt hdt => hsmall dt (List.mem_cons_of_mem _ hdt)) h1
        unfold resolveTypes at h2 ⊢
        rw [List.foldl_cons]
        exact h2

theorem nodup_resolveTypes (s : Store) (types : List String) (set : List UUID) (h : set.Nodup) :
    (resolveTypes s types set).Nodup := by
  unfold resolveTypes
  induction types generalizing set with
  | nil => simpa using h
  | cons dt l ih =>
    rw [List.foldl_cons]
    exact ih _ (nodup_foldl_setInsert _ _ _ h)

theorem targetTypes_eq (input : CreateDeploymentInput) (artifact : Artifact) :
    (if input.TargetDeviceTypes.length = 0 then artifact.DeviceTypes
      else input.TargetDeviceTypes) = effectiveTypes input artifact := by
  unfold effectiveTypes
  by_cases h : input.TargetDeviceTypes = []
  · simp [h]
  · have : input.TargetDeviceTypes.length ≠ 0 := fun hl => h (List.length_eq_zero.1 hl)
    simp [h, this]

theorem mem_targetUnion (s : Store) (input : CreateDeploymentInput) (artifact : Artifact)
    (x : UUID) :
    x ∈ targetUnion s input artifact ↔
      ∃ e ∈ s.devices, e.Status = DeviceStatus.Accepted ∧ selectedBy input artifact e ∧
        e.ID = x := by
  unfold targetUnion
  simp only [List.mem_map, List.mem_filter, decide_eq_true_eq]
  constructor
  · rintro ⟨e, ⟨he, hs, hsel⟩, rfl⟩
    exact ⟨e, he, hs, hsel, rfl⟩
  · rintro ⟨e, he, hs, hsel, rfl⟩
    exact ⟨e, ⟨he, hs, hsel⟩, rfl⟩

theorem resolveTargets_sound (s : Store) (input : CreateDeploymentInput) (artifact : Artifact)
    (x : UUID) (h : x ∈ DeploymentService.resolveTargets s input artifact) :
    ∃ e ∈ s.devices, e.Status = DeviceStatus.Accepted ∧ selectedBy input artifact e ∧
      e.ID = x := by
  unfold DeploymentService.resolveTargets at h
  simp only [targetTypes_eq] at h
  rcases resolveTypes_sound _ _ _ _ h with h1 | ⟨e, he, hs, ht, hid⟩
  · rcases resolveTags_sound _ _ _ _ h1 with h2 | ⟨ht, e, he, hs, htag, hid⟩
    · rw [mem_resolveExplicit] at h2
      rcases h2 with h2 | ⟨hx, d, hd, hs⟩
      · cases h2
      · obtain ⟨hm, hid⟩ := GetByID_ok_mem hd
        exact ⟨d, hm, hs, Or.inl (by rw [hid]; exact hx), hid⟩
    · exact ⟨e, he, hs, Or.inr (Or.inl ⟨ht, htag⟩), hid⟩
  · exact ⟨e, he, hs, Or.inr (Or.inr ht), hid⟩

theorem resolveTargets_complete (s : Store) (input : CreateDeploymentInput)
    (artifact : Artifact) (x : UUID)
    (hkey : (s.devices.map (fun d => d.ID)).Nodup)
    (htags : input.TargetDeviceTags ≠ [] →
      (DeviceRepo.List s (tagFilter input.TargetDeviceTags)).2 ≤ 100)
    (htypes : ∀ dt ∈ effectiveTypes input artifact, (DeviceRepo.List s (typeFilter dt)).2 ≤ 100)
    (h : ∃ e ∈ s.devices, e.Status = DeviceStatus.Accepted ∧ selectedBy input artifact e ∧
      e.ID = x) :
    x ∈ DeploymentService.resolveTargets s input artifact := by
  obtain ⟨e, he, hs, hsel, rfl⟩ := h
  unfold DeploymentService.resolveTargets
  simp only [targetTypes_eq]
  rcases hsel with h1 | ⟨ht, htag⟩ | h3
  · apply resolveTypes_mono
    apply resolveTags_complete _ _ _ _ htags
    left
    rw [mem_resolveExplicit]
    exact Or.inr ⟨h1, e, GetByID_of_mem hkey he, hs⟩
  · apply resolveTypes_mono
    apply resolveTags_complete _ _ _ _ htags
    exact Or.inr ⟨ht, e, he, hs, htag, rfl⟩
  · apply resolveTypes_complete _ _ _ _ htypes
    exact Or.inr ⟨e, he, hs, h3, rfl⟩

theorem nodup_resolveTargets (s : Store) (input : CreateDeploymentInput) (artifact : Artifact) :
    (DeploymentService.resolveTargets s input artifact).Nodup := by
  unfold DeploymentService.resolveTargets
  exact nodup_resolveTypes _ _ _ (nodup_resolveTags _ _ _
    (nodup_resolveExplicit _ _ _ List.nodup_nil))

theorem Create_invalid_iff (s : Store) (now : Nat) (input : CreateDeploymentInput)
    (artifact : Artifact) (hname : input.Name ≠ "")
    (hart : ArtifactRepo.GetByID s input.ArtifactID = .ok artifact) :
    (DeploymentService.Create s now input).2 = .error DomainError.ErrInvalidInput ↔
      DeploymentService.resolveTargets s input artifact = [] := by
  unfold DeploymentService.Create
  rw [if_neg hname, hart]
  simp only
  by_cases h : (DeploymentService.resolveTargets s input artifact).length = 0
  · rw [if_pos h]
    simp [List.length_eq_zero.1 h]
  · rw [if_neg h]
    constructor
    · intro h1; cases h1
    · intro h1; rw [h1] at h; exact absurd rfl h

theorem List_nonempty (s : Store) (f : DeviceFilter) (hp : f.Page = 1) (hpp : f.PerPage = 100)
    (e : Device) (he : e ∈ s.devices) (hm : DeviceRepo.matchesFilter f e = true) :
    ∃ d, d ∈ (DeviceRepo.List s f).1 := by
  unfold DeviceRepo.List
  simp only [hp, hpp]
  have hmem : e ∈ (s.devices.filter (DeviceRepo.matchesFilter f)).insertionSort
      (fun a b => b.CreatedAt ≤ a.CreatedAt) := by
    rw [List.mem_insertionSort, List.mem_filter]
    exact ⟨he, hm⟩
  cases hl : (s.devices.filter (DeviceRepo.matchesFilter f)).insertionSort
      (fun a b => b.CreatedAt ≤ a.CreatedAt) with
  | nil => rw [hl] at hmem; cases hmem
  | cons x xs =>
    refine ⟨{ x with AuthTokenHash := "" }, ?_⟩
    norm_num
    rw [show Int.toNat 100 = 99 + 1 from rfl, List.take_succ_cons]
    exact List.mem_cons_self _ _

theorem resolveTags_listed (s : Store) (tags : List String) (set : List UUID) (d : Device)
    (ht : tags ≠ []) (hd : d ∈ (DeviceRepo.List s (tagFilter tags)).1) :
    d.ID ∈ resolveTags s tags set := by
  unfold resolveTags
  rw [if_pos (List.length_pos.2 ht), mem_foldl_setInsert]
  exact Or.inr ⟨d, hd, rfl⟩

theorem resolveTags_mono (s : Store) (tags : List String) (set : List UUID) (x : UUID)
    (h : x ∈ set) : x ∈ resolveTags s tags set := by
  unfold resolveTags
  split
  · rw [mem_foldl_setInsert]; exact Or.inl h
  · exact h

theorem resolveTypes_listed (s : Store) (types : List String) (set : List UUID) (d : Device)
    (dt : String) (hdt : dt ∈ types) (hd : d ∈ (DeviceRepo.List s (typeFilter dt)).1) :
    d.ID ∈ resolveTypes s types set := by
  induction types generalizing set with
  | nil => cases hdt
  | cons a l ih =>
    rcases List.mem_cons.1 hdt with h1 | h1
    · subst h1
      have : d.ID ∈ (DeviceRepo.List s (typeFilter dt)).1.foldl
          (fun acc2 d => setInsert acc2 d.ID) set := by
        rw [mem_foldl_setInsert]
        exact Or.inr ⟨d, hd, rfl⟩
      have h2 := resolveTypes_mono s l _ _ this
      unfold resolveTypes at h2 ⊢
      rw [List.foldl_cons]
      exact h2
    · have h2 := ih
        ((DeviceRepo.List s (typeFilter a)).1.foldl (fun acc2 d => setInsert acc2 d.ID) set) h1
      unfold resolveTypes at h2 ⊢
      rw [List.foldl_cons]
      exact h2

theorem resolveTargets_nonempty (s : Store) (input : CreateDeploymentInput)
    (artifact : Artifact) (hkey : (s.devices.map (fun d => d.ID)).Nodup)
    (e : Device) (he : e ∈ s.devices) (hs : e.Status = DeviceStatus.Accepted)
    (hsel : selectedBy input artifact e) :
    DeploymentService.resolveTargets s input artifact ≠ [] := by
  have key : ∃ x, x ∈ DeploymentService.resolveTargets s input artifact := by
    unfold DeploymentService.resolveTargets
    simp only [targetTypes_eq]
    rcases hsel with h1 | ⟨ht, htag⟩ | h3
    · refine ⟨e.ID, ?_⟩
      apply resolveTypes_mono
      apply resolveTags_mono
      rw [mem_resolveExplicit]
      exact Or.inr ⟨h1, e, GetByID_of_mem hkey he, hs⟩
    · obtain ⟨d, hd⟩ := List_nonempty s (tagFilter input.TargetDeviceTags) rfl rfl e he
        ((matches_tagFilter _ _ ht).2 ⟨hs, htag⟩)
      exact ⟨d.ID, resolveTypes_mono _ _ _ _ (resolveTags_listed _ _ _ _ ht hd)⟩
    · obtain ⟨d, hd⟩ := List_nonempty s (typeFilter e.DeviceType) rfl rfl e he
        ((matches_typeFilter _ _).2 ⟨hs, rfl⟩)
      exact ⟨d.ID, resolveTypes_listed _ _ _ _ _ h3 hd⟩
  obtain ⟨x, hx⟩ := key
  intro h
  rw [h] at hx
  cases hx

/-! ## Lemmas: deployment creation -/

theorem le_foldr_max (l : List Nat) (x : Nat) (h : x ∈ l) : x ≤ l.foldr max 0 := by
  induction l with
  | nil => cases h
  | cons a l ih =>
    rw [List.foldr_cons]
    rcases List.mem_cons.1 h with h1 | h1
    · subst h1; exact le_max_left _ _
    · exact le_trans (ih h1) (le_max_right _ _)

theorem lt_freshID (s : Store) (x : UUID) (h : x ∈ s.usedIDs) : x < s.freshID := by
  unfold Store.freshID
  exact Nat.lt_succ_of_le (le_foldr_max _ _ h)

theorem deployment_ne_freshID (s : Store) (d : Deployment) (h : d ∈ s.deployments) :
    d.ID ≠ s.freshID := by
  apply Nat.ne_of_lt
  apply lt_freshID
  unfold Store.usedIDs
  simp only [List.mem_append, List.mem_map]
  exact Or.inl (Or.inl (Or.inl (Or.inl (Or.inr ⟨d, h, rfl⟩))))

theorem row_deployment_ne_freshID (s : Store) (r : DeploymentDevice)
    (h : r ∈ s.deploymentDevices) : r.DeploymentID ≠ s.freshID := by
  apply Nat.ne_of_lt
  apply lt_freshID
  unfold Store.usedIDs
  simp only [List.mem_append, List.mem_map]
  exact Or.inl (Or.inr ⟨r, h, rfl⟩)

/-- What the insert loop leaves behind when the ids are pairwise distinct and
no row of the deployment exists yet for any of them. -/
theorem createDeviceRows_spec (depID : UUID) (ids : List UUID) (st : Store)
    (hnd : ids.Nodup)
    (hfree : ∀ r ∈ st.deploymentDevices, r.DeploymentID = depID → r.DeviceID ∉ ids) :
    ∃ news : List DeploymentDevice,
      (createDeviceRows st depID ids).deploymentDevices = st.deploymentDevices ++ news ∧
      news.map (fun r => r.DeviceID) = ids ∧
      (∀ r ∈ news, r.DeploymentID = depID ∧ r.Status = DeploymentDeviceStatus.Pending ∧
        r.Attempts = 0 ∧ r.Log = "" ∧ r.StartedAt = none ∧ r.FinishedAt = none) ∧
      (createDeviceRows st depID ids).devices = st.devices ∧
      (createDeviceRows st depID ids).artifacts = st.artifacts ∧
      (createDeviceRows st depID ids).deployments = st.deployments := by
  induction ids generalizing st with
  | nil => exact ⟨[], by simp [createDeviceRows], rfl, by simp, rfl, rfl, rfl⟩
  | cons a l ih =>
    have hno : st.deploymentDevices.any
        (fun r => decide (r.DeploymentID = (pendingRow depID a).DeploymentID ∧
          r.DeviceID = (pendingRow depID a).DeviceID)) = false := by
      rw [List.any_eq_false]
      intro r hr
      simp only [pendingRow, decide_eq_true_eq, not_and]
      intro h1 h2
      exact hfree r hr h1 (by rw [h2]; exact List.mem_cons_self _ _)
    have hstep : (DeploymentRepo.CreateDeploymentDevice st (pendingRow depID a)).1 =
        { st with deploymentDevices := st.deploymentDevices ++
          [{ ID := st.freshID, DeploymentID := depID, DeviceID := a,
             Status := DeploymentDeviceStatus.Pending, Attempts := 0, Log := "",
             StartedAt := none, FinishedAt := none }] } := by
      unfold DeploymentRepo.CreateDeploymentDevice
      rw [hno]
      rfl
    have hnd2 := List.nodup_cons.1 hnd
    obtain ⟨news, h1, h2, h3, h4, h5, h6⟩ := ih
      (DeploymentRepo.CreateDeploymentDevice st (pendingRow depID a)).1 hnd2.2 (by
        rw [hstep]
        intro r hr hd
        simp only [List.mem_append, List.mem_singleton] at hr
        rcases hr with hr | hr
        · exact fun hm => hfree r hr hd (List.mem_cons_of_mem _ hm)
        · subst hr
          exact hnd2.1)
    have hunf : createDeviceRows st depID (a :: l) =
        createDeviceRows (DeploymentRepo.CreateDeploymentDevice st (pendingRow depID a)).1
          depID l := rfl
    rw [hunf]
    rw [hstep] at h1 h4 h5 h6 ⊢
    refine ⟨DeploymentDevice.mk st.freshID depID a DeploymentDeviceStatus.Pending 0 "" none none
      :: news, ?_, ?_, ?_, h4, h5, h6⟩
    · rw [h1]; simp
    · simp [h2]
    · intro r hr
      rcases List.mem_cons.1 hr with hr | hr
      · subst hr; exact ⟨rfl, rfl, rfl, rfl, rfl, rfl⟩
      · exact h3 r hr

theorem Create_error_unchanged (s : Store) (now : Nat) (input : CreateDeploymentInput)
    (e : DomainError) (h : (DeploymentService.Create s now input).2 = .error e) :
    (DeploymentService.Create s now input).1 = s := by
  unfold DeploymentService.Create at h ⊢
  by_cases hn : input.Name = ""
  · rw [if_pos hn]
  · rw [if_neg hn] at h ⊢
    cases ha : ArtifactRepo.GetByID s input.ArtifactID with
    | error e2 => rfl
    | ok artifact =>
      rw [ha] at h
      simp only at h ⊢
      by_cases hl : (DeploymentService.resolveTargets s input artifact).length = 0
      · rw [if_pos hl]
      · rw [if_neg hl] at h
        cases h

theorem Create_ok_eq (s : Store) (now : Nat) (input : CreateDeploymentInput)
    (s' : Store) (dep : Deployment)
    (h : DeploymentService.Create s now input = (s', .ok dep)) :
    input.Name ≠ "" ∧
    ∃ artifact, ArtifactRepo.GetByID s input.ArtifactID = .ok artifact ∧
      DeploymentService.resolveTargets s input artifact ≠ [] ∧
      dep = { newDeployment input with ID := s.freshID, CreatedAt := now } ∧
      s' = DeploymentRepo.SetStarted
        (createDeviceRows (DeploymentRepo.Create s now (newDeployment input)).1 s.freshID
          (DeploymentService.resolveTargets s input artifact)) now s.freshID := by
  unfold DeploymentService.Create at h
  by_cases hn : input.Name = ""
  · rw [if_pos hn] at h; cases h
  · rw [if_neg hn] at h
    refine ⟨hn, ?_⟩
    cases ha : ArtifactRepo.GetByID s input.ArtifactID with
    | error e2 => rw [ha] at h; cases h
    | ok artifact =>
      rw [ha] at h
      simp only at h
      by_cases hl : (DeploymentService.resolveTargets s input artifact).length = 0
      · rw [if_pos hl] at h; cases h
      · rw [if_neg hl] at h
        refine ⟨artifact, rfl, fun hc => hl (by rw [hc]; rfl), ?_, ?_⟩
        · injection h with h1 h2
          injection h2 with h2
          exact h2.symm
        · injection h with h1 h2
          exact h1.symm

theorem filter_pair_length (news : List DeploymentDevice) (depID id : UUID)
    (hall : ∀ r ∈ news, r.DeploymentID = depID) :
    (news.filter (fun r => decide (r.DeploymentID = depID ∧ r.DeviceID = id))).length =
      (news.map (fun r => r.DeviceID)).count id := by
  induction news with
  | nil => rfl
  | cons a l ih =>
    have ha := hall a (List.mem_cons_self _ _)
    have ih2 := ih (fun r hr => hall r (List.mem_cons_of_mem _ hr))
    by_cases h : a.DeviceID = id
    · simp only [List.filter_cons, ha, h, List.map_cons, and_self, decide_True, if_true,
        List.length_cons, List.count_cons_self, ih2]
    · have h2 : ¬ (a.DeviceID == id) = true := by simpa using h
      simp only [List.filter_cons, ha, h, List.map_cons, and_false, decide_False,
        Bool.false_eq_true, if_false, List.count_cons, h2, ih2, add_zero]

theorem eq_of_ID_eq {l : List Device} (hkey : (l.map (fun d => d.ID)).Nodup)
    {e d : Device} (he : e ∈ l) (hd : d ∈ l) (h : e.ID = d.ID) : e = d :=
  List.inj_on_of_nodup_map hkey he hd h

/-! ## Lemmas: next-work selection -/

theorem mem_pendingJoin (s : Store) (deviceID : UUID) (r : DeploymentDevice) (d : Deployment)
    (a : Artifact) :
    (r, d, a) ∈ DeploymentRepo.pendingJoin s deviceID ↔
      isCandidate s deviceID r d ∧ a ∈ s.artifacts ∧ a.ID = d.ArtifactID := by
  unfold DeploymentRepo.pendingJoin isCandidate
  simp only [List.mem_filter, List.mem_flatMap, List.mem_map, decide_eq_true_eq, Prod.mk.injEq]
  constructor
  · rintro ⟨⟨r', hr', d', ⟨hd', hid'⟩, a', ⟨ha', haid'⟩, rfl, rfl, rfl⟩, h1, h2, h3⟩
    exact ⟨⟨hr', hd', hid', h1, h2, h3⟩, ha', haid'⟩
  · rintro ⟨⟨hr, hd, hid, h1, h2, h3⟩, ha, haid⟩
    exact ⟨⟨r, hr, d, ⟨hd, hid⟩, a, ⟨ha, haid⟩, rfl, rfl, rfl⟩, h1, h2, h3⟩

/-- The head of a list sorted by insertion on a natural-number key is a member
with the least key. -/
theorem insertionSort_head_min {α : Type} (key : α → Nat) (l : List α) (x : α) (xs : List α)
    (h : l.insertionSort (fun a b => key a ≤ key b) = x :: xs) :
    x ∈ l ∧ ∀ y ∈ l, key x ≤ key y := by
  haveI : IsTotal α (fun a b => key a ≤ key b) := ⟨fun a b => Nat.le_total _ _⟩
  haveI : IsTrans α (fun a b => key a ≤ key b) := ⟨fun a b c => Nat.le_trans⟩
  have hs := List.sorted_insertionSort (fun a b => key a ≤ key b) l
  have hp := List.perm_insertionSort (fun a b => key a ≤ key b) l
  rw [h] at hs hp
  refine ⟨hp.subset (List.mem_cons_self _ _), ?_⟩
  intro y hy
  have hy2 : y ∈ x :: xs := hp.symm.subset hy
  rcases List.mem_cons.1 hy2 with h1 | h1
  · rw [h1]
  · exact List.rel_of_sorted_cons hs y h1

theorem insertionSort_eq_nil {α : Type} (r : α → α → Prop) [DecidableRel r] (l : List α) :
    l.insertionSort r = [] ↔ l = [] := by
  constructor
  · intro h
    have := List.length_insertionSort r l
    rw [h] at this
    exact List.length_eq_zero.1 this.symm
  · intro h; rw [h]; rfl

/-- The selection of `GetPendingDeploymentForDevice`: the scanned columns of a
row of the join whose deployment is created no later than that of any row of
the join. -/
theorem GetPending_ok (s : Store) (deviceID : UUID)
    (t : DeploymentDevice × Deployment × Artifact)
    (h : DeploymentRepo.GetPendingDeploymentForDevice s deviceID = .ok t) :
    ∃ r d a, isCandidate s deviceID r d ∧ a ∈ s.artifacts ∧ a.ID = d.ArtifactID ∧
      t = DeploymentRepo.scanPending (r, d, a) ∧
      ∀ r2 d2 a2, isCandidate s deviceID r2 d2 → a2 ∈ s.artifacts → a2.ID = d2.ArtifactID →
        d.CreatedAt ≤ d2.CreatedAt := by
  unfold DeploymentRepo.GetPendingDeploymentForDevice at h
  split at h
  · cases h
  · rename_i x xs hsort
    obtain ⟨r, d, a⟩ := x
    have hmin := insertionSort_head_min
      (fun t : DeploymentDevice × Deployment × Artifact => t.2.1.CreatedAt) _ _ _ hsort
    obtain ⟨hc, ha, haid⟩ := (mem_pendingJoin s deviceID r d a).1 hmin.1
    injection h with h
    refine ⟨r, d, a, hc, ha, haid, h.symm, ?_⟩
    intro r2 d2 a2 hc2 ha2 haid2
    exact hmin.2 _ ((mem_pendingJoin s deviceID r2 d2 a2).2 ⟨hc2, ha2, haid2⟩)

theorem GetPending_error (s : Store) (deviceID : UUID) (e : DomainError)
    (h : DeploymentRepo.GetPendingDeploymentForDevice s deviceID = .error e) :
    e = DomainError.ErrNotFound ∧
    ∀ r d a, isCandidate s deviceID r d → a ∈ s.artifacts → a.ID ≠ d.ArtifactID := by
  unfold DeploymentRepo.GetPendingDeploymentForDevice at h
  split at h
  · rename_i hsort
    injection h with h
    refine ⟨h.symm, ?_⟩
    rw [insertionSort_eq_nil] at hsort
    intro r d a hc ha haid
    have hm := (mem_pendingJoin s deviceID r d a).2 ⟨hc, ha, haid⟩
    rw [hsort] at hm
    cases hm
  · cases h

theorem GetPending_found (s : Store) (deviceID : UUID) (r : DeploymentDevice) (d : Deployment)
    (a : Artifact) (hc : isCandidate s deviceID r d) (ha : a ∈ s.artifacts)
    (haid : a.ID = d.ArtifactID) :
    ∃ t, DeploymentRepo.GetPendingDeploymentForDevice s deviceID = .ok t := by
  cases hg : DeploymentRepo.GetPendingDeploymentForDevice s deviceID with
  | ok t => exact ⟨t, rfl⟩
  | error e => exact absurd haid ((GetPending_error s deviceID e hg).2 r d a hc ha)

theorem GetPending_none (s : Store) (deviceID : UUID)
    (h : ∀ r ∈ s.deploymentDevices, r.DeviceID = deviceID →
      r.Status ≠ DeploymentDeviceStatus.Pending) :
    DeploymentRepo.GetPendingDeploymentForDevice s deviceID = .error DomainError.ErrNotFound := by
  cases hg : DeploymentRepo.GetPendingDeploymentForDevice s deviceID with
  | error e => rw [(GetPending_error s deviceID e hg).1]
  | ok t =>
    obtain ⟨r, d, a, hc, _⟩ := GetPending_ok s deviceID t hg
    exact absurd hc.2.2.2.2.1 (h r hc.1 hc.2.2.2.1)

/-! ## Lemmas: status reports -/

theorem forall₂_map_self {α : Type} (f : α → α) (R : α → α → Prop) (l : List α)
    (h : ∀ x ∈ l, R x (f x)) : List.Forall₂ R l (l.map f) := by
  induction l with
  | nil => exact List.Forall₂.nil
  | cons a l ih =>
    exact List.Forall₂.cons (h a (List.mem_cons_self _ _))
      (ih (fun x hx => h x (List.mem_cons_of_mem _ hx)))

theorem UpdateDeviceStatus_found (s : Store) (now : Nat) (id : UUID)
    (status : DeploymentDeviceStatus) (log : String)
    (h : ∃ r ∈ s.deploymentDevices, r.ID = id) :
    DeploymentService.UpdateDeviceStatus s now id status log =
      ({ s with deploymentDevices := s.deploymentDevices.map (fun r =>
          if r.ID = id then DeploymentRepo.applyStatus now status log r else r) }, .ok ()) := by
  have hany : s.deploymentDevices.any (fun r => decide (r.ID = id)) = true := by
    rw [List.any_eq_true]
    obtain ⟨r, hr, hid⟩ := h
    exact ⟨r, hr, by simpa using hid⟩
  unfold DeploymentService.UpdateDeviceStatus DeploymentRepo.UpdateDeploymentDeviceStatus
    DeploymentService.checkDeploymentCompletion
  rw [if_pos hany]
  simp only
  split <;> rfl

theorem UpdateDeviceStatus_missing (s : Store) (now : Nat) (id : UUID)
    (status : DeploymentDeviceStatus) (log : String)
    (h : ¬ ∃ r ∈ s.deploymentDevices, r.ID = id) :
    DeploymentService.UpdateDeviceStatus s now id status log =
      (s, .error DomainError.ErrNotFound) := by
  have hany : ¬ s.deploymentDevices.any (fun r => decide (r.ID = id)) = true := by
    rw [List.any_eq_true]
    rintro ⟨r, hr, hid⟩
    exact h ⟨r, hr, by simpa using hid⟩
  unfold DeploymentService.UpdateDeviceStatus DeploymentRepo.UpdateDeploymentDeviceStatus
  rw [if_neg hany]

/-! ## Target resolution and deployment creation -/

/-- C1 (amended): for an input that names an existing artifact, over a registry
keyed by device id: every device that `resolveTargets` resolves is in the
union of the three selector passes restricted to accepted devices; the
resolved ids are pairwise distinct; when the tag listing, which is made only
when tags are given, and each per-type listing match at most 100 devices
(each is read as one page of 100 rows), every device of the union is
resolved; and `Create` fails with `ErrInvalidInput` exactly when the name is
empty or the union is empty. -/
theorem resolveTargets_union (s : Store) (now : Nat) (input : CreateDeploymentInput)
    (artifact : Artifact)
    (hart : ArtifactRepo.GetByID s input.ArtifactID = .ok artifact)
    (hkey : (s.devices.map (fun d => d.ID)).Nodup) :
    (∀ id, id ∈ DeploymentService.resolveTargets s input artifact →
      id ∈ targetUnion s input artifact) ∧
    (DeploymentService.resolveTargets s input artifact).Nodup ∧
    ((input.TargetDeviceTags ≠ [] →
        (DeviceRepo.List s (tagFilter input.TargetDeviceTags)).2 ≤ 100) →
      (∀ dt ∈ effectiveTypes input artifact, (DeviceRepo.List s (typeFilter dt)).2 ≤ 100) →
      ∀ id, id ∈ targetUnion s input artifact →
        id ∈ DeploymentService.resolveTargets s input artifact) ∧
    ((DeploymentService.Create s now input).2 = .error DomainError.ErrInvalidInput ↔
      (input.Name = "" ∨ targetUnion s input artifact = [])) := by
  refine ⟨?_, nodup_resolveTargets s input artifact, ?_, ?_⟩
  · intro id h
    exact (mem_targetUnion s input artifact id).2 (resolveTargets_sound s input artifact id h)
  · intro htags htypes id h
    exact resolveTargets_complete s input artifact id hkey htags htypes
      ((mem_targetUnion s input artifact id).1 h)
  · by_cases hname : input.Name = ""
    · have hinv : (DeploymentService.Create s now input).2 =
          .error DomainError.ErrInvalidInput := by
        unfold DeploymentService.Create
        rw [if_pos hname]
      exact ⟨fun _ => Or.inl hname, fun _ => hinv⟩
    · rw [Create_invalid_iff s now input artifact hname hart]
      constructor
      · intro h
        right
        apply List.eq_nil_iff_forall_not_mem.2
        intro a ha
        obtain ⟨e, he, hs, hsel, _⟩ := (mem_targetUnion s input artifact a).1 ha
        exact resolveTargets_nonempty s input artifact hkey e he hs hsel h
      · rintro (h | h)
        · exact absurd h hname
        · apply List.eq_nil_iff_forall_not_mem.2
          intro a ha
          have := (mem_targetUnion s input artifact a).2
            (resolveTargets_sound s input artifact a ha)
          rw [h] at this
          cases this

set_option maxRecDepth 100000 in
/-- Witness of C1 (amended). On the five-device registry the input with an
explicit, a tag and a fallback type selector resolves exactly the union
`1, 2, 3`, and `Create` does not fail with `ErrInvalidInput`. On the registry
of 101 accepted devices an input without tags, whose one type matches no
device, resolves exactly the union, the explicitly named device 7. -/
theorem resolveTargets_union_witness :
    (∀ id, id ∈ DeploymentService.resolveTargets exStore exInput exArtifact ↔
      id ∈ targetUnion exStore exInput exArtifact) ∧
    targetUnion exStore exInput exArtifact = [1, 2, 3] ∧
    (DeploymentService.Create exStore 100 exInput).2 ≠ .error DomainError.ErrInvalidInput ∧
    (∀ id, id ∈ DeploymentService.resolveTargets bigStore explicitOnlyInput exArtifact ↔
      id ∈ targetUnion bigStore explicitOnlyInput exArtifact) ∧
    targetUnion bigStore explicitOnlyInput exArtifact = [7] := by
  have h := resolveTargets_union exStore 100 exInput exArtifact (by decide) (by decide)
  have hb := resolveTargets_union bigStore 100 explicitOnlyInput exArtifact (by decide)
    (by decide)
  refine ⟨fun id => ⟨h.1 id, h.2.2.1 (by decide) (by decide) id⟩, by decide, ?_,
    fun id => ⟨hb.1 id, hb.2.2.1 (by decide) (by decide) id⟩, by decide⟩
  intro hc
  have := h.2.2.2.1 hc
  revert this
  decide

set_option maxRecDepth 100000 in
/-- Counterexample to C1 as stated. With an empty name `Create` fails with
`ErrInvalidInput` although the union of the three passes is not empty. And in
a registry of 101 accepted `pi4` devices the oldest device, id 1, is in the
union and is not resolved: the per-type listing returns its first 100 rows. -/
theorem resolveTargets_union_counterexample :
    (ArtifactRepo.GetByID exStore unnamedInput.ArtifactID = .ok exArtifact ∧
      (DeploymentService.Create exStore 100 unnamedInput).2 =
        .error DomainError.ErrInvalidInput ∧
      targetUnion exStore unnamedInput exArtifact ≠ []) ∧
    (ArtifactRepo.GetByID bigStore typeFallbackInput.ArtifactID = .ok exArtifact ∧
      1 ∈ targetUnion bigStore typeFallbackInput exArtifact ∧
      1 ∉ DeploymentService.resolveTargets bigStore typeFallbackInput exArtifact) := by
  decide

/-- C2 (amended): for an input with no target device types, over a registry
keyed by device id, every resolved device is named in the explicit ids, or
carries all the requested tags (when tags are given), or has a device type
that is a member of the artifact's device types. -/
theorem resolved_type_compatible (s : Store) (input : CreateDeploymentInput)
    (artifact : Artifact)
    (htypes : input.TargetDeviceTypes = [])
    (hkey : (s.devices.map (fun d => d.ID)).Nodup) :
    ∀ d ∈ s.devices, d.ID ∈ DeploymentService.resolveTargets s input artifact →
      d.ID ∈ input.TargetDeviceIDs ∨
      (input.TargetDeviceTags ≠ [] ∧ ∀ t ∈ input.TargetDeviceTags, t ∈ d.Tags) ∨
      d.DeviceType ∈ artifact.DeviceTypes := by
  intro d hd hmem
  obtain ⟨e, he, _, hsel, hid⟩ := resolveTargets_sound s input artifact d.ID hmem
  have : e = d := eq_of_ID_eq hkey he hd hid
  subst this
  unfold selectedBy effectiveTypes at hsel
  rw [if_pos htypes] at hsel
  exact hsel

/-- Witness of C2 (amended): device 3 of the five-device registry is resolved
for `exInput`; it is an explicit id and carries the tag, and its type `bbb`
is not one of the artifact's. -/
theorem resolved_type_compatible_witness :
    (mkDevice 3 DeviceStatus.Accepted "bbb" ["production"] 30).ID ∈ exInput.TargetDeviceIDs ∨
    (exInput.TargetDeviceTags ≠ [] ∧ ∀ t ∈ exInput.TargetDeviceTags,
      t ∈ (mkDevice 3 DeviceStatus.Accepted "bbb" ["production"] 30).Tags) ∨
    (mkDevice 3 DeviceStatus.Accepted "bbb" ["production"] 30).DeviceType ∈
      exArtifact.DeviceTypes :=
  resolved_type_compatible exStore exInput exArtifact (by decide) (by decide)
    (mkDevice 3 DeviceStatus.Accepted "bbb" ["production"] 30) (by decide) (by decide)

/-- Counterexample to C2 as stated: with a tag selector only and no target
types, the accepted device 3 of type `bbb` is resolved against an artifact
whose device types are `pi4` only. -/
theorem resolved_type_compatible_counterexample :
    tagOnlyInput.TargetDeviceTypes = [] ∧
    ArtifactRepo.GetByID exStore tagOnlyInput.ArtifactID = .ok exArtifact ∧
    3 ∈ DeploymentService.resolveTargets exStore tagOnlyInput exArtifact ∧
    DeviceRepo.GetByID exStore 3 =
      .ok (mkDevice 3 DeviceStatus.Accepted "bbb" ["production"] 30) ∧
    (mkDevice 3 DeviceStatus.Accepted "bbb" ["production"] 30).DeviceType ∉
      exArtifact.DeviceTypes := by
  decide

/-- C3 (amended): over a registry keyed by device id, a device whose status is
not accepted is never in the set that `resolveTargets` returns; `Create`
inserts no work row for such a device (every row of the device after `Create`
was there before); and when the artifact exists and every device picked by a
selector of the input is non-accepted, `Create` fails with `ErrInvalidInput`. -/
theorem non_accepted_never_targeted (s : Store) (now : Nat) (input : CreateDeploymentInput)
    (hkey : (s.devices.map (fun d => d.ID)).Nodup) :
    (∀ artifact, ∀ d ∈ s.devices, d.Status ≠ DeviceStatus.Accepted →
      d.ID ∉ DeploymentService.resolveTargets s input artifact) ∧
    (∀ d ∈ s.devices, d.Status ≠ DeviceStatus.Accepted →
      ∀ r ∈ (DeploymentService.Create s now input).1.deploymentDevices,
        r.DeviceID = d.ID → r ∈ s.deploymentDevices) ∧
    (∀ artifact, ArtifactRepo.GetByID s input.ArtifactID = .ok artifact →
      (∀ d ∈ s.devices, selectedBy input artifact d → d.Status ≠ DeviceStatus.Accepted) →
      (DeploymentService.Create s now input).2 = .error DomainError.ErrInvalidInput) := by
  have hpart1 : ∀ artifact, ∀ d ∈ s.devices, d.Status ≠ DeviceStatus.Accepted →
      d.ID ∉ DeploymentService.resolveTargets s input artifact := by
    intro artifact d hd hst hmem
    obtain ⟨e, he, hs, _, hid⟩ := resolveTargets_sound s input artifact d.ID hmem
    have : e = d := eq_of_ID_eq hkey he hd hid
    subst this
    exact hst hs
  refine ⟨hpart1, ?_, ?_⟩
  · intro d hd hst r hr hrd
    cases hres : (DeploymentService.Create s now input).2 with
    | error e =>
      rw [Create_error_unchanged s now input e hres] at hr
      exact hr
    | ok dep =>
      have hpair : DeploymentService.Create s now input =
          ((DeploymentService.Create s now input).1, .ok dep) := by
        rw [← hres]
      obtain ⟨_, artifact, hart, _, hdep, hs'⟩ := Create_ok_eq s now input _ dep hpair
      obtain ⟨news, h1, h2, _, _, _, _⟩ := createDeviceRows_spec s.freshID
        (DeploymentService.resolveTargets s input artifact)
        (DeploymentRepo.Create s now (newDeployment input)).1
        (nodup_resolveTargets s input artifact)
        (fun r hr hd => absurd hd (row_deployment_ne_freshID s r hr))
      rw [hs'] at hr
      have hr2 : r ∈ s.deploymentDevices ++ news := by
        have : r ∈ (createDeviceRows (DeploymentRepo.Create s now (newDeployment input)).1
            s.freshID (DeploymentService.resolveTargets s input artifact)).deploymentDevices := hr
        rw [h1] at this
        exact this
      rcases List.mem_append.1 hr2 with h | h
      · exact h
      · exfalso
        apply hpart1 artifact d hd hst
        rw [← hrd, ← h2]
        exact List.mem_map.2 ⟨r, h, rfl⟩
  · intro artifact hart hall
    by_cases hn : input.Name = ""
    · unfold DeploymentService.Create
      rw [if_pos hn]
    · rw [Create_invalid_iff s now input artifact hn hart]
      apply List.eq_nil_iff_forall_not_mem.2
      intro a ha
      obtain ⟨e, he, hs, hsel, _⟩ := resolveTargets_sound s input artifact a ha
      exact hall e he hsel hs

/-- Witness of C3 (amended) on the five-device registry: the pending device 4, although
named by id and carrying the tag, is not resolved and gets no row; the input
naming only the pending device 4 and the rejected device 5 fails with
`ErrInvalidInput`. -/
theorem non_accepted_never_targeted_witness :
    4 ∉ DeploymentService.resolveTargets exStore exInput exArtifact ∧
    (∀ r ∈ (DeploymentService.Create exStore 100 exInput).1.deploymentDevices,
      r.DeviceID = 4 → r ∈ exStore.deploymentDevices) ∧
    (DeploymentService.Create exStore 100 nonAcceptedInput).2 =
      .error DomainError.ErrInvalidInput :=
  ⟨(non_accepted_never_targeted exStore 100 exInput (by decide)).1 exArtifact
      (mkDevice 4 DeviceStatus.Pending "pi4" ["production"] 40) (by decide) (by decide),
   (non_accepted_never_targeted exStore 100 exInput (by decide)).2.1
      (mkDevice 4 DeviceStatus.Pending "pi4" ["production"] 40) (by decide) (by decide),
   (non_accepted_never_targeted exStore 100 nonAcceptedInput (by decide)).2.2 exArtifact
      (by decide) (by decide)⟩

/-- Counterexample to C3 as stated: an input that names only the pending
device 4 and the rejected device 5, with no tags and a type no device has,
and whose artifact id is unknown, fails with `ErrNotFound`, not with
`ErrInvalidInput`. -/
theorem non_accepted_never_targeted_counterexample :
    unknownArtifactInput.TargetDeviceTags = [] ∧
    (∀ d ∈ exStore.devices,
      d.ID ∈ unknownArtifactInput.TargetDeviceIDs ∨
        d.DeviceType ∈ unknownArtifactInput.TargetDeviceTypes →
      d.Status ≠ DeviceStatus.Accepted) ∧
    (∃ d ∈ exStore.devices, d.ID ∈ unknownArtifactInput.TargetDeviceIDs) ∧
    (DeploymentService.Create exStore 100 unknownArtifactInput).2 =
      .error DomainError.ErrNotFound ∧
    (DeploymentService.Create exStore 100 unknownArtifactInput).2 ≠
      .error DomainError.ErrInvalidInput := by
  decide

/-- C4: after a successful `Create`, each resolved device has exactly one work
row with the new deployment's id and that row is pending; every work row of
the new deployment belongs to a resolved device; and the stored deployment
has status active. -/
theorem Create_postcondition (s : Store) (now : Nat) (input : CreateDeploymentInput)
    (artifact : Artifact) (s' : Store) (dep : Deployment)
    (hart : ArtifactRepo.GetByID s input.ArtifactID = .ok artifact)
    (h : DeploymentService.Create s now input = (s', .ok dep)) :
    (∀ id ∈ DeploymentService.resolveTargets s input artifact,
      (s'.deploymentDevices.filter
        (fun r => decide (r.DeploymentID = dep.ID ∧ r.DeviceID = id))).length = 1 ∧
      ∀ r ∈ s'.deploymentDevices, r.DeploymentID = dep.ID → r.DeviceID = id →
        r.Status = DeploymentDeviceStatus.Pending) ∧
    (∀ r ∈ s'.deploymentDevices, r.DeploymentID = dep.ID →
      r.DeviceID ∈ DeploymentService.resolveTargets s input artifact) ∧
    (∃ d, DeploymentRepo.GetByID s' dep.ID = .ok d ∧ d.Status = DeploymentStatus.Active) ∧
    (∀ d ∈ s'.deployments, d.ID = dep.ID → d.Status = DeploymentStatus.Active) := by
  obtain ⟨_, artifact2, hart2, hne, hdep, hs'⟩ := Create_ok_eq s now input s' dep h
  rw [hart] at hart2
  injection hart2 with hart2
  subst hart2
  have hid : dep.ID = s.freshID := by rw [hdep]
  obtain ⟨news, h1, h2, h3, _, _, h6⟩ := createDeviceRows_spec s.freshID
    (DeploymentService.resolveTargets s input artifact)
    (DeploymentRepo.Create s now (newDeployment input)).1
    (nodup_resolveTargets s input artifact)
    (fun r hr hd => absurd hd (row_deployment_ne_freshID s r hr))
  have hdds : s'.deploymentDevices = s.deploymentDevices ++ news := by
    rw [hs']
    exact h1
  have hold : ∀ r ∈ s.deploymentDevices, ¬ r.DeploymentID = s.freshID :=
    fun r hr => row_deployment_ne_freshID s r hr
  have hdeps : s'.deployments = (s.deployments ++
      [{ newDeployment input with
          ID := s.freshID, CreatedAt := now, StartedAt := none, FinishedAt := none }]).map
      (fun d : Deployment =>
        if d.ID = s.freshID then
          { d with StartedAt := some now, Status := DeploymentStatus.Active }
        else d) := by
    rw [hs']
    show List.map _ (createDeviceRows _ _ _).deployments = _
    rw [h6]
    rfl
  refine ⟨?_, ?_, ?_, ?_⟩
  · intro id hidm
    constructor
    · rw [hdds, hid, List.filter_append]
      have hz : s.deploymentDevices.filter
          (fun r => decide (r.DeploymentID = s.freshID ∧ r.DeviceID = id)) = [] := by
        rw [List.filter_eq_nil_iff]
        intro r hr
        simp only [decide_eq_true_eq, not_and]
        intro hc
        exact absurd hc (hold r hr)
      rw [hz, List.nil_append, filter_pair_length news s.freshID id (fun r hr => (h3 r hr).1), h2]
      exact List.count_eq_one_of_mem (nodup_resolveTargets s input artifact) hidm
    · intro r hr hd _
      rw [hdds] at hr
      rcases List.mem_append.1 hr with hr | hr
      · exact absurd (hd.trans hid) (hold r hr)
      · exact (h3 r hr).2.1
  · intro r hr hd
    rw [hdds] at hr
    rcases List.mem_append.1 hr with hr | hr
    · exact absurd (hd.trans hid) (hold r hr)
    · rw [← h2]
      exact List.mem_map.2 ⟨r, hr, rfl⟩
  · refine ⟨{ newDeployment input with
        ID := s.freshID, CreatedAt := now, StartedAt := some now,
        Status := DeploymentStatus.Active }, ?_, rfl⟩
    unfold DeploymentRepo.GetByID
    rw [hdeps, hid, List.map_append, List.find?_append]
    have hnone : ∀ l : List Deployment, (∀ d ∈ l, d.ID ≠ s.freshID) →
        List.find? (fun d => decide (d.ID = s.freshID)) l = none := by
      intro l hl
      rw [List.find?_eq_none]
      intro d hd
      simpa using hl d hd
    rw [hnone]
    · simp [newDeployment]
    · intro d hd
      obtain ⟨d0, hd0, rfl⟩ := List.mem_map.1 hd
      have := deployment_ne_freshID s d0 hd0
      simp [this]
  · intro d hd hdid
    rw [hdeps] at hd
    obtain ⟨d0, hd0, rfl⟩ := List.mem_map.1 hd
    by_cases hc : d0.ID = s.freshID
    · rw [if_pos hc]
    · rw [if_neg hc] at hdid
      exact absurd (hdid.trans hid) hc

/-- Witness of C4: `Create` on the five-device registry at time 100 returns
deployment 11; each of the devices 3, 1, 2 has exactly one row of deployment
11 and the stored deployment is active. -/
theorem Create_postcondition_witness :
    (∀ id ∈ [3, 1, 2],
      ((DeploymentService.Create exStore 100 exInput).1.deploymentDevices.filter
        (fun r => decide (r.DeploymentID = 11 ∧ r.DeviceID = id))).length = 1) ∧
    (∃ d, DeploymentRepo.GetByID (DeploymentService.Create exStore 100 exInput).1 11 = .ok d ∧
      d.Status = DeploymentStatus.Active) := by
  have h := Create_postcondition exStore 100 exInput exArtifact
    (DeploymentService.Create exStore 100 exInput).1
    { newDeployment exInput with ID := 11, CreatedAt := 100 } (by decide) (by decide)
  exact ⟨fun id hid => (h.1 id hid).1, h.2.2.1⟩

/-- C5 (the code at the failing input): `Create` on the five-device registry
returns a deployment value with status scheduled and no start time, while the
row stored under the same id is active with its start time set. -/
theorem Create_returns_scheduled :
    (∃ dep, (DeploymentService.Create exStore 100 exInput).2 = .ok dep ∧
      dep.ID = 11 ∧ dep.Status = DeploymentStatus.Scheduled ∧ dep.StartedAt = none) ∧
    (∃ d, DeploymentRepo.GetByID (DeploymentService.Create exStore 100 exInput).1 11 = .ok d ∧
      d.Status = DeploymentStatus.Active ∧ d.StartedAt = some 100) := by
  refine ⟨⟨{ newDeployment exInput with ID := 11, CreatedAt := 100 }, by decide, rfl, rfl, rfl⟩,
    ⟨_, by rfl, by decide, by decide⟩⟩

/-! ## Next-work selection -/

/-- Counterexample to C6 as stated: in `orphanStore` device 1 has the pending
row 61 of the active deployment 60, so a candidate row exists, but the
artifact row of the deployment is gone and the selection, which joins the
artifacts, returns `ErrNotFound`. -/
theorem GetNextForDevice_spec_counterexample :
    isCandidate orphanStore 1 (mkRow 61 60 1 DeploymentDeviceStatus.Pending)
      (mkDeployment 60 DeploymentStatus.Active 100) ∧
    (∀ a ∈ orphanStore.artifacts, a.ID ≠ (mkDeployment 60 DeploymentStatus.Active 100).ArtifactID) ∧
    (DeploymentService.GetNextForDevice orphanStore 1).2 =
      .error DomainError.ErrNotFound := by
  decide

/-- C6 (amended): for every store and device id, a successful next-work
selection returns the scanned columns of a candidate (a pending row of the
device whose parent deployment is scheduled or active) whose deployment's
artifact row exists, of that row's deployment and of that deployment's
artifact, and the parent's creation time is at most that of the parent of
every candidate whose artifact row exists; the selection returns
`ErrNotFound` exactly when no candidate with an existing artifact row exists,
and a triple when one exists; and the store is left unchanged. -/
theorem GetNextForDevice_spec (s : Store) (deviceID : UUID) :
    (∀ dd dep art, (DeploymentService.GetNextForDevice s deviceID).2 = .ok (dd, dep, art) →
      ∃ r d a, isCandidate s deviceID r d ∧ a ∈ s.artifacts ∧ a.ID = d.ArtifactID ∧
        (dd, dep, art) = DeploymentRepo.scanPending (r, d, a) ∧
        dd.ID = r.ID ∧ dd.DeviceID = deviceID ∧ dd.Status = DeploymentDeviceStatus.Pending ∧
        dep.ID = dd.DeploymentID ∧ art.ID = dep.ArtifactID ∧
        ∀ r2 d2 a2, isCandidate s deviceID r2 d2 → a2 ∈ s.artifacts → a2.ID = d2.ArtifactID →
          d.CreatedAt ≤ d2.CreatedAt) ∧
    ((DeploymentService.GetNextForDevice s deviceID).2 = .error DomainError.ErrNotFound ↔
      ¬ ∃ r d a, isCandidate s deviceID r d ∧ a ∈ s.artifacts ∧ a.ID = d.ArtifactID) ∧
    ((∃ r d a, isCandidate s deviceID r d ∧ a ∈ s.artifacts ∧ a.ID = d.ArtifactID) →
      ∃ t, (DeploymentService.GetNextForDevice s deviceID).2 = .ok t) ∧
    (DeploymentService.GetNextForDevice s deviceID).1 = s := by
  have hres : (DeploymentService.GetNextForDevice s deviceID).2 =
      DeploymentRepo.GetPendingDeploymentForDevice s deviceID := rfl
  refine ⟨?_, ?_, ?_, rfl⟩
  · intro dd dep art h
    rw [hres] at h
    obtain ⟨r, d, a, hc, ha, haid, ht, hmin⟩ := GetPending_ok s deviceID _ h
    have h0 := ht
    simp only [DeploymentRepo.scanPending, Prod.mk.injEq] at h0
    obtain ⟨h1, h2, h3⟩ := h0
    refine ⟨r, d, a, hc, ha, haid, ht, ?_, ?_, ?_, ?_, ?_, hmin⟩
    · rw [h1]
    · rw [h1]; exact hc.2.2.2.1
    · rw [h1]; exact hc.2.2.2.2.1
    · rw [h1, h2]; exact hc.2.2.1
    · rw [h2, h3]; exact haid
  · rw [hres]
    constructor
    · rintro h ⟨r, d, a, hc, ha, haid⟩
      exact (GetPending_error s deviceID _ h).2 r d a hc ha haid
    · intro h
      cases hg : DeploymentRepo.GetPendingDeploymentForDevice s deviceID with
      | error e => rw [(GetPending_error s deviceID e hg).1]
      | ok t =>
        obtain ⟨r, d, a, hc, ha, haid, _⟩ := GetPending_ok s deviceID t hg
        exact absurd ⟨r, d, a, hc, ha, haid⟩ h
  · rintro ⟨r, d, a, hc, ha, haid⟩
    rw [hres]
    exact GetPending_found s deviceID r d a hc ha haid

/-- Witness of C6 (amended) on `pollStore`: for device 1 the selected row 32
is a candidate whose parent is created no later than any candidate's parent,
and device 2, whose only row is downloading, has no candidate. -/
theorem GetNextForDevice_spec_witness :
    (∃ r d a, isCandidate pollStore 1 r d ∧ a ∈ pollStore.artifacts ∧ a.ID = d.ArtifactID ∧
      r.ID = 32 ∧ ∀ r2 d2 a2, isCandidate pollStore 1 r2 d2 → a2 ∈ pollStore.artifacts →
        a2.ID = d2.ArtifactID → d.CreatedAt ≤ d2.CreatedAt) ∧
    (¬ ∃ r d a, isCandidate pollStore 2 r d ∧ a ∈ pollStore.artifacts ∧
      a.ID = d.ArtifactID) := by
  refine ⟨?_, (GetNextForDevice_spec pollStore 2).2.1.1 (by decide)⟩
  obtain ⟨r, d, a, hc, ha, haid, _, hid, _, _, _, _, hmin⟩ :=
    (GetNextForDevice_spec pollStore 1).1
      (DeploymentRepo.scanPending (mkRow 32 20 1 DeploymentDeviceStatus.Pending,
        mkDeployment 20 DeploymentStatus.Active 200, exArtifact)).1
      (DeploymentRepo.scanPending (mkRow 32 20 1 DeploymentDeviceStatus.Pending,
        mkDeployment 20 DeploymentStatus.Active 200, exArtifact)).2.1
      (DeploymentRepo.scanPending (mkRow 32 20 1 DeploymentDeviceStatus.Pending,
        mkDeployment 20 DeploymentStatus.Active 200, exArtifact)).2.2
      (by decide)
  exact ⟨r, d, a, hc, ha, haid, hid.symm, hmin⟩

/-- Counterexample to C7 as stated: device 1 has pending rows in the active
deployments 42 and 41, created at the same time; the selection returns the
row of deployment 42, the larger id. -/
theorem tie_break_counterexample :
    isCandidate tieStore 1 (mkRow 51 42 1 DeploymentDeviceStatus.Pending)
      (mkDeployment 42 DeploymentStatus.Active 100) ∧
    isCandidate tieStore 1 (mkRow 52 41 1 DeploymentDeviceStatus.Pending)
      (mkDeployment 41 DeploymentStatus.Active 100) ∧
    (mkDeployment 42 DeploymentStatus.Active 100).CreatedAt =
      (mkDeployment 41 DeploymentStatus.Active 100).CreatedAt ∧
    (DeploymentService.GetNextForDevice tieStore 1).2 =
      .ok (DeploymentRepo.scanPending (mkRow 51 42 1 DeploymentDeviceStatus.Pending,
        mkDeployment 42 DeploymentStatus.Active 100, exArtifact)) ∧
    (DeploymentRepo.scanPending (mkRow 51 42 1 DeploymentDeviceStatus.Pending,
        mkDeployment 42 DeploymentStatus.Active 100, exArtifact)).2.1.ID = 42 := by
  decide

/-- C7 (amended): a successful selection returns the scanned columns of a
candidate with an existing artifact row whose deployment is created no later
than that of any such candidate, whatever the deployment ids are; and a
candidate whose deployment is created strictly before that of every other
such candidate is the one returned. -/
theorem GetNextForDevice_earliest (s : Store) (deviceID : UUID) :
    (∀ t, (DeploymentService.GetNextForDevice s deviceID).2 = .ok t →
      ∃ r d a, isCandidate s deviceID r d ∧ a ∈ s.artifacts ∧ a.ID = d.ArtifactID ∧
        t = DeploymentRepo.scanPending (r, d, a) ∧
        ∀ r2 d2 a2, isCandidate s deviceID r2 d2 → a2 ∈ s.artifacts → a2.ID = d2.ArtifactID →
          d.CreatedAt ≤ d2.CreatedAt) ∧
    (∀ r d a, isCandidate s deviceID r d → a ∈ s.artifacts → a.ID = d.ArtifactID →
      (∀ r2 d2 a2, isCandidate s deviceID r2 d2 → a2 ∈ s.artifacts → a2.ID = d2.ArtifactID →
        (r2, d2, a2) ≠ (r, d, a) → d.CreatedAt < d2.CreatedAt) →
      (DeploymentService.GetNextForDevice s deviceID).2 =
        .ok (DeploymentRepo.scanPending (r, d, a))) := by
  have hres : (DeploymentService.GetNextForDevice s deviceID).2 =
      DeploymentRepo.GetPendingDeploymentForDevice s deviceID := rfl
  refine ⟨fun t h => GetPending_ok s deviceID t (by rw [← hres]; exact h), ?_⟩
  intro r d a hc ha haid hstrict
  rw [hres]
  obtain ⟨t, ht⟩ := GetPending_found s deviceID r d a hc ha haid
  obtain ⟨r1, d1, a1, hc1, ha1, haid1, ht1, hmin⟩ := GetPending_ok s deviceID t ht
  by_cases heq : (r1, d1, a1) = (r, d, a)
  · rw [ht, ht1, heq]
  · exact absurd (hmin r d a hc ha haid) (Nat.not_le.2 (hstrict r1 d1 a1 hc1 ha1 haid1 heq))

/-- Witness of C7 (amended) on `pollStore`: device 1 has pending rows in the
active deployments 21, created at 300, and 20, created at 200; row 32 of
deployment 20 is returned though deployment 21 comes first in the table. -/
theorem GetNextForDevice_earliest_witness :
    isCandidate pollStore 1 (mkRow 32 20 1 DeploymentDeviceStatus.Pending)
      (mkDeployment 20 DeploymentStatus.Active 200) ∧
    (DeploymentService.GetNextForDevice pollStore 1).2 =
      .ok (DeploymentRepo.scanPending (mkRow 32 20 1 DeploymentDeviceStatus.Pending,
        mkDeployment 20 DeploymentStatus.Active 200, exArtifact)) :=
  ⟨by decide,
   (GetNextForDevice_earliest pollStore 1).2 (mkRow 32 20 1 DeploymentDeviceStatus.Pending)
     (mkDeployment 20 DeploymentStatus.Active 200) exArtifact (by decide) (by decide)
     (by decide)
     (fun r2 d2 a2 hc ha haid hne =>
       (by decide : ∀ y ∈ DeploymentRepo.pendingJoin pollStore 1,
         y ≠ (mkRow 32 20 1 DeploymentDeviceStatus.Pending,
           mkDeployment 20 DeploymentStatus.Active 200, exArtifact) →
         (mkDeployment 20 DeploymentStatus.Active 200).CreatedAt < y.2.1.CreatedAt)
       (r2, d2, a2) ((mem_pendingJoin pollStore 1 r2 d2 a2).2 ⟨hc, ha, haid⟩) hne)⟩

/-- Counterexample to C8 as stated: device 5 of `pollStore` is rejected and
`GetNextForDevice` hands out its pending row 35 of the scheduled deployment
23 with that deployment and its artifact. -/
theorem non_accepted_poll_counterexample :
    DeviceRepo.GetByID pollStore 5 = .ok (mkDevice 5 DeviceStatus.Rejected "pi4" [] 50) ∧
    (mkDevice 5 DeviceStatus.Rejected "pi4" [] 50).Status ≠ DeviceStatus.Accepted ∧
    (DeploymentService.GetNextForDevice pollStore 5).2 =
      .ok (DeploymentRepo.scanPending (mkRow 35 23 5 DeploymentDeviceStatus.Pending,
        mkDeployment 23 DeploymentStatus.Scheduled 250, exArtifact)) := by
  decide

/-- C8 (amended): `GetNextForDevice` does not read the devices table, so its
result is the same whatever the status of the device; it hands out a triple
exactly when the device id has a pending row whose parent deployment is
scheduled or active and whose artifact row exists. -/
theorem GetNextForDevice_ignores_devices (s : Store) (devs : List Device) (deviceID : UUID) :
    (DeploymentService.GetNextForDevice { s with devices := devs } deviceID).2 =
      (DeploymentService.GetNextForDevice s deviceID).2 ∧
    ((∃ t, (DeploymentService.GetNextForDevice s deviceID).2 = .ok t) ↔
      ∃ r d a, isCandidate s deviceID r d ∧ a ∈ s.artifacts ∧ a.ID = d.ArtifactID) := by
  refine ⟨rfl, ?_⟩
  show (∃ t, DeploymentRepo.GetPendingDeploymentForDevice s deviceID = .ok t) ↔ _
  unfold DeploymentRepo.GetPendingDeploymentForDevice
  constructor
  · rintro ⟨t, ht⟩
    split at ht
    · cases ht
    · rename_i x xs hsort
      obtain ⟨r, d, a⟩ := x
      have hmin := insertionSort_head_min
        (fun t : DeploymentDevice × Deployment × Artifact => t.2.1.CreatedAt) _ _ _ hsort
      exact ⟨r, d, a, (mem_pendingJoin s deviceID r d a).1 hmin.1⟩
  · rintro ⟨r, d, a, h⟩
    have hm := (mem_pendingJoin s deviceID r d a).2 h
    split
    · rename_i hsort
      rw [insertionSort_eq_nil] at hsort
      rw [hsort] at hm
      cases hm
    · exact ⟨_, rfl⟩

/-! ## Status reports -/

/-- C9: `UpdateDeviceStatus` on an id that has a row succeeds and rewrites
exactly the rows with that id. For downloading or installing it sets status
and log, adds one to attempts, sets the start time to `now` only if it was
unset and keeps the finish time; for success or failure it sets status and
log, sets the finish time to `now` and keeps attempts and start time. For an
id with no row it returns `ErrNotFound` and the store is unchanged. -/
theorem UpdateDeviceStatus_effect (s : Store) (now : Nat) (id : UUID) (log : String) :
    (∀ status, status = DeploymentDeviceStatus.Downloading ∨
        status = DeploymentDeviceStatus.Installing →
      (∃ r ∈ s.deploymentDevices, r.ID = id) →
      (DeploymentService.UpdateDeviceStatus s now id status log).2 = .ok () ∧
      List.Forall₂ (fun r r2 =>
        if r.ID = id then
          r2.Status = status ∧ r2.Log = log ∧ r2.Attempts = r.Attempts + 1 ∧
          r2.StartedAt = (if r.StartedAt = none then some now else r.StartedAt) ∧
          r2.FinishedAt = r.FinishedAt ∧
          r2.ID = r.ID ∧ r2.DeploymentID = r.DeploymentID ∧ r2.DeviceID = r.DeviceID
        else r2 = r)
        s.deploymentDevices
        (DeploymentService.UpdateDeviceStatus s now id status log).1.deploymentDevices) ∧
    (∀ status, status = DeploymentDeviceStatus.Success ∨
        status = DeploymentDeviceStatus.Failure →
      (∃ r ∈ s.deploymentDevices, r.ID = id) →
      (DeploymentService.UpdateDeviceStatus s now id status log).2 = .ok () ∧
      List.Forall₂ (fun r r2 =>
        if r.ID = id then
          r2.Status = status ∧ r2.Log = log ∧ r2.FinishedAt = some now ∧
          r2.Attempts = r.Attempts ∧ r2.StartedAt = r.StartedAt ∧
          r2.ID = r.ID ∧ r2.DeploymentID = r.DeploymentID ∧ r2.DeviceID = r.DeviceID
        else r2 = r)
        s.deploymentDevices
        (DeploymentService.UpdateDeviceStatus s now id status log).1.deploymentDevices) ∧
    (∀ status, (¬ ∃ r ∈ s.deploymentDevices, r.ID = id) →
      DeploymentService.UpdateDeviceStatus s now id status log =
        (s, .error DomainError.ErrNotFound)) := by
  refine ⟨?_, ?_, ?_⟩
  · intro status hst hex
    rw [UpdateDeviceStatus_found s now id status log hex]
    refine ⟨rfl, forall₂_map_self _ _ _ ?_⟩
    intro r _
    by_cases hid : r.ID = id
    · simp only [hid, if_true]
      rcases hst with h | h <;> subst h <;> cases hs : r.StartedAt <;>
        simp [DeploymentRepo.applyStatus, hs, hid]
    · simp only [hid, if_false]
  · intro status hst hex
    rw [UpdateDeviceStatus_found s now id status log hex]
    refine ⟨rfl, forall₂_map_self _ _ _ ?_⟩
    intro r _
    by_cases hid : r.ID = id
    · simp only [hid, if_true]
      rcases hst with h | h <;> subst h <;> simp [DeploymentRepo.applyStatus, hid]
    · simp only [hid, if_false]
  · intro status hex
    exact UpdateDeviceStatus_missing s now id status log hex

/-- Witness of C9 on `singleStore`: reporting downloading for row 61 at time
500 gives attempts 1 and start time 500; a report for the unknown id 99
returns `ErrNotFound` and leaves the store as it was. -/
theorem UpdateDeviceStatus_effect_witness :
    (DeploymentService.UpdateDeviceStatus singleStore 500 61
        DeploymentDeviceStatus.Downloading "fetching").2 = .ok () ∧
    (DeploymentService.UpdateDeviceStatus singleStore 500 61
        DeploymentDeviceStatus.Downloading "fetching").1.deploymentDevices =
      [{ mkRow 61 60 1 DeploymentDeviceStatus.Downloading with
          Attempts := 1, Log := "fetching", StartedAt := some 500 }] ∧
    DeploymentService.UpdateDeviceStatus singleStore 500 99
        DeploymentDeviceStatus.Success "done" =
      (singleStore, .error DomainError.ErrNotFound) :=
  ⟨((UpdateDeviceStatus_effect singleStore 500 61 "fetching").1
      DeploymentDeviceStatus.Downloading (Or.inl rfl) (by decide)).1,
   by decide,
   (UpdateDeviceStatus_effect singleStore 500 99 "done").2.2
      DeploymentDeviceStatus.Success (by decide)⟩

/-- C10 (the code at the failing input): `UpdateDeviceStatus` never changes
the deployments table. On `singleStore` the report of success for row 61 is
accepted, every row of deployment 60 is then terminal, and deployment 60 is
still stored as active with no finish time. -/
theorem completion_check_is_empty :
    (∀ s now id status log,
      (DeploymentService.UpdateDeviceStatus s now id status log).1.deployments =
        s.deployments) ∧
    ((DeploymentService.UpdateDeviceStatus singleStore 500 61
        DeploymentDeviceStatus.Success "done").2 = .ok () ∧
     (∀ r ∈ (DeploymentService.UpdateDeviceStatus singleStore 500 61
        DeploymentDeviceStatus.Success "done").1.deploymentDevices,
        r.DeploymentID = 60 → r.Status.isTerminal = true) ∧
     DeploymentRepo.GetByID (DeploymentService.UpdateDeviceStatus singleStore 500 61
        DeploymentDeviceStatus.Success "done").1 60 =
       .ok (mkDeployment 60 DeploymentStatus.Active 100) ∧
     (mkDeployment 60 DeploymentStatus.Active 100).FinishedAt = none) := by
  refine ⟨?_, by decide⟩
  intro s now id status log
  by_cases hex : ∃ r ∈ s.deploymentDevices, r.ID = id
  · rw [UpdateDeviceStatus_found s now id status log hex]
  · rw [UpdateDeviceStatus_missing s now id status log hex]

/-! ## Cancellation, terminal rows and timestamps -/

theorem map_ite_of_forall_not {α : Type} (p : α → Prop) [DecidablePred p] (f : α → α)
    (l : List α) (h : ∀ x ∈ l, ¬ p x) : l.map (fun x => if p x then f x else x) = l := by
  induction l with
  | nil => rfl
  | cons a l ih =>
    rw [List.map_cons, if_neg (h a (List.mem_cons_self _ _)),
      ih (fun x hx => h x (List.mem_cons_of_mem _ hx))]

theorem UpdateDeploymentDeviceStatus_fst (s : Store) (now : Nat) (id : UUID)
    (status : DeploymentDeviceStatus) (log : String) :
    (DeploymentRepo.UpdateDeploymentDeviceStatus s now id status log).1 =
      { s with deploymentDevices := s.deploymentDevices.map (fun r =>
          if r.ID = id then DeploymentRepo.applyStatus now status log r else r) } := by
  unfold DeploymentRepo.UpdateDeploymentDeviceStatus
  by_cases hany : s.deploymentDevices.any (fun r => decide (r.ID = id)) = true
  · rw [if_pos hany]
  · rw [if_neg hany]
    have hno : ∀ r ∈ s.deploymentDevices, ¬ r.ID = id := by
      intro r hr hid
      apply hany
      rw [List.any_eq_true]
      exact ⟨r, hr, by simpa using hid⟩
    rw [map_ite_of_forall_not (fun r : DeploymentDevice => r.ID = id) _ _ hno]

theorem UpdateDeviceStatus_fst (s : Store) (now : Nat) (id : UUID)
    (status : DeploymentDeviceStatus) (log : String) :
    (DeploymentService.UpdateDeviceStatus s now id status log).1 =
      { s with deploymentDevices := s.deploymentDevices.map (fun r =>
          if r.ID = id then DeploymentRepo.applyStatus now status log r else r) } := by
  by_cases hex : ∃ r ∈ s.deploymentDevices, r.ID = id
  · rw [UpdateDeviceStatus_found s now id status log hex]
  · rw [UpdateDeviceStatus_missing s now id status log hex]
    have hno : ∀ r ∈ s.deploymentDevices, ¬ r.ID = id := fun r hr hid => hex ⟨r, hr, hid⟩
    rw [map_ite_of_forall_not (fun r : DeploymentDevice => r.ID = id) _ _ hno]

theorem applyStatus_skipped (now : Nat) (r : DeploymentDevice) :
    DeploymentRepo.applyStatus now DeploymentDeviceStatus.Skipped "deployment cancelled" r =
      skipRow r := rfl

theorem skipPending_eq (now : Nat) (devices : List DeploymentDevice) (s : Store) :
    skipPending s now devices =
      { s with deploymentDevices := s.deploymentDevices.map (fun r =>
          if r.ID ∈ pendingIDs devices then skipRow r else r) } := by
  induction devices generalizing s with
  | nil =>
    show s = _
    simp [pendingIDs]
  | cons a l ih =>
    have hunf : skipPending s now (a :: l) = skipPending
        (if a.Status = DeploymentDeviceStatus.Pending then
          (DeploymentRepo.UpdateDeploymentDeviceStatus s now a.ID
            DeploymentDeviceStatus.Skipped "deployment cancelled").1
        else s) now l := rfl
    rw [hunf, ih]
    by_cases hp : a.Status = DeploymentDeviceStatus.Pending
    · rw [if_pos hp, UpdateDeploymentDeviceStatus_fst]
      have hids : pendingIDs (a :: l) = a.ID :: pendingIDs l := by
        simp [pendingIDs, hp]
      rw [hids]
      simp only [List.map_map]
      congr 1
      apply List.map_congr_left
      intro r _
      simp only [Function.comp, applyStatus_skipped]
      by_cases h1 : r.ID = a.ID
      · have h2 : (skipRow r).ID = r.ID := rfl
        simp only [h1, if_true, List.mem_cons, true_or]
        by_cases h3 : (skipRow r).ID ∈ pendingIDs l
        · rw [if_pos h3]; rfl
        · rw [if_neg h3]
      · simp only [h1, if_false, List.mem_cons, false_or]
    · rw [if_neg hp]
      have hids : pendingIDs (a :: l) = pendingIDs l := by
        simp [pendingIDs, hp]
      rw [hids]

theorem GetByID_deployment_ok {s : Store} {id : UUID} {d : Deployment}
    (h : DeploymentRepo.GetByID s id = .ok d) : d ∈ s.deployments ∧ d.ID = id := by
  unfold DeploymentRepo.GetByID at h
  split at h
  · rename_i d2 hf
    injection h with h; subst h
    exact ⟨List.mem_of_find?_eq_some hf, by simpa using List.find?_some hf⟩
  · cases h

theorem GetByID_deployment_error {s : Store} {id : UUID} {e : DomainError}
    (h : DeploymentRepo.GetByID s id = .error e) :
    e = DomainError.ErrNotFound ∧ ∀ d ∈ s.deployments, d.ID ≠ id := by
  unfold DeploymentRepo.GetByID at h
  split at h
  · cases h
  · rename_i hf
    injection h with h
    refine ⟨h.symm, ?_⟩
    intro d hd hid
    rw [List.find?_eq_none] at hf
    exact hf d hd (by simpa using hid)

/-- What a cancellation that passes both checks leaves behind. -/
theorem Cancel_ok_eq (s : Store) (now : Nat) (id : UUID) (dep : Deployment)
    (hdep : DeploymentRepo.GetByID s id = .ok dep)
    (hst : ¬ (dep.Status = DeploymentStatus.Completed ∨ dep.Status = DeploymentStatus.Cancelled)) :
    DeploymentService.Cancel s now id =
      ({ s with
          deployments := s.deployments.map (fun d =>
            if d.ID = id then { d with Status := DeploymentStatus.Cancelled } else d),
          deploymentDevices := s.deploymentDevices.map (fun r =>
            if r.ID ∈ pendingIDs (DeploymentRepo.GetDeploymentDevices s id) then skipRow r
            else r) }, .ok ()) := by
  unfold DeploymentService.Cancel
  rw [hdep]
  simp only
  rw [if_neg hst, skipPending_eq]
  unfold DeploymentRepo.UpdateStatus
  have hany : s.deployments.any (fun d => decide (d.ID = id)) = true := by
    rw [List.any_eq_true]
    obtain ⟨hm, hid⟩ := GetByID_deployment_ok hdep
    exact ⟨dep, hm, by simpa using hid⟩
  simp only
  rw [if_pos hany]

/-- A cancellation that fails leaves the store as it was. -/
theorem Cancel_error_unchanged (s : Store) (now : Nat) (id : UUID) (e : DomainError)
    (h : (DeploymentService.Cancel s now id).2 = .error e) :
    (DeploymentService.Cancel s now id).1 = s := by
  cases hdep : DeploymentRepo.GetByID s id with
  | error e2 =>
    unfold DeploymentService.Cancel
    rw [hdep]
  | ok dep =>
    by_cases hst : dep.Status = DeploymentStatus.Completed ∨
        dep.Status = DeploymentStatus.Cancelled
    · unfold DeploymentService.Cancel
      rw [hdep]
      simp only
      rw [if_pos hst]
    · rw [Cancel_ok_eq s now id dep hdep hst] at h
      cases h

/-- The work rows after any cancellation: the rows before, some of them
rewritten by the skip update. -/
theorem Cancel_rows (s : Store) (now : Nat) (id : UUID) :
    ∃ ids : List UUID, (DeploymentService.Cancel s now id).1.deploymentDevices =
      s.deploymentDevices.map (fun r => if r.ID ∈ ids then skipRow r else r) := by
  cases hres : (DeploymentService.Cancel s now id).2 with
  | error e =>
    refine ⟨[], ?_⟩
    rw [Cancel_error_unchanged s now id e hres]
    simp
  | ok u =>
    cases hdep : DeploymentRepo.GetByID s id with
    | error e2 =>
      unfold DeploymentService.Cancel at hres
      rw [hdep] at hres
      cases hres
    | ok dep =>
      by_cases hst : dep.Status = DeploymentStatus.Completed ∨
          dep.Status = DeploymentStatus.Cancelled
      · unfold DeploymentService.Cancel at hres
        rw [hdep] at hres
        simp only at hres
        rw [if_pos hst] at hres
        cases hres
      · rw [Cancel_ok_eq s now id dep hdep hst]
        exact ⟨_, rfl⟩

theorem forall₂_self {α : Type} (R : α → α → Prop) (l : List α) (h : ∀ x ∈ l, R x x) :
    List.Forall₂ R l l := by
  induction l with
  | nil => exact List.Forall₂.nil
  | cons a l ih =>
    exact List.Forall₂.cons (h a (List.mem_cons_self _ _))
      (ih (fun x hx => h x (List.mem_cons_of_mem _ hx)))

theorem find?_map_keepID (f : Deployment → Deployment) (hf : ∀ d, (f d).ID = d.ID)
    (l : List Deployment) (id : UUID) :
    List.find? (fun d => decide (d.ID = id)) (l.map f) =
      (List.find? (fun d => decide (d.ID = id)) l).map f := by
  induction l with
  | nil => rfl
  | cons a l ih =>
    by_cases ha : a.ID = id
    · simp [List.find?_cons, hf, ha]
    · simp [List.find?_cons, hf, ha, ih]

theorem mem_pendingIDs (s : Store) (id x : UUID) :
    x ∈ pendingIDs (DeploymentRepo.GetDeploymentDevices s id) ↔
      ∃ r ∈ s.deploymentDevices, r.DeploymentID = id ∧
        r.Status = DeploymentDeviceStatus.Pending ∧ r.ID = x := by
  unfold pendingIDs DeploymentRepo.GetDeploymentDevices
  simp only [List.mem_map, List.mem_filter, List.mem_insertionSort, decide_eq_true_eq]
  constructor
  · rintro ⟨r, ⟨⟨hr, hd⟩, hp⟩, rfl⟩
    exact ⟨r, hr, hd, hp, rfl⟩
  · rintro ⟨r, hr, hd, hp, rfl⟩
    exact ⟨r, ⟨⟨hr, hd⟩, hp⟩, rfl⟩

theorem row_eq_of_ID_eq {l : List DeploymentDevice} (hkey : (l.map (fun r => r.ID)).Nodup)
    {a b : DeploymentDevice} (ha : a ∈ l) (hb : b ∈ l) (h : a.ID = b.ID) : a = b :=
  List.inj_on_of_nodup_map hkey ha hb h

/-- With row ids as a key, the skip update of a cancellation reaches exactly
the pending rows of the deployment. -/
theorem mem_pendingIDs_iff_of_key (s : Store) (id : UUID)
    (hkey : (s.deploymentDevices.map (fun r => r.ID)).Nodup)
    (r : DeploymentDevice) (hr : r ∈ s.deploymentDevices) :
    r.ID ∈ pendingIDs (DeploymentRepo.GetDeploymentDevices s id) ↔
      (r.DeploymentID = id ∧ r.Status = DeploymentDeviceStatus.Pending) := by
  rw [mem_pendingIDs]
  constructor
  · rintro ⟨r0, hr0, hd, hp, hid⟩
    have : r0 = r := row_eq_of_ID_eq hkey hr0 hr hid
    subst this
    exact ⟨hd, hp⟩
  · rintro ⟨hd, hp⟩
    exact ⟨r, hr, hd, hp, rfl⟩

theorem Create_rows (s : Store) (now : Nat) (input : CreateDeploymentInput) :
    ∃ news, (DeploymentService.Create s now input).1.deploymentDevices =
      s.deploymentDevices ++ news := by
  cases hres : (DeploymentService.Create s now input).2 with
  | error e =>
    rw [Create_error_unchanged s now input e hres]
    exact ⟨[], by simp⟩
  | ok dep =>
    have hpair : DeploymentService.Create s now input =
        ((DeploymentService.Create s now input).1, .ok dep) := by
      rw [← hres]
    obtain ⟨_, artifact, _, _, _, hs'⟩ := Create_ok_eq s now input _ dep hpair
    obtain ⟨news, h1, _⟩ := createDeviceRows_spec s.freshID
      (DeploymentService.resolveTargets s input artifact)
      (DeploymentRepo.Create s now (newDeployment input)).1
      (nodup_resolveTargets s input artifact)
      (fun r hr hd => absurd hd (row_deployment_ne_freshID s r hr))
    refine ⟨news, ?_⟩
    rw [hs']
    exact h1

/-- Counterexample to C11 as stated: row 61 of `finishedStore` has status
success; a later report of downloading for it is accepted and the row becomes
downloading, with attempts 1 and a start time. -/
theorem terminal_row_counterexample :
    mkRowAt 61 60 1 DeploymentDeviceStatus.Success 0 none (some 500) ∈
      finishedStore.deploymentDevices ∧
    (mkRowAt 61 60 1 DeploymentDeviceStatus.Success 0 none (some 500)).Status.isTerminal = true ∧
    (DeploymentService.UpdateDeviceStatus finishedStore 600 61
      DeploymentDeviceStatus.Downloading "again").2 = .ok () ∧
    (DeploymentService.UpdateDeviceStatus finishedStore 600 61
      DeploymentDeviceStatus.Downloading "again").1.deploymentDevices =
      [{ mkRowAt 61 60 1 DeploymentDeviceStatus.Downloading 1 (some 600) (some 500) with
          Log := "again" }] := by
  decide

/-- C11 (amended): with row ids as a key, `Cancel` leaves every terminal row as
it is; `UpdateDeviceStatus` leaves every row with another id as it is, and
gives the row with the reported id the reported status whatever its status
was. -/
theorem terminal_rows_kept (s : Store) (now : Nat)
    (hkey : (s.deploymentDevices.map (fun r => r.ID)).Nodup) :
    (∀ id, List.Forall₂ (fun r r2 => r.Status.isTerminal = true → r2 = r)
      s.deploymentDevices (DeploymentService.Cancel s now id).1.deploymentDevices) ∧
    (∀ id status log, List.Forall₂
      (fun r r2 => if r.ID = id then r2.Status = status else r2 = r)
      s.deploymentDevices
      (DeploymentService.UpdateDeviceStatus s now id status log).1.deploymentDevices) := by
  constructor
  · intro id
    cases hres : (DeploymentService.Cancel s now id).2 with
    | error e =>
      rw [Cancel_error_unchanged s now id e hres]
      exact forall₂_self _ _ (fun r _ _ => rfl)
    | ok u =>
      cases hdep : DeploymentRepo.GetByID s id with
      | error e2 =>
        unfold DeploymentService.Cancel at hres
        rw [hdep] at hres
        cases hres
      | ok dep =>
        by_cases hst : dep.Status = DeploymentStatus.Completed ∨
            dep.Status = DeploymentStatus.Cancelled
        · unfold DeploymentService.Cancel at hres
          rw [hdep] at hres
          simp only at hres
          rw [if_pos hst] at hres
          cases hres
        · rw [Cancel_ok_eq s now id dep hdep hst]
          apply forall₂_map_self
          intro r hr hterm
          have hnot : r.ID ∉ pendingIDs (DeploymentRepo.GetDeploymentDevices s id) := by
            rw [mem_pendingIDs_iff_of_key s id hkey r hr]
            rintro ⟨_, hp⟩
            rw [hp] at hterm
            cases hterm
          rw [if_neg hnot]
  · intro id status log
    rw [UpdateDeviceStatus_fst]
    apply forall₂_map_self
    intro r _
    by_cases hid : r.ID = id
    · simp only [hid, if_true]
      cases status <;> rfl
    · simp only [hid, if_false]

/-- Witness of C11 (amended): cancelling deployment 70 of `cancelStore` keeps
its finished row 83. -/
theorem terminal_rows_kept_witness :
    List.Forall₂ (fun r r2 => r.Status.isTerminal = true → r2 = r)
      cancelStore.deploymentDevices
      (DeploymentService.Cancel cancelStore 900 70).1.deploymentDevices :=
  (terminal_rows_kept cancelStore 900 (by decide)).1 70

/-- C13: `Create` appends work rows and leaves the existing ones as they are;
`UpdateDeviceStatus` with any status and `Cancel` keep every row's id and
never lower its attempts. -/
theorem attempts_never_decrease (s : Store) (now : Nat) :
    (∀ input, ∃ news, (DeploymentService.Create s now input).1.deploymentDevices =
      s.deploymentDevices ++ news) ∧
    (∀ id status log, List.Forall₂ (fun r r2 => r2.ID = r.ID ∧ r.Attempts ≤ r2.Attempts)
      s.deploymentDevices
      (DeploymentService.UpdateDeviceStatus s now id status log).1.deploymentDevices) ∧
    (∀ id, List.Forall₂ (fun r r2 => r2.ID = r.ID ∧ r.Attempts ≤ r2.Attempts)
      s.deploymentDevices (DeploymentService.Cancel s now id).1.deploymentDevices) := by
  refine ⟨fun input => Create_rows s now input, ?_, ?_⟩
  · intro id status log
    rw [UpdateDeviceStatus_fst]
    apply forall₂_map_self
    intro r _
    by_cases hid : r.ID = id
    · simp only [hid, if_true]
      cases status <;> simp [DeploymentRepo.applyStatus, hid]
    · simp only [hid, if_false]
      exact ⟨trivial, le_refl _⟩
  · intro id
    obtain ⟨ids, hids⟩ := Cancel_rows s now id
    rw [hids]
    apply forall₂_map_self
    intro r _
    by_cases hm : r.ID ∈ ids
    · rw [if_pos hm]
      exact ⟨rfl, le_refl _⟩
    · rw [if_neg hm]
      exact ⟨rfl, le_refl _⟩

/-- C14: with row ids as a key, `Cancel` of a scheduled or active deployment
succeeds; each row of the deployment that was pending becomes skipped with
the log `deployment cancelled` and keeps its other columns; every other row,
of this or of another deployment, is unchanged; and the deployment is stored
as cancelled. -/
theorem Cancel_effect (s : Store) (now : Nat) (id : UUID) (dep : Deployment)
    (hkey : (s.deploymentDevices.map (fun r => r.ID)).Nodup)
    (hdep : DeploymentRepo.GetByID s id = .ok dep)
    (hst : dep.Status = DeploymentStatus.Scheduled ∨ dep.Status = DeploymentStatus.Active) :
    (DeploymentService.Cancel s now id).2 = .ok () ∧
    List.Forall₂ (fun r r2 =>
      if r.DeploymentID = id ∧ r.Status = DeploymentDeviceStatus.Pending then
        r2 = { r with Status := DeploymentDeviceStatus.Skipped, Log := "deployment cancelled" }
      else r2 = r)
      s.deploymentDevices (DeploymentService.Cancel s now id).1.deploymentDevices ∧
    (∃ d, DeploymentRepo.GetByID (DeploymentService.Cancel s now id).1 id = .ok d ∧
      d.Status = DeploymentStatus.Cancelled) ∧
    (∀ d ∈ (DeploymentService.Cancel s now id).1.deployments, d.ID = id →
      d.Status = DeploymentStatus.Cancelled) := by
  have hst2 : ¬ (dep.Status = DeploymentStatus.Completed ∨
      dep.Status = DeploymentStatus.Cancelled) := by
    rcases hst with h | h <;> rw [h] <;> decide
  rw [Cancel_ok_eq s now id dep hdep hst2]
  refine ⟨rfl, ?_, ?_, ?_⟩
  · apply forall₂_map_self
    intro r hr
    by_cases hc : r.DeploymentID = id ∧ r.Status = DeploymentDeviceStatus.Pending
    · rw [if_pos hc, if_pos ((mem_pendingIDs_iff_of_key s id hkey r hr).2 hc)]
      rfl
    · rw [if_neg hc, if_neg (fun hm => hc ((mem_pendingIDs_iff_of_key s id hkey r hr).1 hm))]
  · unfold DeploymentRepo.GetByID at hdep ⊢
    simp only
    cases hf : s.deployments.find? (fun d => decide (d.ID = id)) with
    | none => rw [hf] at hdep; cases hdep
    | some d0 =>
      have hid : d0.ID = id := by simpa using List.find?_some hf
      refine ⟨{ d0 with Status := DeploymentStatus.Cancelled }, ?_, rfl⟩
      rw [find?_map_keepID _ (fun d => by by_cases h : d.ID = id <;> simp [h]), hf]
      simp [hid]
  · intro d hd hid
    simp only [List.mem_map] at hd
    obtain ⟨d0, _, rfl⟩ := hd
    by_cases hc : d0.ID = id
    · rw [if_pos hc]
    · rw [if_neg hc] at hid
      exact absurd hid hc

/-- Witness of C14 on `cancelStore`: cancelling deployment 70 skips row 81 and
keeps the downloading row 82, the finished row 83 and row 84 of deployment
71. -/
theorem Cancel_effect_witness :
    (DeploymentService.Cancel cancelStore 900 70).2 = .ok () ∧
    (DeploymentService.Cancel cancelStore 900 70).1.deploymentDevices =
      [{ mkRow 81 70 1 DeploymentDeviceStatus.Skipped with Log := "deployment cancelled" },
       mkRowAt 82 70 2 DeploymentDeviceStatus.Downloading 1 (some 150) none,
       mkRowAt 83 70 3 DeploymentDeviceStatus.Success 2 (some 120) (some 180),
       mkRow 84 71 1 DeploymentDeviceStatus.Pending] ∧
    (∃ d, DeploymentRepo.GetByID (DeploymentService.Cancel cancelStore 900 70).1 70 = .ok d ∧
      d.Status = DeploymentStatus.Cancelled) :=
  ⟨(Cancel_effect cancelStore 900 70 (mkDeployment 70 DeploymentStatus.Active 100)
      (by decide) (by decide) (by decide)).1,
   by decide,
   (Cancel_effect cancelStore 900 70 (mkDeployment 70 DeploymentStatus.Active 100)
      (by decide) (by decide) (by decide)).2.2.1⟩

theorem rowTimesOK_mono {clock now : Nat} {r : DeploymentDevice} (h : rowTimesOK clock r)
    (hle : clock ≤ now) : rowTimesOK now r :=
  ⟨fun a ha => le_trans (h.1 a ha) hle, fun b hb => le_trans (h.2.1 b hb) hle, h.2.2⟩

theorem rowTimesOK_applyStatus {clock now : Nat} {r : DeploymentDevice}
    (status : DeploymentDeviceStatus) (log : String)
    (h : rowTimesOK clock r) (hle : clock ≤ now)
    (hg : status = DeploymentDeviceStatus.Downloading ∨
      status = DeploymentDeviceStatus.Installing → r.StartedAt = none → r.FinishedAt = none) :
    rowTimesOK now (DeploymentRepo.applyStatus now status log r) := by
  have hstart : ∀ st, st = DeploymentDeviceStatus.Downloading ∨
      st = DeploymentDeviceStatus.Installing → st = status →
      rowTimesOK now { r with Status := st, Log := log, Attempts := r.Attempts + 1,
                              StartedAt := some (r.StartedAt.getD now) } := by
    intro st hst heq
    subst heq
    cases hs : r.StartedAt with
    | none =>
      have hf := hg hst hs
      refine ⟨?_, ?_, ?_⟩
      · intro a ha
        simp only [Option.getD_none, Option.some.injEq] at ha
        omega
      · intro b hb
        simp only at hb
        rw [hf] at hb
        cases hb
      · intro a b _ hb
        simp only at hb
        rw [hf] at hb
        cases hb
    | some t =>
      refine ⟨?_, ?_, ?_⟩
      · intro a ha
        simp only [Option.getD_some, Option.some.injEq] at ha
        subst ha
        exact le_trans (h.1 _ hs) hle
      · intro b hb
        exact le_trans (h.2.1 b hb) hle
      · intro a b ha hb
        simp only [Option.getD_some, Option.some.injEq] at ha
        subst ha
        exact h.2.2 _ b hs hb
  have hfin : ∀ st, rowTimesOK now { r with Status := st, Log := log,
                                            FinishedAt := some now } := by
    intro st
    refine ⟨fun a ha => le_trans (h.1 a ha) hle, ?_, ?_⟩
    · intro b hb
      simp only [Option.some.injEq] at hb
      omega
    · intro a b ha hb
      simp only [Option.some.injEq] at hb
      subst hb
      exact le_trans (h.1 a ha) hle
  have hkeep : ∀ st, rowTimesOK now { r with Status := st, Log := log } :=
    fun st => rowTimesOK_mono (r := { r with Status := st, Log := log }) h hle
  cases status with
  | Pending => exact hkeep _
  | Downloading => exact hstart _ (Or.inl rfl) rfl
  | Installing => exact hstart _ (Or.inr rfl) rfl
  | Success => exact hfin _
  | Failure => exact hfin _
  | Skipped => exact hkeep _

theorem rowTimesOK_apply (s : Store) (clock now : Nat) (op : EngineOp)
    (h : ∀ r ∈ s.deploymentDevices, rowTimesOK clock r) (hle : clock ≤ now)
    (hg : op.startsUnfinished s) :
    ∀ r ∈ (op.apply s now).deploymentDevices, rowTimesOK now r := by
  cases op with
  | report ddID status log =>
    intro r hr
    have hr2 : r ∈ (DeploymentService.UpdateDeviceStatus s now ddID status log).1.deploymentDevices :=
      hr
    rw [UpdateDeviceStatus_fst] at hr2
    obtain ⟨r0, hr0, rfl⟩ := List.mem_map.1 hr2
    by_cases hid : r0.ID = ddID
    · rw [if_pos hid]
      exact rowTimesOK_applyStatus status log (h r0 hr0) hle (fun hst => hg hst r0 hr0 hid)
    · rw [if_neg hid]
      exact rowTimesOK_mono (h r0 hr0) hle
  | cancel deploymentID =>
    intro r hr
    have hr2 : r ∈ (DeploymentService.Cancel s now deploymentID).1.deploymentDevices := hr
    obtain ⟨ids, hids⟩ := Cancel_rows s now deploymentID
    rw [hids] at hr2
    obtain ⟨r0, hr0, rfl⟩ := List.mem_map.1 hr2
    by_cases hm : r0.ID ∈ ids
    · rw [if_pos hm]
      exact rowTimesOK_mono (r := skipRow r0) (h r0 hr0) hle
    · rw [if_neg hm]
      exact rowTimesOK_mono (h r0 hr0) hle

theorem rowTimesOK_runOps (ops : List (Nat × EngineOp)) (s : Store) (clock : Nat)
    (h : ∀ r ∈ s.deploymentDevices, rowTimesOK clock r)
    (htime : nonDecreasingFrom clock ops) (hguard : startsUnfinishedRun s ops) :
    ∀ r ∈ (runOps s ops).deploymentDevices,
      ∀ a b, r.StartedAt = some a → r.FinishedAt = some b → a ≤ b := by
  induction ops generalizing s clock with
  | nil => exact fun r hr => (h r hr).2.2
  | cons x rest ih =>
    obtain ⟨now, op⟩ := x
    exact ih (op.apply s now) now (rowTimesOK_apply s clock now op h htime.1 hguard.1)
      htime.2 hguard.2

/-- C12 (amended): start from rows without timestamps and apply reports and
cancellations at clock times that never decrease, none of them a downloading
or installing report for a row that has a finish time and no start time.
Then every row whose start and finish times are both set has its finish time
not before its start time. -/
theorem finished_not_before_started (s : Store) (clock : Nat) (ops : List (Nat × EngineOp))
    (hfresh : ∀ r ∈ s.deploymentDevices, r.StartedAt = none ∧ r.FinishedAt = none)
    (htime : nonDecreasingFrom clock ops) (hguard : startsUnfinishedRun s ops) :
    ∀ r ∈ (runOps s ops).deploymentDevices,
      ∀ a b, r.StartedAt = some a → r.FinishedAt = some b → a ≤ b := by
  apply rowTimesOK_runOps ops s clock _ htime hguard
  intro r hr
  obtain ⟨h1, h2⟩ := hfresh r hr
  refine ⟨?_, ?_, ?_⟩
  · intro a ha; rw [h1] at ha; cases ha
  · intro b hb; rw [h2] at hb; cases hb
  · intro a b ha _; rw [h1] at ha; cases ha

/-- Witness of C12 (amended): downloading, installing, success and a
cancellation, at times 500 to 530, on `singleStore`. -/
theorem finished_not_before_started_witness :
    nonDecreasingFrom 100
      [(500, EngineOp.report 61 DeploymentDeviceStatus.Downloading "fetching"),
       (510, EngineOp.report 61 DeploymentDeviceStatus.Installing "installing"),
       (520, EngineOp.report 61 DeploymentDeviceStatus.Success "done"),
       (530, EngineOp.cancel 60)] ∧
    startsUnfinishedRun singleStore
      [(500, EngineOp.report 61 DeploymentDeviceStatus.Downloading "fetching"),
       (510, EngineOp.report 61 DeploymentDeviceStatus.Installing "installing"),
       (520, EngineOp.report 61 DeploymentDeviceStatus.Success "done"),
       (530, EngineOp.cancel 60)] ∧
    ∀ r ∈ (runOps singleStore
        [(500, EngineOp.report 61 DeploymentDeviceStatus.Downloading "fetching"),
         (510, EngineOp.report 61 DeploymentDeviceStatus.Installing "installing"),
         (520, EngineOp.report 61 DeploymentDeviceStatus.Success "done"),
         (530, EngineOp.cancel 60)]).deploymentDevices,
      ∀ a b, r.StartedAt = some a → r.FinishedAt = some b → a ≤ b :=
  ⟨by decide, by decide,
   finished_not_before_started singleStore 100
    [(500, EngineOp.report 61 DeploymentDeviceStatus.Downloading "fetching"),
     (510, EngineOp.report 61 DeploymentDeviceStatus.Installing "installing"),
     (520, EngineOp.report 61 DeploymentDeviceStatus.Success "done"),
     (530, EngineOp.cancel 60)]
    (by decide) (by decide) (by decide)⟩

/-- Counterexample to C12 as stated: on the fresh row 61 a report of success
at time 500 followed by a report of downloading at time 600 leaves the row
with start time 600 and finish time 500. -/
theorem finished_before_started_counterexample :
    (∀ r ∈ singleStore.deploymentDevices, r.StartedAt = none ∧ r.FinishedAt = none) ∧
    nonDecreasingFrom 100
      [(500, EngineOp.report 61 DeploymentDeviceStatus.Success "done"),
       (600, EngineOp.report 61 DeploymentDeviceStatus.Downloading "again")] ∧
    (runOps singleStore
      [(500, EngineOp.report 61 DeploymentDeviceStatus.Success "done"),
       (600, EngineOp.report 61 DeploymentDeviceStatus.Downloading "again")]).deploymentDevices =
      [{ mkRowAt 61 60 1 DeploymentDeviceStatus.Downloading 1 (some 600) (some 500) with
          Log := "again" }] ∧
    ¬ (600 ≤ 500) := by
  decide

/-- C15: `Cancel` returns `ErrNotFound` for an id that no deployment has and
`ErrInvalidInput` for a deployment that is completed or cancelled, and leaves
the store as it was in both cases; after a successful `Cancel`, a further
`Cancel` of the same id returns `ErrInvalidInput` and changes nothing. -/
theorem Cancel_rejections (s : Store) (now : Nat) (id : UUID) :
    ((¬ ∃ d ∈ s.deployments, d.ID = id) →
      DeploymentService.Cancel s now id = (s, .error DomainError.ErrNotFound)) ∧
    (∀ dep, DeploymentRepo.GetByID s id = .ok dep →
      dep.Status = DeploymentStatus.Completed ∨ dep.Status = DeploymentStatus.Cancelled →
      DeploymentService.Cancel s now id = (s, .error DomainError.ErrInvalidInput)) ∧
    ((DeploymentService.Cancel s now id).2 = .ok () →
      ∀ later, DeploymentService.Cancel (DeploymentService.Cancel s now id).1 later id =
        ((DeploymentService.Cancel s now id).1, .error DomainError.ErrInvalidInput)) := by
  have hinvalid : ∀ (t : Store) (dep : Deployment) (time : Nat),
      DeploymentRepo.GetByID t id = .ok dep →
      dep.Status = DeploymentStatus.Completed ∨ dep.Status = DeploymentStatus.Cancelled →
      DeploymentService.Cancel t time id = (t, .error DomainError.ErrInvalidInput) := by
    intro t dep time hdep hst
    unfold DeploymentService.Cancel
    rw [hdep]
    simp only
    rw [if_pos hst]
  refine ⟨?_, fun dep hdep hst => hinvalid s dep now hdep hst, ?_⟩
  · intro hno
    cases hdep : DeploymentRepo.GetByID s id with
    | error e =>
      unfold DeploymentService.Cancel
      rw [hdep, (GetByID_deployment_error hdep).1]
    | ok dep =>
      obtain ⟨hm, hid⟩ := GetByID_deployment_ok hdep
      exact absurd ⟨dep, hm, hid⟩ hno
  · intro hok later
    cases hdep : DeploymentRepo.GetByID s id with
    | error e =>
      unfold DeploymentService.Cancel at hok
      rw [hdep] at hok
      cases hok
    | ok dep =>
      by_cases hst : dep.Status = DeploymentStatus.Completed ∨
          dep.Status = DeploymentStatus.Cancelled
      · rw [hinvalid s dep now hdep hst] at hok
        cases hok
      · have heq := Cancel_ok_eq s now id dep hdep hst
        have hget : ∃ d, DeploymentRepo.GetByID (DeploymentService.Cancel s now id).1 id = .ok d ∧
            d.Status = DeploymentStatus.Cancelled := by
          rw [heq]
          unfold DeploymentRepo.GetByID at hdep ⊢
          simp only
          cases hf : s.deployments.find? (fun d => decide (d.ID = id)) with
          | none => rw [hf] at hdep; cases hdep
          | some d0 =>
            have hid : d0.ID = id := by simpa using List.find?_some hf
            refine ⟨{ d0 with Status := DeploymentStatus.Cancelled }, ?_, rfl⟩
            rw [find?_map_keepID _ (fun d => by by_cases h : d.ID = id <;> simp [h]), hf]
            simp [hid]
        obtain ⟨d, hd, hds⟩ := hget
        exact hinvalid _ d later hd (Or.inr hds)

/-- Witness of C15: an unknown id on `cancelStore`, the completed deployment
22 of `pollStore`, and a second cancellation of deployment 70. -/
theorem Cancel_rejections_witness :
    DeploymentService.Cancel cancelStore 900 99 = (cancelStore, .error DomainError.ErrNotFound) ∧
    DeploymentService.Cancel pollStore 900 22 =
      (pollStore, .error DomainError.ErrInvalidInput) ∧
    (DeploymentService.Cancel (DeploymentService.Cancel cancelStore 900 70).1 901 70).2 =
      .error DomainError.ErrInvalidInput :=
  ⟨(Cancel_rejections cancelStore 900 99).1 (by decide),
   (Cancel_rejections pollStore 900 22).2.1 (mkDeployment 22 DeploymentStatus.Completed 100)
     (by decide) (by decide),
   by rw [(Cancel_rejections cancelStore 900 70).2.2 (by decide) 901]⟩

/-- C16 (the code at the failing input): no `Cancel` changes the finish time
of any deployment. On `cancelStore` the cancellation of the active deployment
70 succeeds and the deployment is stored as cancelled with no finish time. -/
theorem Cancel_leaves_finished_at :
    (∀ s now id, List.Forall₂ (fun d d2 => d2.FinishedAt = d.FinishedAt) s.deployments
      (DeploymentService.Cancel s now id).1.deployments) ∧
    ((DeploymentService.Cancel cancelStore 900 70).2 = .ok () ∧
     DeploymentRepo.GetByID (DeploymentService.Cancel cancelStore 900 70).1 70 =
       .ok (mkDeployment 70 DeploymentStatus.Cancelled 100) ∧
     (mkDeployment 70 DeploymentStatus.Cancelled 100).FinishedAt = none) := by
  refine ⟨?_, by decide⟩
  intro s now id
  cases hres : (DeploymentService.Cancel s now id).2 with
  | error e =>
    rw [Cancel_error_unchanged s now id e hres]
    exact forall₂_self _ _ (fun d _ => rfl)
  | ok u =>
    cases hdep : DeploymentRepo.GetByID s id with
    | error e2 =>
      unfold DeploymentService.Cancel at hres
      rw [hdep] at hres
      cases hres
    | ok dep =>
      by_cases hst : dep.Status = DeploymentStatus.Completed ∨
          dep.Status = DeploymentStatus.Cancelled
      · unfold DeploymentService.Cancel at hres
        rw [hdep] at hres
        simp only at hres
        rw [if_pos hst] at hres
        cases hres
      · rw [Cancel_ok_eq s now id dep hdep hst]
        apply forall₂_map_self
        intro d _
        by_cases hc : d.ID = id
        · rw [if_pos hc]
        · rw [if_neg hc]

/-- C17: `Create` with an empty name returns `ErrInvalidInput`, with an
unknown artifact id `ErrNotFound`, with an empty resolved target set
`ErrInvalidInput`, each time with the store as it was; and whenever `Create`
returns an error the store is unchanged. -/
theorem Create_failure_unchanged (s : Store) (now : Nat) (input : CreateDeploymentInput) :
    (input.Name = "" →
      DeploymentService.Create s now input = (s, .error DomainError.ErrInvalidInput)) ∧
    (input.Name ≠ "" → (¬ ∃ a ∈ s.artifacts, a.ID = input.ArtifactID) →
      DeploymentService.Create s now input = (s, .error DomainError.ErrNotFound)) ∧
    (∀ artifact, input.Name ≠ "" → ArtifactRepo.GetByID s input.ArtifactID = .ok artifact →
      DeploymentService.resolveTargets s input artifact = [] →
      DeploymentService.Create s now input = (s, .error DomainError.ErrInvalidInput)) ∧
    (∀ e, (DeploymentService.Create s now input).2 = .error e →
      (DeploymentService.Create s now input).1 = s) := by
  refine ⟨?_, ?_, ?_, fun e he => Create_error_unchanged s now input e he⟩
  · intro hn
    unfold DeploymentService.Create
    rw [if_pos hn]
  · intro hn hno
    unfold DeploymentService.Create
    rw [if_neg hn]
    have : ArtifactRepo.GetByID s input.ArtifactID = .error DomainError.ErrNotFound := by
      unfold ArtifactRepo.GetByID
      have hf : s.artifacts.find? (fun a => decide (a.ID = input.ArtifactID)) = none := by
        rw [List.find?_eq_none]
        intro a ha hid
        exact hno ⟨a, ha, by simpa using hid⟩
      rw [hf]
    rw [this]
  · intro artifact hn hart hempty
    unfold DeploymentService.Create
    rw [if_neg hn, hart]
    simp only
    rw [if_pos (by rw [hempty]; rfl)]

/-- Witness of C17 on the five-device registry: the three failing inputs. -/
theorem Create_failure_unchanged_witness :
    DeploymentService.Create exStore 100 unnamedInput =
      (exStore, .error DomainError.ErrInvalidInput) ∧
    DeploymentService.Create exStore 100 unknownArtifactInput =
      (exStore, .error DomainError.ErrNotFound) ∧
    DeploymentService.Create exStore 100 nonAcceptedInput =
      (exStore, .error DomainError.ErrInvalidInput) :=
  ⟨(Create_failure_unchanged exStore 100 unnamedInput).1 (by decide),
   (Create_failure_unchanged exStore 100 unknownArtifactInput).2.1 (by decide) (by decide),
   (Create_failure_unchanged exStore 100 nonAcceptedInput).2.2.1 exArtifact (by decide)
     (by decide) (by decide)⟩

/-! ## Device admission -/

theorem Char_eq_of_toNat_eq {a b : Char} (h : a.toNat = b.toNat) : a = b := by
  apply Char.ext
  apply UInt32.ext
  exact h

theorem charsLE_total (a b : List Char) : charsLE a b = true ∨ charsLE b a = true := by
  induction a generalizing b with
  | nil => left; rfl
  | cons x xs ih =>
    cases b with
    | nil => right; rfl
    | cons y ys =>
      simp only [charsLE]
      by_cases h1 : x.toNat < y.toNat
      · left; simp [h1]
      · by_cases h2 : y.toNat < x.toNat
        · right; simp [h2]
        · simp only [h1, h2, if_false]
          exact ih ys

theorem charsLE_trans (a b c : List Char) (h1 : charsLE a b = true) (h2 : charsLE b c = true) :
    charsLE a c = true := by
  induction a generalizing b c with
  | nil => rfl
  | cons x xs ih =>
    cases b with
    | nil => simp [charsLE] at h1
    | cons y ys =>
      cases c with
      | nil => simp [charsLE] at h2
      | cons z zs =>
        simp only [charsLE] at h1 h2 ⊢
        by_cases hxy : x.toNat < y.toNat
        · by_cases hyz : y.toNat < z.toNat
          · have : x.toNat < z.toNat := lt_trans hxy hyz
            simp [this]
          · by_cases hzy : z.toNat < y.toNat
            · simp [hyz, hzy] at h2
            · have : x.toNat < z.toNat := by omega
              simp [this]
        · by_cases hyx : y.toNat < x.toNat
          · simp [hxy, hyx] at h1
          · simp only [hxy, hyx, if_false] at h1
            by_cases hyz : y.toNat < z.toNat
            · have : x.toNat < z.toNat := by omega
              simp [this]
            · by_cases hzy : z.toNat < y.toNat
              · simp [hyz, hzy] at h2
              · simp only [hyz, hzy, if_false] at h2
                have h3 : ¬ x.toNat < z.toNat := by omega
                have h4 : ¬ z.toNat < x.toNat := by omega
                simp only [h3, h4, if_false]
                exact ih ys zs h1 h2

theorem charsLE_antisymm (a b : List Char) (h1 : charsLE a b = true) (h2 : charsLE b a = true) :
    a = b := by
  induction a generalizing b with
  | nil =>
    cases b with
    | nil => rfl
    | cons y ys => simp [charsLE] at h2
  | cons x xs ih =>
    cases b with
    | nil => simp [charsLE] at h1
    | cons y ys =>
      simp only [charsLE] at h1 h2
      by_cases hxy : x.toNat < y.toNat
      · have : ¬ y.toNat < x.toNat := by omega
        simp [hxy, this] at h2
      · by_cases hyx : y.toNat < x.toNat
        · simp [hxy, hyx] at h1
        · simp only [hxy, hyx, if_false] at h1 h2
          have hc : x = y := Char_eq_of_toNat_eq (by omega)
          rw [hc, ih ys h1 h2]

theorem keyLE_antisymm (a b : String) (h1 : keyLE a b = true) (h2 : keyLE b a = true) :
    a = b := by
  have := charsLE_antisymm a.data b.data h1 h2
  cases a; cases b
  simp only at this
  rw [this]

/-- Two lists of members with distinct keys that hold the same members and are
both sorted by key are equal. -/
theorem sorted_perm_eq (l1 l2 : List (String × String))
    (h1 : l1.Sorted (fun a b => keyLE a.1 b.1 = true))
    (h2 : l2.Sorted (fun a b => keyLE a.1 b.1 = true))
    (hp : l1.Perm l2) (hk : (l1.map Prod.fst).Nodup) : l1 = l2 := by
  induction l1 generalizing l2 with
  | nil => exact (List.Perm.nil_eq hp)
  | cons a l1 ih =>
    cases l2 with
    | nil => exact absurd hp.length_eq (by simp)
    | cons b l2 =>
      have ha : a ∈ b :: l2 := hp.subset (List.mem_cons_self _ _)
      have hb : b ∈ a :: l1 := hp.symm.subset (List.mem_cons_self _ _)
      have hab : a = b := by
        rcases List.mem_cons.1 ha with h | h
        · exact h
        · rcases List.mem_cons.1 hb with h' | h'
          · exact h'.symm
          · have k1 : keyLE a.1 b.1 = true := List.rel_of_sorted_cons h1 b h'
            have k2 : keyLE b.1 a.1 = true := List.rel_of_sorted_cons h2 a h
            have hkey : a.1 = b.1 := keyLE_antisymm _ _ k1 k2
            exact List.inj_on_of_nodup_map hk (List.mem_cons_self _ _)
              (List.mem_cons_of_mem _ h') hkey
      subst hab
      rw [ih l2 h1.of_cons h2.of_cons (List.Perm.cons_inv hp)
        (List.nodup_cons.1 (by simpa using hk)).2]

theorem jsonMarshalMap_perm (lib : Lib) (d1 d2 : List (String × String)) (hp : d1.Perm d2)
    (hk : (d1.map Prod.fst).Nodup) : jsonMarshalMap lib d1 = jsonMarshalMap lib d2 := by
  haveI : IsTotal (String × String) (fun a b => keyLE a.1 b.1 = true) :=
    ⟨fun a b => charsLE_total a.1.data b.1.data⟩
  haveI : IsTrans (String × String) (fun a b => keyLE a.1 b.1 = true) :=
    ⟨fun a b c h1 h2 => charsLE_trans a.1.data b.1.data c.1.data h1 h2⟩
  unfold jsonMarshalMap
  have hs : d1.insertionSort (fun a b => keyLE a.1 b.1 = true) =
      d2.insertionSort (fun a b => keyLE a.1 b.1 = true) := by
    apply sorted_perm_eq _ _ (List.sorted_insertionSort _ _) (List.sorted_insertionSort _ _)
    · exact (List.perm_insertionSort _ d1).trans (hp.trans (List.perm_insertionSort _ d2).symm)
    · exact ((List.perm_insertionSort _ d1).map Prod.fst).nodup_iff.2 hk
  rw [hs]

theorem computeIdentityHash_perm (lib : Lib) (d1 d2 : List (String × String))
    (hp : d1.Perm d2) (hk : (d1.map Prod.fst).Nodup) :
    computeIdentityHash lib d1 = computeIdentityHash lib d2 := by
  unfold computeIdentityHash
  rw [jsonMarshalMap_perm lib d1 d2 hp hk]

theorem lookup_eq_some_iff (l : List (String × String)) (hk : (l.map Prod.fst).Nodup)
    (k v : String) : l.lookup k = some v ↔ (k, v) ∈ l := by
  induction l with
  | nil => simp
  | cons a l ih =>
    obtain ⟨ak, av⟩ := a
    simp only [List.map_cons, List.nodup_cons] at hk
    by_cases h : k = ak
    · subst h
      simp only [List.lookup_cons, beq_self_eq_true, Option.some.injEq, List.mem_cons,
        Prod.mk.injEq, true_and]
      constructor
      · intro hv; exact Or.inl hv.symm
      · rintro (hv | hv)
        · exact hv.symm
        · exact absurd (List.mem_map.2 ⟨(k, v), hv, rfl⟩) hk.1
    · have hb : (k == ak) = false := by simpa using h
      simp only [List.lookup_cons, hb, ih hk.2, List.mem_cons, Prod.mk.injEq, h, false_and,
        false_or]

theorem lookup_perm (d1 d2 : List (String × String)) (hp : d1.Perm d2)
    (hk : (d1.map Prod.fst).Nodup) (k : String) : d1.lookup k = d2.lookup k := by
  have hk2 : (d2.map Prod.fst).Nodup := (hp.map Prod.fst).nodup_iff.1 hk
  cases h1 : d1.lookup k with
  | some v =>
    have := (lookup_eq_some_iff d1 hk k v).1 h1
    exact ((lookup_eq_some_iff d2 hk2 k v).2 (hp.subset this)).symm
  | none =>
    cases h2 : d2.lookup k with
    | none => rfl
    | some v =>
      have := (lookup_eq_some_iff d2 hk2 k v).1 h2
      have h3 := (lookup_eq_some_iff d1 hk k v).2 (hp.symm.subset this)
      rw [h1] at h3
      cases h3

theorem GetByIdentityHash_ok_mem {s : Store} {h : String} {d : Device}
    (hg : DeviceRepo.GetByIdentityHash s h = .ok d) : d ∈ s.devices ∧ d.IdentityHash = h := by
  unfold DeviceRepo.GetByIdentityHash at hg
  split at hg
  · rename_i d2 hf
    injection hg with hg; subst hg
    exact ⟨List.mem_of_find?_eq_some hf, by simpa using List.find?_some hf⟩
  · cases hg

theorem GetByIdentityHash_error {s : Store} {h : String} {e : DomainError}
    (hg : DeviceRepo.GetByIdentityHash s h = .error e) :
    e = DomainError.ErrNotFound ∧ ∀ d ∈ s.devices, d.IdentityHash ≠ h := by
  unfold DeviceRepo.GetByIdentityHash at hg
  split at hg
  · cases hg
  · rename_i hf
    injection hg with hg
    refine ⟨hg.symm, ?_⟩
    intro d hd hid
    rw [List.find?_eq_none] at hf
    exact hf d hd (by simpa using hid)

theorem GetByIdentityHash_of_none {s : Store} {h : String}
    (hno : ∀ d ∈ s.devices, d.IdentityHash ≠ h) :
    DeviceRepo.GetByIdentityHash s h = .error DomainError.ErrNotFound := by
  cases hg : DeviceRepo.GetByIdentityHash s h with
  | ok d =>
    obtain ⟨hm, hid⟩ := GetByIdentityHash_ok_mem hg
    exact absurd hid (hno d hm)
  | error e => rw [(GetByIdentityHash_error hg).1]

/-- The row that the registry inserts for an unknown identity. -/
theorem lookupOrRegister_new (s : Store) (now : Nat) (hash : String)
    (data : List (String × String)) (deviceType : String)
    (hno : ∀ d ∈ s.devices, d.IdentityHash ≠ hash) :
    lookupOrRegister s now hash data deviceType =
      ({ s with devices := s.devices ++
          [{ ID := s.freshID, IdentityHash := hash, IdentityData := data,
             Status := DeviceStatus.Pending, AuthTokenHash := "", Inventory := [],
             DeviceType := deviceType, Tags := [], LastCheckIn := none, CreatedAt := now,
             UpdatedAt := now }] },
       .ok { ID := s.freshID, IdentityHash := hash, IdentityData := data,
             Status := DeviceStatus.Pending, AuthTokenHash := "", Inventory := [],
             DeviceType := deviceType, Tags := [], LastCheckIn := none, CreatedAt := now,
             UpdatedAt := now }) := by
  unfold lookupOrRegister
  rw [GetByIdentityHash_of_none hno]
  simp only [if_true]
  unfold DeviceRepo.Create
  have hany : ¬ s.devices.any
      (fun e => decide (e.IdentityHash = (newDevice hash data deviceType).IdentityHash)) = true := by
    rw [List.any_eq_true]
    rintro ⟨d, hd, hid⟩
    exact hno d hd (by simpa [newDevice] using hid)
  rw [if_neg hany]
  rfl

theorem lookupOrRegister_found (s : Store) (now : Nat) (hash : String)
    (data : List (String × String)) (deviceType : String) (d : Device)
    (hg : DeviceRepo.GetByIdentityHash s hash = .ok d) :
    lookupOrRegister s now hash data deviceType = (s, .ok d) := by
  unfold lookupOrRegister
  rw [hg]

theorem Authenticate_typed (lib : Lib) (s : Store) (now : Nat) (entropy : Nat → Nat)
    (data : List (String × String)) (deviceType : String)
    (hdt : data.lookup "device_type" = some deviceType) (hne : deviceType ≠ "") :
    DeviceService.Authenticate lib s now entropy data =
      match lookupOrRegister s now (computeIdentityHash lib data) data deviceType with
      | (s1, .error e) => (s1, .error e)
      | (s1, .ok device) => issueByStatus lib s1 now entropy device := by
  unfold DeviceService.Authenticate
  rw [hdt]
  simp only
  rw [if_neg hne]

theorem Authenticate_new (lib : Lib) (s : Store) (now : Nat) (entropy : Nat → Nat)
    (data : List (String × String)) (deviceType : String)
    (hdt : data.lookup "device_type" = some deviceType) (hne : deviceType ≠ "")
    (hno : ∀ d ∈ s.devices, d.IdentityHash ≠ computeIdentityHash lib data) :
    DeviceService.Authenticate lib s now entropy data =
      ({ s with devices := s.devices ++
          [{ ID := s.freshID, IdentityHash := computeIdentityHash lib data,
             IdentityData := data, Status := DeviceStatus.Pending, AuthTokenHash := "",
             Inventory := [], DeviceType := deviceType, Tags := [], LastCheckIn := none,
             CreatedAt := now, UpdatedAt := now }] },
       .error DomainError.ErrDevicePending) := by
  rw [Authenticate_typed lib s now entropy data deviceType hdt hne,
    lookupOrRegister_new s now _ data deviceType hno]
  rfl

theorem Authenticate_found (lib : Lib) (s : Store) (now : Nat) (entropy : Nat → Nat)
    (data : List (String × String)) (deviceType : String) (d : Device)
    (hdt : data.lookup "device_type" = some deviceType) (hne : deviceType ≠ "")
    (hg : DeviceRepo.GetByIdentityHash s (computeIdentityHash lib data) = .ok d) :
    DeviceService.Authenticate lib s now entropy data = issueByStatus lib s now entropy d := by
  rw [Authenticate_typed lib s now entropy data deviceType hdt hne,
    lookupOrRegister_found s now _ data deviceType d hg]

theorem Authenticate_untyped (lib : Lib) (s : Store) (now : Nat) (entropy : Nat → Nat)
    (data : List (String × String))
    (h : data.lookup "device_type" = none ∨ data.lookup "device_type" = some "") :
    DeviceService.Authenticate lib s now entropy data =
      (s, .error DomainError.ErrInvalidInput) := by
  unfold DeviceService.Authenticate
  rcases h with h | h
  · rw [h]
  · rw [h]
    simp

theorem issueByStatus_accepted (lib : Lib) (s : Store) (now : Nat) (entropy : Nat → Nat)
    (d : Device) (hd : d ∈ s.devices) (hacc : d.Status = DeviceStatus.Accepted) :
    issueByStatus lib s now entropy d =
      ({ s with devices := (s.devices.map (fun e =>
           if e.ID = d.ID then
             { e with AuthTokenHash := HashToken lib (hexEncode (randRead entropy 32)),
                      UpdatedAt := now }
           else e)).map (fun e =>
           if e.ID = d.ID then { e with LastCheckIn := some now, UpdatedAt := now } else e) },
       .ok (hexEncode (randRead entropy 32))) := by
  unfold issueByStatus
  rw [hacc]
  simp only
  unfold DeviceRepo.UpdateAuthToken
  have hany : s.devices.any (fun e => decide (e.ID = d.ID)) = true := by
    rw [List.any_eq_true]
    exact ⟨d, hd, by simp⟩
  rw [if_pos hany]
  rfl

theorem issueByStatus_error (lib : Lib) (s : Store) (now : Nat) (entropy : Nat → Nat)
    (d : Device) (e : DomainError) (h : (issueByStatus lib s now entropy d).2 = .error e) :
    (issueByStatus lib s now entropy d).1 = s := by
  unfold issueByStatus at h ⊢
  cases hs : d.Status with
  | Pending => rfl
  | Rejected => rfl
  | Decommissioned => rfl
  | Accepted =>
    rw [hs] at h
    simp only at h ⊢
    unfold DeviceRepo.UpdateAuthToken at h ⊢
    by_cases hany : s.devices.any (fun x => decide (x.ID = d.ID)) = true
    · rw [if_pos hany] at h
      cases h
    · rw [if_neg hany]

theorem issueByStatus_ok (lib : Lib) (s : Store) (now : Nat) (entropy : Nat → Nat)
    (d : Device) (token : String) (h : (issueByStatus lib s now entropy d).2 = .ok token) :
    d.Status = DeviceStatus.Accepted := by
  unfold issueByStatus at h
  cases hs : d.Status with
  | Pending => rw [hs] at h; cases h
  | Rejected => rw [hs] at h; cases h
  | Decommissioned => rw [hs] at h; cases h
  | Accepted => rfl

theorem hexDigit_mem (n : Nat) (h : n < 16) : hexDigit n ∈ hexDigits := by
  revert n
  decide

theorem hexEncode_length (bytes : List Nat) : (hexEncode bytes).length = 2 * bytes.length := by
  unfold hexEncode
  show (bytes.flatMap _).length = _
  induction bytes with
  | nil => rfl
  | cons b bs ih =>
    rw [List.flatMap_cons, List.length_append, ih]
    simp only [List.length_cons, List.length_nil]
    omega

theorem hexEncode_digits (bytes : List Nat) : ∀ c ∈ (hexEncode bytes).toList, c ∈ hexDigits := by
  unfold hexEncode
  intro c hc
  have hc2 : c ∈ bytes.flatMap
      (fun b => [hexDigit (b % 256 / 16), hexDigit (b % 16)]) := hc
  rw [List.mem_flatMap] at hc2
  obtain ⟨b, _, hb⟩ := hc2
  simp only [List.mem_cons, List.mem_singleton, List.not_mem_nil, or_false] at hb
  rcases hb with h | h
  · rw [h]; exact hexDigit_mem _ (by omega)
  · rw [h]; exact hexDigit_mem _ (by omega)

theorem randRead_spec (entropy : Nat → Nat) (n : Nat) :
    (randRead entropy n).length = n ∧ ∀ b ∈ randRead entropy n, b < 256 := by
  unfold randRead
  refine ⟨by simp, ?_⟩
  intro b hb
  obtain ⟨i, _, rfl⟩ := List.mem_map.1 hb
  exact Nat.mod_lt _ (by decide)

/-- C18: for an identity map with distinct keys and a non-empty device type
whose hash no stored device has, `Authenticate` returns `ErrDevicePending`
and appends exactly one device row: pending, with the computed identity hash,
the map as identity data and the map's device type. A further `Authenticate`
with the same members in any order returns `ErrDevicePending` again and
leaves the store as it is. -/
theorem Authenticate_registers (lib : Lib) (s : Store) (now : Nat) (entropy : Nat → Nat)
    (data : List (String × String)) (deviceType : String)
    (hkeys : (data.map Prod.fst).Nodup)
    (hdt : data.lookup "device_type" = some deviceType) (hne : deviceType ≠ "")
    (hnew : ∀ d ∈ s.devices, d.IdentityHash ≠ computeIdentityHash lib data) :
    DeviceService.Authenticate lib s now entropy data =
      ({ s with devices := s.devices ++
          [{ ID := s.freshID, IdentityHash := computeIdentityHash lib data,
             IdentityData := data, Status := DeviceStatus.Pending, AuthTokenHash := "",
             Inventory := [], DeviceType := deviceType, Tags := [], LastCheckIn := none,
             CreatedAt := now, UpdatedAt := now }] },
       .error DomainError.ErrDevicePending) ∧
    (∀ later entropy2 data2, data2.Perm data →
      DeviceService.Authenticate lib (DeviceService.Authenticate lib s now entropy data).1
          later entropy2 data2 =
        ((DeviceService.Authenticate lib s now entropy data).1,
          .error DomainError.ErrDevicePending)) := by
  have hfirst := Authenticate_new lib s now entropy data deviceType hdt hne hnew
  refine ⟨hfirst, ?_⟩
  intro later entropy2 data2 hp
  have hk2 : (data2.map Prod.fst).Nodup := (hp.map Prod.fst).nodup_iff.2 hkeys
  have hhash : computeIdentityHash lib data2 = computeIdentityHash lib data :=
    computeIdentityHash_perm lib data2 data hp hk2
  have hdt2 : data2.lookup "device_type" = some deviceType := by
    rw [lookup_perm data2 data hp hk2]
    exact hdt
  rw [hfirst]
  have hg : DeviceRepo.GetByIdentityHash
      { s with devices := s.devices ++
          [{ ID := s.freshID, IdentityHash := computeIdentityHash lib data,
             IdentityData := data, Status := DeviceStatus.Pending, AuthTokenHash := "",
             Inventory := [], DeviceType := deviceType, Tags := [], LastCheckIn := none,
             CreatedAt := now, UpdatedAt := now }] }
      (computeIdentityHash lib data2) =
      .ok { ID := s.freshID, IdentityHash := computeIdentityHash lib data,
            IdentityData := data, Status := DeviceStatus.Pending, AuthTokenHash := "",
            Inventory := [], DeviceType := deviceType, Tags := [], LastCheckIn := none,
            CreatedAt := now, UpdatedAt := now } := by
    unfold DeviceRepo.GetByIdentityHash
    simp only
    rw [hhash, List.find?_append]
    have hnone : s.devices.find?
        (fun d => decide (d.IdentityHash = computeIdentityHash lib data)) = none := by
      rw [List.find?_eq_none]
      intro d hd
      simpa using hnew d hd
    rw [hnone]
    simp
  rw [Authenticate_found lib _ later entropy2 data2 deviceType _ hdt2 hne hg]
  rfl

/-- Witness of C18: the identity of scenario S1 on the five-device registry,
then the same identity with its members swapped. -/
theorem Authenticate_registers_witness :
    (DeviceService.Authenticate exLib exStore 700 exEntropy exIdentity).2 =
      .error DomainError.ErrDevicePending ∧
    (DeviceService.Authenticate exLib exStore 700 exEntropy exIdentity).1.devices.length = 6 ∧
    DeviceService.Authenticate exLib
        (DeviceService.Authenticate exLib exStore 700 exEntropy exIdentity).1 701 exEntropy
        exIdentitySwapped =
      ((DeviceService.Authenticate exLib exStore 700 exEntropy exIdentity).1,
        .error DomainError.ErrDevicePending) := by
  have h := Authenticate_registers exLib exStore 700 exEntropy exIdentity "raspberry-pi-4"
    (by decide) (by decide) (by decide) (by decide)
  refine ⟨by rw [h.1], by rw [h.1]; rfl, h.2 701 exEntropy exIdentitySwapped ?_⟩
  exact List.Perm.swap _ _ _

/-- C19: `Authenticate` returns `ErrInvalidInput` and leaves the store as it is
when the device type is missing or empty; for a device found by the identity
hash it returns `ErrDevicePending` when pending and `ErrDeviceRejected` when
rejected or decommissioned, store unchanged; a token is returned only when
the device found by the hash is accepted; and whenever an error is returned
the existing device rows are unchanged, so no token hash changes. -/
theorem Authenticate_gate (lib : Lib) (s : Store) (now : Nat) (entropy : Nat → Nat)
    (data : List (String × String)) :
    ((data.lookup "device_type" = none ∨ data.lookup "device_type" = some "") →
      DeviceService.Authenticate lib s now entropy data =
        (s, .error DomainError.ErrInvalidInput)) ∧
    (∀ deviceType d, data.lookup "device_type" = some deviceType → deviceType ≠ "" →
      DeviceRepo.GetByIdentityHash s (computeIdentityHash lib data) = .ok d →
      (d.Status = DeviceStatus.Pending →
        DeviceService.Authenticate lib s now entropy data =
          (s, .error DomainError.ErrDevicePending)) ∧
      (d.Status = DeviceStatus.Rejected ∨ d.Status = DeviceStatus.Decommissioned →
        DeviceService.Authenticate lib s now entropy data =
          (s, .error DomainError.ErrDeviceRejected))) ∧
    (∀ token, (DeviceService.Authenticate lib s now entropy data).2 = .ok token →
      ∃ d, DeviceRepo.GetByIdentityHash s (computeIdentityHash lib data) = .ok d ∧
        d.Status = DeviceStatus.Accepted) ∧
    (∀ e, (DeviceService.Authenticate lib s now entropy data).2 = .error e →
      ∃ news, (DeviceService.Authenticate lib s now entropy data).1.devices =
        s.devices ++ news) := by
  refine ⟨Authenticate_untyped lib s now entropy data, ?_, ?_, ?_⟩
  · intro deviceType d hdt hne hg
    rw [Authenticate_found lib s now entropy data deviceType d hdt hne hg]
    constructor
    · intro hs
      unfold issueByStatus
      rw [hs]
    · rintro (hs | hs) <;> (unfold issueByStatus; rw [hs])
  · intro token htok
    cases hdt : data.lookup "device_type" with
    | none =>
      rw [Authenticate_untyped lib s now entropy data (Or.inl hdt)] at htok
      cases htok
    | some deviceType =>
      by_cases hne : deviceType = ""
      · rw [Authenticate_untyped lib s now entropy data (Or.inr (by rw [hdt, hne]))] at htok
        cases htok
      · cases hg : DeviceRepo.GetByIdentityHash s (computeIdentityHash lib data) with
        | ok d =>
          rw [Authenticate_found lib s now entropy data deviceType d hdt hne hg] at htok
          exact ⟨d, rfl, issueByStatus_ok lib s now entropy d token htok⟩
        | error e =>
          rw [Authenticate_new lib s now entropy data deviceType hdt hne
            (GetByIdentityHash_error hg).2] at htok
          cases htok
  · intro e herr
    cases hdt : data.lookup "device_type" with
    | none =>
      rw [Authenticate_untyped lib s now entropy data (Or.inl hdt)]
      exact ⟨[], by simp⟩
    | some deviceType =>
      by_cases hne : deviceType = ""
      · rw [Authenticate_untyped lib s now entropy data (Or.inr (by rw [hdt, hne]))]
        exact ⟨[], by simp⟩
      · cases hg : DeviceRepo.GetByIdentityHash s (computeIdentityHash lib data) with
        | ok d =>
          rw [Authenticate_found lib s now entropy data deviceType d hdt hne hg] at herr ⊢
          rw [issueByStatus_error lib s now entropy d e herr]
          exact ⟨[], by simp⟩
        | error e2 =>
          rw [Authenticate_new lib s now entropy data deviceType hdt hne
            (GetByIdentityHash_error hg).2]
          exact ⟨_, rfl⟩

/-- Witness of C19: an identity without device type, a pending device and a
decommissioned device. -/
theorem Authenticate_gate_witness :
    DeviceService.Authenticate exLib exStore 700 exEntropy exIdentityUntyped =
      (exStore, .error DomainError.ErrInvalidInput) ∧
    DeviceService.Authenticate exLib (registryWith DeviceStatus.Pending "") 700 exEntropy
        exIdentity =
      (registryWith DeviceStatus.Pending "", .error DomainError.ErrDevicePending) ∧
    DeviceService.Authenticate exLib (registryWith DeviceStatus.Decommissioned "old") 700
        exEntropy exIdentity =
      (registryWith DeviceStatus.Decommissioned "old", .error DomainError.ErrDeviceRejected) :=
  ⟨(Authenticate_gate exLib exStore 700 exEntropy exIdentityUntyped).1 (by decide),
   ((Authenticate_gate exLib (registryWith DeviceStatus.Pending "") 700 exEntropy
      exIdentity).2.1 "raspberry-pi-4" _ (by decide) (by decide) (by rfl)).1 (by decide),
   ((Authenticate_gate exLib (registryWith DeviceStatus.Decommissioned "old") 700 exEntropy
      exIdentity).2.1 "raspberry-pi-4" _ (by decide) (by decide) (by rfl)).2 (by decide)⟩

/-- C20: for an accepted device found by the identity hash, `Authenticate`
returns the hex encoding of 32 bytes, a token of 64 characters, non-empty,
all of them lowercase hex digits; afterwards every row with the device's id
has the hex encoding of the SHA-256 of that token as its token hash, which is
what `HashToken` gives for the token, and every row with another id is
unchanged. -/
theorem Authenticate_issues_token (lib : Lib) (s : Store) (now : Nat) (entropy : Nat → Nat)
    (data : List (String × String)) (deviceType : String) (d : Device)
    (hdt : data.lookup "device_type" = some deviceType) (hne : deviceType ≠ "")
    (hfound : DeviceRepo.GetByIdentityHash s (computeIdentityHash lib data) = .ok d)
    (hacc : d.Status = DeviceStatus.Accepted) :
    (DeviceService.Authenticate lib s now entropy data).2 =
      .ok (hexEncode (randRead entropy 32)) ∧
    ((randRead entropy 32).length = 32 ∧ ∀ b ∈ randRead entropy 32, b < 256) ∧
    (hexEncode (randRead entropy 32)).length = 64 ∧
    hexEncode (randRead entropy 32) ≠ "" ∧
    (∀ c ∈ (hexEncode (randRead entropy 32)).toList, c ∈ hexDigits) ∧
    d ∈ s.devices ∧
    HashToken lib (hexEncode (randRead entropy 32)) =
      hexEncode (lib.sha256 (hexEncode (randRead entropy 32))) ∧
    List.Forall₂ (fun e e2 =>
      if e.ID = d.ID then
        e2.AuthTokenHash = hexEncode (lib.sha256 (hexEncode (randRead entropy 32))) ∧
          e2.ID = e.ID
      else e2 = e)
      s.devices (DeviceService.Authenticate lib s now entropy data).1.devices := by
  have hd : d ∈ s.devices := (GetByIdentityHash_ok_mem hfound).1
  have hlen : (hexEncode (randRead entropy 32)).length = 64 := by
    rw [hexEncode_length, (randRead_spec entropy 32).1]
  rw [Authenticate_found lib s now entropy data deviceType d hdt hne hfound,
    issueByStatus_accepted lib s now entropy d hd hacc]
  refine ⟨rfl, randRead_spec entropy 32, hlen, ?_, hexEncode_digits _, hd, rfl, ?_⟩
  · intro hc
    rw [hc] at hlen
    cases hlen
  · simp only [List.map_map]
    apply forall₂_map_self
    intro e _
    by_cases hid : e.ID = d.ID
    · simp [hid, HashToken]
    · simp [hid]

/-- Witness of C20: the accepted device of `registryWith` authenticates and
gets a token of 64 characters; its row then stores the hex encoding of the
digest of the token. -/
theorem Authenticate_issues_token_witness :
    (DeviceService.Authenticate exLib (registryWith DeviceStatus.Accepted "") 700 exEntropy
      exIdentity).2 = .ok (hexEncode (randRead exEntropy 32)) ∧
    (hexEncode (randRead exEntropy 32)).length = 64 ∧
    Except.map (fun d : Device => d.AuthTokenHash) (DeviceRepo.GetByID
      (DeviceService.Authenticate exLib (registryWith DeviceStatus.Accepted "") 700 exEntropy
        exIdentity).1 1) = .ok (hexEncode (exLib.sha256 (hexEncode (randRead exEntropy 32)))) :=
  ⟨(Authenticate_issues_token exLib (registryWith DeviceStatus.Accepted "") 700 exEntropy
      exIdentity "raspberry-pi-4" _ (by decide) (by decide) (by rfl) (by decide)).1,
   (Authenticate_issues_token exLib (registryWith DeviceStatus.Accepted "") 700 exEntropy
      exIdentity "raspberry-pi-4" _ (by decide) (by decide) (by rfl) (by decide)).2.2.1,
   by decide⟩

/-! ## Token validation -/

theorem List_AuthTokenHash (s : Store) (f : DeviceFilter) :
    ∀ d ∈ (DeviceRepo.List s f).1, d.AuthTokenHash = "" := by
  intro d hd
  unfold DeviceRepo.List at hd
  simp only at hd
  obtain ⟨e, _, rfl⟩ := List.mem_map.1 hd
  rfl

theorem hexEncode_ne_empty (bytes : List Nat) (h : bytes ≠ []) : hexEncode bytes ≠ "" := by
  intro hc
  have hlen := hexEncode_length bytes
  rw [hc] at hlen
  cases bytes with
  | nil => exact h rfl
  | cons b bs =>
    simp only [List.length_cons] at hlen
    have : ("" : String).length = 0 := rfl
    omega

theorem findByTokenHash_unauthorized (s : Store) (tokenHash : String) (h : tokenHash ≠ "") :
    DeviceService.findByTokenHash s tokenHash = .error DomainError.ErrUnauthorized := by
  unfold DeviceService.findByTokenHash
  have hnone : (DeviceRepo.List s tokenScanFilter).1.find?
      (fun d => decide (d.AuthTokenHash = tokenHash ∧ d.Status = DeviceStatus.Accepted)) = none := by
    rw [List.find?_eq_none]
    intro d hd
    have he := List_AuthTokenHash s tokenScanFilter d hd
    simp only [decide_eq_true_eq, not_and]
    intro hc
    exact absurd (he.symm.trans hc).symm h
  rw [hnone]

theorem ValidateToken_unauthorized (lib : Lib) (s : Store) (token : String)
    (h : lib.sha256 token ≠ []) :
    DeviceService.ValidateToken lib s token = .error DomainError.ErrUnauthorized :=
  findByTokenHash_unauthorized s _ (hexEncode_ne_empty _ h)

/-- C21: `ValidateToken` answers `ErrUnauthorized` for every store and every
token whose digest is not empty (a SHA-256 digest has 32 bytes): the listing
that `findByTokenHash` scans does not select `auth_token_hash`, so no listed
device carries a hash to compare with, and an accepted device whose stored
hash is `HashToken` of the token is not returned. -/
theorem ValidateToken_finds_no_device (lib : Lib) (s : Store) (token : String)
    (hdigest : lib.sha256 token ≠ []) :
    DeviceService.ValidateToken lib s token = .error DomainError.ErrUnauthorized ∧
    ∀ d ∈ (DeviceRepo.List s tokenScanFilter).1, d.AuthTokenHash = "" :=
  ⟨ValidateToken_unauthorized lib s token hdigest, List_AuthTokenHash s tokenScanFilter⟩

/-- Witness of C21: the registry holds the accepted device 1 whose stored hash
is `HashToken` of the token `secret`, and `ValidateToken` of `secret` answers
`ErrUnauthorized`. -/
theorem ValidateToken_finds_no_device_witness :
    (∃ d ∈ (registryWith DeviceStatus.Accepted (HashToken exLib "secret")).devices,
      d.AuthTokenHash = HashToken exLib "secret" ∧ d.Status = DeviceStatus.Accepted) ∧
    DeviceService.ValidateToken exLib
      (registryWith DeviceStatus.Accepted (HashToken exLib "secret")) "secret" =
      .error DomainError.ErrUnauthorized :=
  ⟨by decide,
   (ValidateToken_finds_no_device exLib
      (registryWith DeviceStatus.Accepted (HashToken exLib "secret")) "secret" (by decide)).1⟩

theorem GetByIdentityHash_map (s : Store) (h : Device → Device) (hash : String) (d : Device)
    (hk : ∀ e, (h e).IdentityHash = e.IdentityHash)
    (hg : DeviceRepo.GetByIdentityHash s hash = .ok d) :
    DeviceRepo.GetByIdentityHash { s with devices := s.devices.map h } hash = .ok (h d) := by
  unfold DeviceRepo.GetByIdentityHash at hg ⊢
  simp only [List.find?_map]
  have hp : ((fun d => decide (d.IdentityHash = hash)) ∘ h) =
      (fun d : Device => decide (d.IdentityHash = hash)) := by
    funext e
    simp [hk e]
  rw [hp]
  split at hg
  · rename_i d2 hf
    injection hg with hg
    subst hg
    rw [hf]
    rfl
  · cases hg

/-- The two row updates of a successful `Authenticate`, as one function. -/
theorem issueByStatus_accepted_map (lib : Lib) (s : Store) (now : Nat) (entropy : Nat → Nat)
    (d : Device) (hd : d ∈ s.devices) (hacc : d.Status = DeviceStatus.Accepted) :
    issueByStatus lib s now entropy d =
      ({ s with devices := s.devices.map (fun e =>
           if e.ID = d.ID then
             { e with AuthTokenHash := HashToken lib (hexEncode (randRead entropy 32)),
                      LastCheckIn := some now, UpdatedAt := now }
           else e) },
       .ok (hexEncode (randRead entropy 32))) := by
  rw [issueByStatus_accepted lib s now entropy d hd hacc, List.map_map]
  congr 2
  apply List.map_congr_left
  intro e _
  by_cases hid : e.ID = d.ID
  · simp [hid]
  · simp [hid]

/-- C22: for an accepted device found by its identity, two successive
`Authenticate` calls return the tokens T1 and T2; afterwards a row with the
device's id exists, every such row is accepted and stores `HashToken` of T2,
and, digests being non-empty, `ValidateToken` answers `ErrUnauthorized` for
T1 and also for T2: the most recently issued token is not accepted. -/
theorem rotated_token_is_rejected (lib : Lib) (s : Store) (now1 now2 : Nat)
    (entropy1 entropy2 : Nat → Nat) (data : List (String × String)) (deviceType : String)
    (d : Device)
    (hdt : data.lookup "device_type" = some deviceType) (hne : deviceType ≠ "")
    (hfound : DeviceRepo.GetByIdentityHash s (computeIdentityHash lib data) = .ok d)
    (hacc : d.Status = DeviceStatus.Accepted)
    (hdigest : ∀ x, lib.sha256 x ≠ []) :
    (DeviceService.Authenticate lib s now1 entropy1 data).2 =
      .ok (hexEncode (randRead entropy1 32)) ∧
    (DeviceService.Authenticate lib (DeviceService.Authenticate lib s now1 entropy1 data).1
      now2 entropy2 data).2 = .ok (hexEncode (randRead entropy2 32)) ∧
    (∃ e ∈ (DeviceService.Authenticate lib (DeviceService.Authenticate lib s now1 entropy1 data).1
        now2 entropy2 data).1.devices, e.ID = d.ID ∧ e.Status = DeviceStatus.Accepted ∧
      e.AuthTokenHash = HashToken lib (hexEncode (randRead entropy2 32))) ∧
    (∀ e ∈ (DeviceService.Authenticate lib (DeviceService.Authenticate lib s now1 entropy1 data).1
        now2 entropy2 data).1.devices, e.ID = d.ID →
      e.AuthTokenHash = HashToken lib (hexEncode (randRead entropy2 32))) ∧
    DeviceService.ValidateToken lib
      (DeviceService.Authenticate lib (DeviceService.Authenticate lib s now1 entropy1 data).1
        now2 entropy2 data).1 (hexEncode (randRead entropy1 32)) =
      .error DomainError.ErrUnauthorized ∧
    DeviceService.ValidateToken lib
      (DeviceService.Authenticate lib (DeviceService.Authenticate lib s now1 entropy1 data).1
        now2 entropy2 data).1 (hexEncode (randRead entropy2 32)) =
      .error DomainError.ErrUnauthorized := by
  have hd : d ∈ s.devices := (GetByIdentityHash_ok_mem hfound).1
  have h1 := Authenticate_found lib s now1 entropy1 data deviceType d hdt hne hfound
  rw [issueByStatus_accepted_map lib s now1 entropy1 d hd hacc] at h1
  rw [h1]
  have hfound2 := GetByIdentityHash_map s (fun e =>
      if e.ID = d.ID then
        { e with AuthTokenHash := HashToken lib (hexEncode (randRead entropy1 32)),
                 LastCheckIn := some now1, UpdatedAt := now1 }
      else e) _ d (fun e => by by_cases hid : e.ID = d.ID <;> simp [hid]) hfound
  simp only [if_true] at hfound2
  have hd2 := (GetByIdentityHash_ok_mem hfound2).1
  have h2 := Authenticate_found lib _ now2 entropy2 data deviceType _ hdt hne hfound2
  rw [issueByStatus_accepted_map lib _ now2 entropy2 _ hd2 hacc] at h2
  rw [h2]
  refine ⟨rfl, rfl, ?_, ?_, ValidateToken_unauthorized lib _ _ (hdigest _),
    ValidateToken_unauthorized lib _ _ (hdigest _)⟩
  · refine ⟨_, List.mem_map_of_mem _ hd2, ?_⟩
    simp [hacc]
  · intro e he hid
    simp only [List.map_map] at he
    obtain ⟨x, hx, rfl⟩ := List.mem_map.1 he
    by_cases hxid : x.ID = d.ID
    · simp [hxid]
    · simp [hxid] at hid

/-- Witness of C22: device 1 of `registryWith`, accepted, authenticates at
times 700 and 800; both calls return a token, and the token of the second
call is answered `ErrUnauthorized`. -/
theorem rotated_token_is_rejected_witness :
    (DeviceService.Authenticate exLib
      (DeviceService.Authenticate exLib (registryWith DeviceStatus.Accepted "") 700 exEntropy
        exIdentity).1 800 exEntropy2 exIdentity).2 = .ok (hexEncode (randRead exEntropy2 32)) ∧
    DeviceService.ValidateToken exLib
      (DeviceService.Authenticate exLib
        (DeviceService.Authenticate exLib (registryWith DeviceStatus.Accepted "") 700 exEntropy
          exIdentity).1 800 exEntropy2 exIdentity).1 (hexEncode (randRead exEntropy2 32)) =
      .error DomainError.ErrUnauthorized :=
  ⟨(rotated_token_is_rejected exLib (registryWith DeviceStatus.Accepted "") 700 800 exEntropy
      exEntropy2 exIdentity "raspberry-pi-4" _ (by decide) (by decide) (by rfl) (by decide)
      (by intro x; simp [exLib])).2.1,
   (rotated_token_is_rejected exLib (registryWith DeviceStatus.Accepted "") 700 800 exEntropy
      exEntropy2 exIdentity "raspberry-pi-4" _ (by decide) (by decide) (by rfl) (by decide)
      (by intro x; simp [exLib])).2.2.2.2.2⟩

/-- C23: for a map with distinct keys, `computeIdentityHash` is the lowercase
hex encoding of the SHA-256 of the compact JSON object whose members are those
of the map with the keys in lexicographic order, whichever way the members are
listed; so it gives the same hash for every other listing of the same
members. -/
theorem computeIdentityHash_canonical (lib : Lib) (data : List (String × String))
    (hkeys : (data.map Prod.fst).Nodup) :
    (∃ members : List (String × String), members.Perm data ∧
      members.Sorted (fun a b => keyLE a.1 b.1 = true)) ∧
    (∀ members, members.Perm data → members.Sorted (fun a b => keyLE a.1 b.1 = true) →
      computeIdentityHash lib data = hexEncode (lib.sha256 (compactObject lib members))) ∧
    (∀ c ∈ (computeIdentityHash lib data).toList, c ∈ hexDigits) ∧
    (computeIdentityHash lib data).length = 2 * (lib.sha256 (jsonMarshalMap lib data)).length ∧
    (∀ data2, data.Perm data2 → computeIdentityHash lib data2 = computeIdentityHash lib data) := by
  haveI : IsTotal (String × String) (fun a b => keyLE a.1 b.1 = true) :=
    ⟨fun a b => charsLE_total a.1.data b.1.data⟩
  haveI : IsTrans (String × String) (fun a b => keyLE a.1 b.1 = true) :=
    ⟨fun a b c h1 h2 => charsLE_trans a.1.data b.1.data c.1.data h1 h2⟩
  refine ⟨⟨_, List.perm_insertionSort _ data, List.sorted_insertionSort _ _⟩, ?_,
    hexEncode_digits _, hexEncode_length _, ?_⟩
  · intro members hp hs
    have he : data.insertionSort (fun a b => keyLE a.1 b.1 = true) = members := by
      apply sorted_perm_eq _ _ (List.sorted_insertionSort _ _) hs
      · exact (List.perm_insertionSort _ data).trans hp.symm
      · exact ((List.perm_insertionSort _ data).map Prod.fst).nodup_iff.2 hkeys
    unfold computeIdentityHash jsonMarshalMap compactObject
    rw [he]
  · intro data2 hp
    exact (computeIdentityHash_perm lib data data2 hp hkeys).symm

/-- Witness of C23: the identity of the first scenario, listed in its two
orders, has one hash, the hex of the digest of the object with `device_type`
before `mac`. -/
theorem computeIdentityHash_canonical_witness :
    computeIdentityHash exLib exIdentity =
      hexEncode (exLib.sha256 (compactObject exLib exIdentity)) ∧
    computeIdentityHash exLib exIdentitySwapped = computeIdentityHash exLib exIdentity :=
  ⟨(computeIdentityHash_canonical exLib exIdentity (by decide)).2.1 exIdentity
      (List.Perm.refl _) (by decide),
   (computeIdentityHash_canonical exLib exIdentity (by decide)).2.2.2.2 exIdentitySwapped
      (by decide)⟩

/-! ## Artifact upload -/

theorem teeBytes_drain (r : Reader) : teeBytes r r.drain = r.remaining := by
  unfold teeBytes Reader.drain Reader.remaining
  apply List.take_of_length_le
  rw [List.length_drop]
  simp only
  omega

theorem lookup_filter_ne (files : List (String × List Nat)) (path : String) :
    (files.filter (fun f => decide (f.1 ≠ path))).lookup path = none := by
  induction files with
  | nil => rfl
  | cons f fs ih =>
    by_cases h : f.1 = path
    · rw [List.filter_cons, if_neg (by simp [h])]
      exact ih
    · rw [List.filter_cons, if_pos (by simpa using h)]
      obtain ⟨k, v⟩ := f
      have hk : (path == k) = false := by
        simp only [beq_eq_false_iff_ne, ne_eq]
        exact fun hc => h hc.symm
      simp only [List.lookup, hk]
      exact ih

theorem Open_Delete (fs : LocalStore) (path : String) (hdir : path ∉ fs.dirs) :
    LocalStore.Open (LocalStore.Delete fs path) path = none := by
  unfold LocalStore.Open LocalStore.Delete
  simp only
  rw [lookup_filter_ne fs.files path, if_neg hdir]

theorem canCreate_not_dir (lib : StoreLib) (fs : LocalStore) (path : String)
    (h : canCreate lib fs path = true) : path ∉ fs.dirs := by
  unfold canCreate at h
  split at h
  · cases h
  · exact (of_decide_eq_true h).2

theorem Create_artifact_invalid (lib : StoreLib) (sys : System) (now : Nat)
    (input : CreateArtifactInput)
    (h : input.Name = "" ∨ input.Version = "" ∨ input.TargetPath = "" ∨ input.DeviceTypes = []) :
    ArtifactService.Create lib sys now input =
      (sys, input.File, .error (.kind DomainError.ErrInvalidInput)) := by
  unfold ArtifactService.Create
  by_cases h1 : input.Name = "" ∨ input.Version = "" ∨ input.TargetPath = ""
  · rw [if_pos h1]
  · rw [if_neg h1]
    have h2 : input.DeviceTypes = [] := by
      rcases h with h | h | h | h
      · exact absurd (Or.inl h) h1
      · exact absurd (Or.inr (Or.inl h)) h1
      · exact absurd (Or.inr (Or.inr h)) h1
      · exact h
    rw [if_pos (by rw [h2]; rfl)]

/-- The result of `Save` when the date directory is made, the file is created
and the stream is read without error. -/
theorem Save_ok (lib : StoreLib) (fs fs1 : LocalStore) (now : Nat) (name : String)
    (reader : Reader)
    (hmk : mkdirAll lib fs (lib.join fs.basePath (lib.dateDir now)) = some fs1)
    (hcreate : canCreate lib fs1
      (lib.join (lib.join fs.basePath (lib.dateDir now)) name) = true)
    (hread : reader.fails = false) :
    LocalStore.Save lib fs now name reader =
      (LocalStore.mk fs1.basePath fs1.dirs
          (writeFile fs1.files (lib.join (lib.join fs.basePath (lib.dateDir now)) name)
            reader.remaining),
        reader.drain,
        some (lib.join (lib.join fs.basePath (lib.dateDir now)) name,
          (reader.remaining.length : Int))) := by
  unfold LocalStore.Save
  simp only [hmk]
  rw [if_pos hcreate, if_neg (by simp [hread])]

/-- The result of `Create` for an input that passes the two checks. -/
theorem Create_artifact_checked (lib : StoreLib) (sys : System) (now : Nat)
    (input : CreateArtifactInput)
    (hname : input.Name ≠ "") (hver : input.Version ≠ "") (htp : input.TargetPath ≠ "")
    (hdt : input.DeviceTypes ≠ []) :
    ArtifactService.Create lib sys now input =
      match (LocalStore.Save lib sys.files now
        (input.Name ++ "_" ++ input.Version ++ "_" ++ input.FileName) input.File).2.2 with
      | none =>
        (System.mk sys.db (LocalStore.Save lib sys.files now
            (input.Name ++ "_" ++ input.Version ++ "_" ++ input.FileName) input.File).1,
          (LocalStore.Save lib sys.files now
            (input.Name ++ "_" ++ input.Version ++ "_" ++ input.FileName) input.File).2.1,
          .error CreateError.saveFile)
      | some (storagePath, fileSize) =>
        match ArtifactRepo.Create sys.db now
          (newArtifact input (if input.FileMode = "" then "0644" else input.FileMode) fileSize
            (hexEncode (lib.sum256 (teeBytes input.File (LocalStore.Save lib sys.files now
              (input.Name ++ "_" ++ input.Version ++ "_" ++ input.FileName) input.File).2.1)))
            storagePath) with
        | (db1, .error e) =>
          (System.mk db1 (LocalStore.Delete (LocalStore.Save lib sys.files now
              (input.Name ++ "_" ++ input.Version ++ "_" ++ input.FileName) input.File).1
              storagePath),
            (LocalStore.Save lib sys.files now
              (input.Name ++ "_" ++ input.Version ++ "_" ++ input.FileName) input.File).2.1,
            .error (CreateError.kind e))
        | (db1, .ok a) =>
          (System.mk db1 (LocalStore.Save lib sys.files now
              (input.Name ++ "_" ++ input.Version ++ "_" ++ input.FileName) input.File).1,
            (LocalStore.Save lib sys.files now
              (input.Name ++ "_" ++ input.Version ++ "_" ++ input.FileName) input.File).2.1,
            .ok a) := by
  unfold ArtifactService.Create
  rw [if_neg (by simp [hname, hver, htp]), if_neg (by
    intro hc
    exact hdt (List.length_eq_zero.1 hc))]

/-- The result of `Create` for an input that passes the two checks and whose
stream is saved. -/
theorem Create_artifact_saved (lib : StoreLib) (sys : System) (now : Nat)
    (input : CreateArtifactInput) (fs1 : LocalStore)
    (hname : input.Name ≠ "") (hver : input.Version ≠ "") (htp : input.TargetPath ≠ "")
    (hdt : input.DeviceTypes ≠ [])
    (hmk : mkdirAll lib sys.files (lib.join sys.files.basePath (lib.dateDir now)) = some fs1)
    (hcreate : canCreate lib fs1 (uploadPath lib sys.files now input) = true)
    (hread : input.File.fails = false) :
    ArtifactService.Create lib sys now input =
      match ArtifactRepo.Create sys.db now
        (newArtifact input (if input.FileMode = "" then "0644" else input.FileMode)
          (input.File.remaining.length : Int)
          (hexEncode (lib.sum256 input.File.remaining))
          (uploadPath lib sys.files now input)) with
      | (db1, .error e) =>
        (System.mk db1 (LocalStore.Delete
            (LocalStore.mk fs1.basePath fs1.dirs
              (writeFile fs1.files (uploadPath lib sys.files now input)
                input.File.remaining))
            (uploadPath lib sys.files now input)),
          input.File.drain, .error (CreateError.kind e))
      | (db1, .ok a) =>
        (System.mk db1 (LocalStore.mk fs1.basePath fs1.dirs
            (writeFile fs1.files (uploadPath lib sys.files now input)
              input.File.remaining)),
          input.File.drain, .ok a) := by
  rw [Create_artifact_checked lib sys now input hname hver htp hdt,
    Save_ok lib sys.files fs1 now _ input.File hmk hcreate hread]
  simp only [teeBytes_drain, uploadPath]

/-- C26: when the name, the version or the target path is empty, or no device
type is given, `Create` returns `ErrInvalidInput`; the input reader is where
it was, and the file store and the database are unchanged. -/
theorem Create_rejects_incomplete_input (lib : StoreLib) (sys : System) (now : Nat)
    (input : CreateArtifactInput)
    (h : input.Name = "" ∨ input.Version = "" ∨ input.TargetPath = "" ∨ input.DeviceTypes = []) :
    (ArtifactService.Create lib sys now input).2.2 =
      .error (CreateError.kind DomainError.ErrInvalidInput) ∧
    (ArtifactService.Create lib sys now input).2.1 = input.File ∧
    (ArtifactService.Create lib sys now input).1.files = sys.files ∧
    (ArtifactService.Create lib sys now input).1.db = sys.db := by
  rw [Create_artifact_invalid lib sys now input h]
  exact ⟨rfl, rfl, rfl, rfl⟩

/-- Witness of C26: the upload without a device type. -/
theorem Create_rejects_incomplete_input_witness :
    (ArtifactService.Create exStoreLib emptySystem 1000 untypedUpload).2.2 =
      .error (CreateError.kind DomainError.ErrInvalidInput) ∧
    (ArtifactService.Create exStoreLib emptySystem 1000 untypedUpload).2.1.offset = 0 ∧
    (ArtifactService.Create exStoreLib emptySystem 1000 untypedUpload).1 = emptySystem :=
  ⟨(Create_rejects_incomplete_input exStoreLib emptySystem 1000 untypedUpload
      (by decide)).1,
   by rw [(Create_rejects_incomplete_input exStoreLib emptySystem 1000 untypedUpload
      (by decide)).2.1]; rfl,
   by decide⟩

/-- C25: a valid upload whose stream is saved and whose name and version a
stored artifact already has returns `ErrConflict` and leaves the rows as they
were, but the file at the path it was saved under is gone afterwards: the
save wrote over the file at that path and the clean-up removed it. Every row
whose storage path is that path, such as the row of the first upload of the
same name, version and file name on the same date, no longer opens. -/
theorem failed_reupload_removes_blob (lib : StoreLib) (sys : System) (now : Nat)
    (input : CreateArtifactInput) (fs1 : LocalStore)
    (hname : input.Name ≠ "") (hver : input.Version ≠ "") (htp : input.TargetPath ≠ "")
    (hdt : input.DeviceTypes ≠ [])
    (hmk : mkdirAll lib sys.files (lib.join sys.files.basePath (lib.dateDir now)) = some fs1)
    (hcreate : canCreate lib fs1 (uploadPath lib sys.files now input) = true)
    (hread : input.File.fails = false)
    (hdup : ∃ a ∈ sys.db.artifacts, a.Name = input.Name ∧ a.Version = input.Version) :
    (ArtifactService.Create lib sys now input).2.2 =
      .error (CreateError.kind DomainError.ErrConflict) ∧
    (ArtifactService.Create lib sys now input).1.db = sys.db ∧
    ∀ a ∈ (ArtifactService.Create lib sys now input).1.db.artifacts,
      a.StoragePath = uploadPath lib sys.files now input →
      LocalStore.Open (ArtifactService.Create lib sys now input).1.files a.StoragePath = none ∧
      ArtifactService.OpenFile (ArtifactService.Create lib sys now input).1 a.ID ≠
        .ok (input.File.remaining, a) ∧
      ∀ bytes, LocalStore.Open sys.files a.StoragePath = some bytes →
        ArtifactService.OpenFile (ArtifactService.Create lib sys now input).1 a.ID ≠
          .ok (bytes, a) := by
  rw [Create_artifact_saved lib sys now input fs1 hname hver htp hdt hmk hcreate hread]
  unfold ArtifactRepo.Create
  have hany : sys.db.artifacts.any (fun e => decide (e.Name = input.Name ∧
      e.Version = input.Version)) = true := by
    rw [List.any_eq_true]
    obtain ⟨a, ha, hc⟩ := hdup
    exact ⟨a, ha, by simpa using hc⟩
  simp only [newArtifact]
  rw [if_pos hany]
  refine ⟨rfl, rfl, ?_⟩
  intro a ha hp
  simp only at ha ⊢
  have hopen : LocalStore.Open (LocalStore.Delete
      (LocalStore.mk fs1.basePath fs1.dirs
        (writeFile fs1.files (uploadPath lib sys.files now input) input.File.remaining))
      (uploadPath lib sys.files now input)) a.StoragePath = none := by
    rw [hp]
    exact Open_Delete _ _ (canCreate_not_dir lib fs1 _ hcreate)
  have hfail : ∀ bytes, ArtifactService.OpenFile
      (System.mk sys.db (LocalStore.Delete
        (LocalStore.mk fs1.basePath fs1.dirs
          (writeFile fs1.files (uploadPath lib sys.files now input) input.File.remaining))
        (uploadPath lib sys.files now input))) a.ID ≠ .ok (bytes, a) := by
    intro bytes hc
    unfold ArtifactService.OpenFile at hc
    simp only at hc
    split at hc
    · cases hc
    · rename_i a2 hg
      split at hc
      · cases hc
      · rename_i b hb
        injection hc with hc
        injection hc with _ hc2
        rw [hc2, hopen] at hb
        cases hb
  exact ⟨hopen, hfail _, fun bytes _ => hfail bytes⟩

/-- Witness of C25: `hello` is uploaded at time 1000 and opens; the same
name, version and file name is uploaded again at time 2000 with other bytes.
The second upload returns `ErrConflict`, the row of the first upload is still
stored, and its file no longer opens. -/
theorem failed_reupload_removes_blob_witness :
    Except.map Prod.fst (ArtifactService.OpenFile
      (ArtifactService.Create exStoreLib emptySystem 1000 helloUpload).1 1) =
      .ok [104, 101, 108, 108, 111] ∧
    (ArtifactService.Create exStoreLib
      (ArtifactService.Create exStoreLib emptySystem 1000 helloUpload).1 2000 worldUpload).2.2 =
      .error (CreateError.kind DomainError.ErrConflict) ∧
    (ArtifactService.Create exStoreLib
      (ArtifactService.Create exStoreLib emptySystem 1000 helloUpload).1 2000 worldUpload).1.db =
      (ArtifactService.Create exStoreLib emptySystem 1000 helloUpload).1.db ∧
    ArtifactService.OpenFile (ArtifactService.Create exStoreLib
      (ArtifactService.Create exStoreLib emptySystem 1000 helloUpload).1 2000 worldUpload).1 1 =
      .error OpenError.openFile :=
  ⟨by decide,
   (failed_reupload_removes_blob exStoreLib
      (ArtifactService.Create exStoreLib emptySystem 1000 helloUpload).1 2000 worldUpload
      (ArtifactService.Create exStoreLib emptySystem 1000 helloUpload).1.files
      (by decide) (by decide) (by decide) (by decide) (by decide) (by decide) (by decide)
      (by decide)).1,
   (failed_reupload_removes_blob exStoreLib
      (ArtifactService.Create exStoreLib emptySystem 1000 helloUpload).1 2000 worldUpload
      (ArtifactService.Create exStoreLib emptySystem 1000 helloUpload).1.files
      (by decide) (by decide) (by decide) (by decide) (by decide) (by decide) (by decide)
      (by decide)).2.1,
   by decide⟩

/-! ## Cleanup -/

theorem ArtifactList_sub (s : Store) (f : ArtifactFilter) (a : Artifact)
    (h : a ∈ (ArtifactRepo.List s f).1) : a ∈ s.artifacts := by
  unfold ArtifactRepo.List at h
  have h1 := List.mem_of_mem_drop (List.mem_of_mem_take h)
  rw [List.mem_insertionSort, List.mem_filter] at h1
  exact h1.1

theorem DeploymentList_full (s : Store) (hsmall : s.deployments.length ≤ 100) (d : Deployment)
    (hd : d ∈ s.deployments) : d ∈ (DeploymentRepo.List s cleanupDeploymentFilter).1 := by
  unfold DeploymentRepo.List cleanupDeploymentFilter
  norm_num
  rw [List.take_of_length_le]
  · rw [List.mem_insertionSort]
    exact hd
  · rw [List.length_insertionSort]
    exact hsmall

theorem ArtifactDelete_fst (s : Store) (id : UUID) :
    (ArtifactRepo.Delete s id).1 =
      { s with artifacts := s.artifacts.filter (fun a => decide (a.ID ≠ id)) } := by
  unfold ArtifactRepo.Delete
  by_cases hany : s.artifacts.any (fun a => decide (a.ID = id)) = true
  · rw [if_pos hany]
  · rw [if_neg hany]
    have hall : ∀ a ∈ s.artifacts, decide (a.ID ≠ id) = true := by
      intro a ha
      simp only [List.any_eq_true, not_exists, not_and] at hany
      simpa using hany a ha
    rw [List.filter_eq_self.2 hall]

/-- One step of the cleanup loop either leaves the store as it is or removes
the rows with the artifact's id, and it removes them only when no listed
deployment uses the artifact and its file does not open. -/
theorem cleanupArtifact_cases (files : LocalStore) (s : Store) (art : Artifact) :
    cleanupArtifact files s art = s ∨
    (cleanupArtifact files s art =
        { s with artifacts := s.artifacts.filter (fun a => decide (a.ID ≠ art.ID)) } ∧
      inUse (DeploymentRepo.List s cleanupDeploymentFilter).1 art = false ∧
      LocalStore.Open files art.StoragePath = none) := by
  unfold cleanupArtifact
  by_cases hu : inUse (DeploymentRepo.List s cleanupDeploymentFilter).1 art = true
  · rw [if_pos hu]
    exact Or.inl rfl
  · rw [if_neg hu]
    cases ho : LocalStore.Open files art.StoragePath with
    | some b => exact Or.inl rfl
    | none =>
      refine Or.inr ⟨ArtifactDelete_fst s art.ID, ?_, rfl⟩
      simpa using hu

/-- The invariant of the cleanup loop: the other tables are kept, no artifact
row is added, and a row that is gone was unused and without a file. -/
theorem cleanup_fold (files : LocalStore) (orig : Store)
    (hkey : (orig.artifacts.map (fun a => a.ID)).Nodup)
    (hsmall : orig.deployments.length ≤ 100) (l : List Artifact)
    (hl : ∀ art ∈ l, art ∈ orig.artifacts) (s : Store)
    (hdep : s.deployments = orig.deployments)
    (hdev : s.devices = orig.devices ∧ s.deploymentDevices = orig.deploymentDevices)
    (hsub : ∀ a ∈ s.artifacts, a ∈ orig.artifacts)
    (hdel : ∀ a ∈ orig.artifacts, a ∉ s.artifacts →
      (¬ ∃ d ∈ orig.deployments, d.ArtifactID = a.ID ∧
        (d.Status = DeploymentStatus.Scheduled ∨ d.Status = DeploymentStatus.Active)) ∧
      LocalStore.Open files a.StoragePath = none) :
    (l.foldl (cleanupArtifact files) s).deployments = orig.deployments ∧
    ((l.foldl (cleanupArtifact files) s).devices = orig.devices ∧
      (l.foldl (cleanupArtifact files) s).deploymentDevices = orig.deploymentDevices) ∧
    (∀ a ∈ (l.foldl (cleanupArtifact files) s).artifacts, a ∈ orig.artifacts) ∧
    (∀ a ∈ orig.artifacts, a ∉ (l.foldl (cleanupArtifact files) s).artifacts →
      (¬ ∃ d ∈ orig.deployments, d.ArtifactID = a.ID ∧
        (d.Status = DeploymentStatus.Scheduled ∨ d.Status = DeploymentStatus.Active)) ∧
      LocalStore.Open files a.StoragePath = none) := by
  induction l generalizing s with
  | nil => exact ⟨hdep, hdev, hsub, hdel⟩
  | cons art l ih =>
    rw [List.foldl_cons]
    have hl2 : ∀ x ∈ l, x ∈ orig.artifacts := fun x hx => hl x (List.mem_cons_of_mem _ hx)
    rcases cleanupArtifact_cases files s art with h | ⟨h, hu, ho⟩
    · rw [h]
      exact ih hl2 s hdep hdev hsub hdel
    · rw [h]
      apply ih hl2
      · exact hdep
      · exact hdev
      · intro a ha
        exact hsub a (List.mem_of_mem_filter ha)
      · intro a ha hna
        by_cases hin : a ∈ s.artifacts
        · have hid : a.ID = art.ID := by
            by_contra hne
            exact hna (List.mem_filter.2 ⟨hin, by simpa using hne⟩)
          have hart := hl art (List.mem_cons_self _ _)
          have heq : a = art := List.inj_on_of_nodup_map hkey ha hart hid
          subst heq
          refine ⟨?_, ho⟩
          rintro ⟨d, hd, hda, hst⟩
          have hd2 : d ∈ (DeploymentRepo.List s cleanupDeploymentFilter).1 :=
            DeploymentList_full s (by rw [hdep]; exact hsmall) d (by rw [hdep]; exact hd)
          have : inUse (DeploymentRepo.List s cleanupDeploymentFilter).1 a = true := by
            unfold inUse
            rw [List.any_eq_true]
            exact ⟨d, hd2, by simpa using ⟨hda, hst⟩⟩
          rw [this] at hu
          cases hu
        · exact hdel a ha hin

theorem RunCleanup_small (sys : System)
    (hkey : (sys.db.artifacts.map (fun a => a.ID)).Nodup)
    (hsmall : sys.db.deployments.length ≤ 100) :
    (CleanupService.RunCleanup sys).files = sys.files ∧
    (CleanupService.RunCleanup sys).db.deployments = sys.db.deployments ∧
    ((CleanupService.RunCleanup sys).db.devices = sys.db.devices ∧
      (CleanupService.RunCleanup sys).db.deploymentDevices = sys.db.deploymentDevices) ∧
    (∀ a ∈ (CleanupService.RunCleanup sys).db.artifacts, a ∈ sys.db.artifacts) ∧
    (∀ a ∈ sys.db.artifacts, a ∉ (CleanupService.RunCleanup sys).db.artifacts →
      (¬ ∃ d ∈ sys.db.deployments, d.ArtifactID = a.ID ∧
        (d.Status = DeploymentStatus.Scheduled ∨ d.Status = DeploymentStatus.Active)) ∧
      LocalStore.Open sys.files a.StoragePath = none) := by
  have h := cleanup_fold sys.files sys.db hkey hsmall
    (ArtifactRepo.List sys.db cleanupArtifactFilter).1
    (fun art hart => ArtifactList_sub sys.db _ art hart) sys.db rfl ⟨rfl, rfl⟩
    (fun a ha => ha) (fun a ha hna => absurd ha hna)
  exact ⟨rfl, h.1, h.2.1, h.2.2.1, h.2.2.2⟩

/-- C27: one cleanup cycle looks at one page of 100 deployments. When the
artifact ids are a key and there are at most 100 deployments, it reads the
file store without changing it, leaves the other tables as they are, adds no
artifact row, and deletes an artifact row only if no scheduled or active
deployment references the artifact and nothing opens at its storage path. In
`crowdedSystem`, with 101 deployments, the active deployment 200 references
artifact 10 but is the oldest and is not listed; nothing is stored at the
path of the artifact, and the cycle deletes the row of artifact 10. -/
theorem RunCleanup_deletes_used_artifact :
    (∀ sys : System, (sys.db.artifacts.map (fun a => a.ID)).Nodup →
      sys.db.deployments.length ≤ 100 →
      (CleanupService.RunCleanup sys).files = sys.files ∧
      (CleanupService.RunCleanup sys).db.deployments = sys.db.deployments ∧
      ((CleanupService.RunCleanup sys).db.devices = sys.db.devices ∧
        (CleanupService.RunCleanup sys).db.deploymentDevices = sys.db.deploymentDevices) ∧
      (∀ a ∈ (CleanupService.RunCleanup sys).db.artifacts, a ∈ sys.db.artifacts) ∧
      (∀ a ∈ sys.db.artifacts, a ∉ (CleanupService.RunCleanup sys).db.artifacts →
        (¬ ∃ d ∈ sys.db.deployments, d.ArtifactID = a.ID ∧
          (d.Status = DeploymentStatus.Scheduled ∨ d.Status = DeploymentStatus.Active)) ∧
        LocalStore.Open sys.files a.StoragePath = none)) ∧
    ((∃ d ∈ crowdedSystem.db.deployments, d.ID = 200 ∧ d.ArtifactID = 10 ∧
        d.Status = DeploymentStatus.Active) ∧
      crowdedSystem.db.deployments.length = 101 ∧
      crowdedSystem.db.artifacts = [exArtifact] ∧ exArtifact.ID = 10 ∧
      (CleanupService.RunCleanup crowdedSystem).db.artifacts = []) := by
  refine ⟨fun sys hkey hsmall => RunCleanup_small sys hkey hsmall,
    ⟨mkDeployment 200 DeploymentStatus.Active 0, List.mem_cons_self _ _, rfl, rfl, rfl⟩,
    by decide, rfl, rfl, ?_⟩
  decide

/-- Witness of C27 on `janitorSystem`, which has two deployments: the cycle
deletes artifact 10 only, whose file is missing and whose deployment is
completed; artifact 11, used by an active deployment, and artifact 12, whose
file opens, stay. -/
theorem RunCleanup_deletes_used_artifact_witness :
    (CleanupService.RunCleanup janitorSystem).db.artifacts =
      [mkArtifactAt 11 "1.1.0" "/data/a11" 2, mkArtifactAt 12 "1.2.0" "/data/a12" 3] ∧
    ∀ a ∈ janitorSystem.db.artifacts, a ∉ (CleanupService.RunCleanup janitorSystem).db.artifacts →
      (¬ ∃ d ∈ janitorSystem.db.deployments, d.ArtifactID = a.ID ∧
        (d.Status = DeploymentStatus.Scheduled ∨ d.Status = DeploymentStatus.Active)) ∧
      LocalStore.Open janitorSystem.files a.StoragePath = none :=
  ⟨by decide,
   (RunCleanup_deletes_used_artifact.1 janitorSystem (by decide) (by decide)).2.2.2.2⟩

/-! ## Decommissioned devices -/

theorem devices_map_of_update (s : Store) (id : UUID) (f : Device → Device) :
    (if s.devices.any (fun d => decide (d.ID = id)) = true then
      (({ s with devices := s.devices.map (fun d => if d.ID = id then f d else d) } : Store),
        (Except.ok () : Except DomainError Unit))
    else (s, .error DomainError.ErrNotFound)).1.devices =
      s.devices.map (fun d => if d.ID = id then f d else d) := by
  by_cases hany : s.devices.any (fun d => decide (d.ID = id)) = true
  · rw [if_pos hany]
  · rw [if_neg hany]
    have hno : ∀ d ∈ s.devices, ¬ d.ID = id := by
      intro d hd hid
      apply hany
      rw [List.any_eq_true]
      exact ⟨d, hd, by simpa using hid⟩
    rw [map_ite_of_forall_not (fun d : Device => d.ID = id) _ _ hno]

theorem Decommission_devices (s : Store) (now : Nat) (id : UUID) :
    (DeviceService.Decommission s now id).1.devices = s.devices.map (fun d =>
      if d.ID = id then { d with Status := DeviceStatus.Decommissioned, UpdatedAt := now }
      else d) :=
  devices_map_of_update s id _

theorem UpdateTags_devices (s : Store) (now : Nat) (id : UUID) (tags : StringList) :
    (DeviceService.UpdateTags s now id tags).1.devices = s.devices.map (fun d =>
      if d.ID = id then { d with Tags := tags, UpdatedAt := now } else d) :=
  devices_map_of_update s id _

theorem UpdateInventory_devices (s : Store) (now : Nat) (id : UUID) (inventory : StringMap) :
    (DeviceService.UpdateInventory s now id inventory).1.devices = s.devices.map (fun d =>
      if d.ID = id then { d with Inventory := inventory, UpdatedAt := now } else d) :=
  devices_map_of_update s id _

theorem UpdateStatus_devices (s : Store) (now : Nat) (id : UUID) (status : DeviceStatus) :
    (DeviceService.UpdateStatus s now id status).1.devices = s.devices.map (fun d =>
      if d.ID = id then { d with Status := status, UpdatedAt := now } else d) :=
  devices_map_of_update s id _

theorem respondNoContent_fst (r : Store × Except DomainError Unit) :
    (respondNoContent r).1 = r.1 := by
  obtain ⟨s1, res⟩ := r
  unfold respondNoContent
  cases res with
  | error e => by_cases he : e = DomainError.ErrNotFound <;> simp [he]
  | ok u => rfl

theorem handler_UpdateStatus_devices (s : Store) (now : Nat) (id : UUID) (status : String) :
    (DeviceHandler.UpdateStatus s now id status).1.devices =
      if status = "accepted" then s.devices.map (fun d =>
        if d.ID = id then { d with Status := DeviceStatus.Accepted, UpdatedAt := now } else d)
      else if status = "rejected" then s.devices.map (fun d =>
        if d.ID = id then { d with Status := DeviceStatus.Rejected, UpdatedAt := now } else d)
      else s.devices := by
  unfold DeviceHandler.UpdateStatus
  by_cases ha : status = "accepted"
  · rw [if_pos ha, if_pos ha, respondNoContent_fst, UpdateStatus_devices]
  · rw [if_neg ha, if_neg ha]
    by_cases hr : status = "rejected"
    · rw [if_pos hr, if_pos hr, respondNoContent_fst, UpdateStatus_devices]
    · rw [if_neg hr, if_neg hr]

theorem lookupOrRegister_devices (s : Store) (now : Nat) (hash : String)
    (data : List (String × String)) (deviceType : String) :
    ∃ news, (lookupOrRegister s now hash data deviceType).1.devices = s.devices ++ news := by
  cases hg : DeviceRepo.GetByIdentityHash s hash with
  | ok d =>
    rw [lookupOrRegister_found s now hash data deviceType d hg]
    exact ⟨[], by simp⟩
  | error e =>
    rw [lookupOrRegister_new s now hash data deviceType (GetByIdentityHash_error hg).2]
    exact ⟨_, rfl⟩

theorem issueByStatus_devices (lib : Lib) (s : Store) (now : Nat) (entropy : Nat → Nat)
    (d : Device) :
    ∃ f : Device → Device, (∀ e, (f e).ID = e.ID ∧ (f e).Status = e.Status) ∧
      (issueByStatus lib s now entropy d).1.devices = s.devices.map f := by
  have hid : ∃ f : Device → Device, (∀ e, (f e).ID = e.ID ∧ (f e).Status = e.Status) ∧
      s.devices = s.devices.map f := ⟨id, fun e => ⟨rfl, rfl⟩, by simp⟩
  unfold issueByStatus
  cases hs : d.Status with
  | Pending => exact hid
  | Rejected => exact hid
  | Decommissioned => exact hid
  | Accepted =>
    simp only
    unfold DeviceRepo.UpdateAuthToken
    by_cases hany : s.devices.any (fun x => decide (x.ID = d.ID)) = true
    · rw [if_pos hany]
      refine ⟨fun e => (fun e : Device =>
          if e.ID = d.ID then { e with LastCheckIn := some now, UpdatedAt := now } else e)
        ((fun e : Device => if e.ID = d.ID then
          { e with AuthTokenHash := (GenerateDeviceToken lib entropy).2, UpdatedAt := now }
          else e) e), ?_, ?_⟩
      · intro e
        by_cases he : e.ID = d.ID <;> simp [he]
      · simp only [DeviceRepo.UpdateLastCheckIn, List.map_map]
        rfl
    · rw [if_neg hany]
      exact hid

theorem Authenticate_devices (lib : Lib) (s : Store) (now : Nat) (entropy : Nat → Nat)
    (data : List (String × String)) :
    ∃ pre news, (DeviceService.Authenticate lib s now entropy data).1.devices = pre ++ news ∧
      List.Forall₂ (fun d d2 => d2.ID = d.ID ∧ d2.Status = d.Status) s.devices pre := by
  have hsame : ∃ pre news, s.devices = pre ++ news ∧
      List.Forall₂ (fun d d2 => d2.ID = d.ID ∧ d2.Status = d.Status) s.devices pre :=
    ⟨s.devices, [], by simp, forall₂_self _ _ (fun _ _ => ⟨rfl, rfl⟩)⟩
  cases hl : data.lookup "device_type" with
  | none => rw [Authenticate_untyped lib s now entropy data (Or.inl hl)]; exact hsame
  | some deviceType =>
    by_cases hne : deviceType = ""
    · rw [Authenticate_untyped lib s now entropy data (Or.inr (by rw [hl, hne]))]
      exact hsame
    · rw [Authenticate_typed lib s now entropy data deviceType hl hne]
      obtain ⟨news, hnews⟩ := lookupOrRegister_devices s now (computeIdentityHash lib data) data
        deviceType
      rcases hr : lookupOrRegister s now (computeIdentityHash lib data) data deviceType with
        ⟨s1, res⟩
      rw [hr] at hnews
      cases res with
      | error e =>
        exact ⟨s.devices, news, hnews, forall₂_self _ _ (fun _ _ => ⟨rfl, rfl⟩)⟩
      | ok device =>
        obtain ⟨f, hf, hmap⟩ := issueByStatus_devices lib s1 now entropy device
        refine ⟨s.devices.map f, news.map f, ?_, forall₂_map_self f _ _ (fun e _ => hf e)⟩
        simp only
        rw [hmap]
        simp only at hnews
        rw [hnews, List.map_append]

/-- Counterexample to C28 as stated: device 1 is decommissioned at time 800;
the operator request that sets its status to `accepted` at time 900 is
answered 204, and the device is accepted again. -/
theorem decommissioned_sink_counterexample :
    (DeviceService.Decommission (registryWith DeviceStatus.Accepted "") 800 1).2 = .ok () ∧
    Except.map (fun d : Device => d.Status) (DeviceRepo.GetByID
      (DeviceService.Decommission (registryWith DeviceStatus.Accepted "") 800 1).1 1) =
      .ok DeviceStatus.Decommissioned ∧
    (DeviceHandler.UpdateStatus
      (DeviceService.Decommission (registryWith DeviceStatus.Accepted "") 800 1).1 900 1
      "accepted").2 = 204 ∧
    Except.map (fun d : Device => d.Status) (DeviceRepo.GetByID
      (DeviceHandler.UpdateStatus
        (DeviceService.Decommission (registryWith DeviceStatus.Accepted "") 800 1).1 900 1
        "accepted").1 1) = .ok DeviceStatus.Accepted := by
  decide

/-- C28 (amended): `Decommission` of an existing device succeeds and the
device is then found by its id with status decommissioned. No registry
operation removes or reorders a device row. `Authenticate`, `UpdateTags` and
`UpdateInventory` leave the status of every row as it is and `Decommission`
leaves a decommissioned row decommissioned; the operator `UpdateStatus`
changes no status of a row with another id, and sets the status of the rows
with the given id to `accepted` or `rejected` as requested, whatever it
was. -/
theorem decommissioned_kept (lib : Lib) (s : Store) (now : Nat) :
    (∀ id, (∃ d ∈ s.devices, d.ID = id) →
      (DeviceService.Decommission s now id).2 = .ok () ∧
      ∃ d, DeviceRepo.GetByID (DeviceService.Decommission s now id).1 id = .ok d ∧
        d.Status = DeviceStatus.Decommissioned) ∧
    (∀ id, List.Forall₂ (fun d d2 => d2.ID = d.ID ∧
        (d.Status = DeviceStatus.Decommissioned → d2.Status = DeviceStatus.Decommissioned))
      s.devices (DeviceService.Decommission s now id).1.devices) ∧
    (∀ id tags, List.Forall₂ (fun d d2 => d2.ID = d.ID ∧ d2.Status = d.Status)
      s.devices (DeviceService.UpdateTags s now id tags).1.devices) ∧
    (∀ id inventory, List.Forall₂ (fun d d2 => d2.ID = d.ID ∧ d2.Status = d.Status)
      s.devices (DeviceService.UpdateInventory s now id inventory).1.devices) ∧
    (∀ entropy data, ∃ pre news,
      (DeviceService.Authenticate lib s now entropy data).1.devices = pre ++ news ∧
      List.Forall₂ (fun d d2 => d2.ID = d.ID ∧ d2.Status = d.Status) s.devices pre) ∧
    (∀ id status, List.Forall₂ (fun d d2 => d2.ID = d.ID ∧
        (d.ID ≠ id → d2.Status = d.Status) ∧
        (d.ID = id → status = "accepted" → d2.Status = DeviceStatus.Accepted) ∧
        (d.ID = id → status = "rejected" → d2.Status = DeviceStatus.Rejected))
      s.devices (DeviceHandler.UpdateStatus s now id status).1.devices) := by
  refine ⟨?_, ?_, ?_, ?_, fun entropy data => Authenticate_devices lib s now entropy data, ?_⟩
  · rintro id ⟨d, hd, hid⟩
    have hany : s.devices.any (fun d => decide (d.ID = id)) = true := by
      rw [List.any_eq_true]
      exact ⟨d, hd, by simpa using hid⟩
    constructor
    · unfold DeviceService.Decommission DeviceRepo.Delete
      rw [if_pos hany]
    · unfold DeviceRepo.GetByID
      rw [Decommission_devices, List.find?_map]
      have hp : ((fun d => decide (d.ID = id)) ∘ fun d : Device =>
          if d.ID = id then { d with Status := DeviceStatus.Decommissioned, UpdatedAt := now }
          else d) = fun d => decide (d.ID = id) := by
        funext e
        by_cases he : e.ID = id <;> simp [he]
      rw [hp]
      cases hf : s.devices.find? (fun d => decide (d.ID = id)) with
      | none =>
        rw [List.find?_eq_none] at hf
        exact absurd (by simpa using hid) (hf d hd)
      | some x =>
        have hx : x.ID = id := by simpa using List.find?_some hf
        refine ⟨_, rfl, ?_⟩
        simp [hx]
  · intro id
    rw [Decommission_devices]
    apply forall₂_map_self
    intro e _
    by_cases he : e.ID = id <;> simp [he]
  · intro id tags
    rw [UpdateTags_devices]
    apply forall₂_map_self
    intro e _
    by_cases he : e.ID = id <;> simp [he]
  · intro id inventory
    rw [UpdateInventory_devices]
    apply forall₂_map_self
    intro e _
    by_cases he : e.ID = id <;> simp [he]
  · intro id status
    rw [handler_UpdateStatus_devices]
    by_cases ha : status = "accepted"
    · rw [if_pos ha]
      apply forall₂_map_self
      intro e _
      by_cases he : e.ID = id <;> simp [he, ha]
    · rw [if_neg ha]
      by_cases hr : status = "rejected"
      · rw [if_pos hr]
        apply forall₂_map_self
        intro e _
        by_cases he : e.ID = id <;> simp [he, hr]
      · rw [if_neg hr]
        apply forall₂_self
        intro e _
        exact ⟨rfl, fun _ => rfl, fun _ h => absurd h ha, fun _ h => absurd h hr⟩

/-- Witness of C28 (amended): device 1 of `registryWith`, accepted, is
decommissioned at time 800 and is then found by its id as decommissioned. -/
theorem decommissioned_kept_witness :
    (∃ d ∈ (registryWith DeviceStatus.Accepted "").devices, d.ID = 1) ∧
    (DeviceService.Decommission (registryWith DeviceStatus.Accepted "") 800 1).2 = .ok () ∧
    ∃ d, DeviceRepo.GetByID
        (DeviceService.Decommission (registryWith DeviceStatus.Accepted "") 800 1).1 1 = .ok d ∧
      d.Status = DeviceStatus.Decommissioned :=
  ⟨by decide,
   (decommissioned_kept exLib (registryWith DeviceStatus.Accepted "") 800).1 1 (by decide)⟩

/-! ## Requests of a device -/

theorem applyStatus_keys (now : Nat) (status : DeploymentDeviceStatus) (log : String)
    (r : DeploymentDevice) :
    (DeploymentRepo.applyStatus now status log r).ID = r.ID ∧
    (DeploymentRepo.applyStatus now status log r).DeploymentID = r.DeploymentID ∧
    (DeploymentRepo.applyStatus now status log r).DeviceID = r.DeviceID := by
  cases status <;> exact ⟨rfl, rfl, rfl⟩

theorem handler_report_fst (s : Store) (now : Nat) (deviceID ddID : UUID) (status log : String) :
    (DeploymentHandler.UpdateStatus s now deviceID ddID status log).1 =
      match reportableStatus status with
      | none => s
      | some st => { s with deploymentDevices := s.deploymentDevices.map (fun r =>
          if r.ID = ddID then DeploymentRepo.applyStatus now st log r else r) } := by
  unfold DeploymentHandler.UpdateStatus
  cases reportableStatus status with
  | none => rfl
  | some st =>
    simp only
    rw [respondNoContent_fst, UpdateDeviceStatus_fst]

/-- Counterexample to C29 as stated: in `pollStore` row 34 belongs to device
2 and is downloading; the report of `success` for row 34 made at time 500 in
a request of device 1 is answered 204 and row 34 is successful and finished
afterwards. -/
theorem foreign_report_counterexample :
    (∀ r ∈ pollStore.deploymentDevices, r.ID = 34 → r.DeviceID = 2) ∧
    (DeploymentHandler.UpdateStatus pollStore 500 1 34 "success" "done").2 = 204 ∧
    (DeploymentHandler.UpdateStatus pollStore 500 1 34 "success" "done").1.deploymentDevices =
      [mkRow 31 21 1 DeploymentDeviceStatus.Pending, mkRow 32 20 1 DeploymentDeviceStatus.Pending,
       mkRow 33 22 1 DeploymentDeviceStatus.Pending,
       { mkRowAt 34 20 2 DeploymentDeviceStatus.Success 0 none (some 500) with Log := "done" },
       mkRow 35 23 5 DeploymentDeviceStatus.Pending] := by
  decide

/-- C29 (amended): a status report changes work rows by the row id of the
request alone. The answer and the store after it are the same whichever
device the request context names; devices, artifacts and deployments are
unchanged; every work row keeps its id, deployment and device, and a row whose
id is not the id of the request is unchanged. With row ids as a key, when
the id of the request is that of a row of the device, the rows of every other
device are unchanged. -/
theorem report_changes_named_row (s : Store) (now : Nat) (deviceID ddID : UUID)
    (status log : String) :
    (∀ other, DeploymentHandler.UpdateStatus s now other ddID status log =
      DeploymentHandler.UpdateStatus s now deviceID ddID status log) ∧
    ((DeploymentHandler.UpdateStatus s now deviceID ddID status log).1.devices = s.devices ∧
      (DeploymentHandler.UpdateStatus s now deviceID ddID status log).1.artifacts = s.artifacts ∧
      (DeploymentHandler.UpdateStatus s now deviceID ddID status log).1.deployments =
        s.deployments) ∧
    List.Forall₂ (fun r r2 => r2.ID = r.ID ∧ r2.DeploymentID = r.DeploymentID ∧
        r2.DeviceID = r.DeviceID ∧ (r.ID ≠ ddID → r2 = r))
      s.deploymentDevices
      (DeploymentHandler.UpdateStatus s now deviceID ddID status log).1.deploymentDevices ∧
    ((s.deploymentDevices.map (fun r => r.ID)).Nodup →
      (∃ r0 ∈ s.deploymentDevices, r0.ID = ddID ∧ r0.DeviceID = deviceID) →
      List.Forall₂ (fun r r2 => r.DeviceID ≠ deviceID → r2 = r)
        s.deploymentDevices
        (DeploymentHandler.UpdateStatus s now deviceID ddID status log).1.deploymentDevices) := by
  refine ⟨fun other => rfl, ?_, ?_, ?_⟩
  · rw [handler_report_fst]
    cases reportableStatus status <;> exact ⟨rfl, rfl, rfl⟩
  · rw [handler_report_fst]
    cases reportableStatus status with
    | none => exact forall₂_self _ _ (fun r _ => ⟨rfl, rfl, rfl, fun _ => rfl⟩)
    | some st =>
      apply forall₂_map_self
      intro r _
      by_cases hid : r.ID = ddID
      · rw [if_pos hid]
        obtain ⟨h1, h2, h3⟩ := applyStatus_keys now st log r
        exact ⟨h1, h2, h3, fun hne => absurd hid hne⟩
      · rw [if_neg hid]
        exact ⟨rfl, rfl, rfl, fun _ => rfl⟩
  · rintro hkey ⟨r0, hr0, hid0, hdev0⟩
    rw [handler_report_fst]
    cases reportableStatus status with
    | none => exact forall₂_self _ _ (fun r _ _ => rfl)
    | some st =>
      apply forall₂_map_self
      intro r hr hne
      by_cases hid : r.ID = ddID
      · have heq : r = r0 := row_eq_of_ID_eq hkey hr hr0 (hid.trans hid0.symm)
        rw [heq] at hne
        exact absurd hdev0 hne
      · rw [if_neg hid]

/-- Witness of C29 (amended): in `pollStore`, whose row ids are distinct,
device 1 reports `downloading` for its own row 31, and the rows of every
other device are unchanged. -/
theorem report_changes_named_row_witness :
    (pollStore.deploymentDevices.map (fun r => r.ID)).Nodup ∧
    (∃ r0 ∈ pollStore.deploymentDevices, r0.ID = 31 ∧ r0.DeviceID = 1) ∧
    List.Forall₂ (fun r r2 => r.DeviceID ≠ 1 → r2 = r) pollStore.deploymentDevices
      (DeploymentHandler.UpdateStatus pollStore 500 1 31 "downloading"
        "fetching").1.deploymentDevices :=
  ⟨by decide, by decide,
   (report_changes_named_row pollStore 500 1 31 "downloading" "fetching").2.2.2
     (by decide) (by decide)⟩

theorem ArtifactGetByID_ok {s : Store} {id : UUID} {a : Artifact}
    (h : ArtifactRepo.GetByID s id = .ok a) : a ∈ s.artifacts ∧ a.ID = id := by
  unfold ArtifactRepo.GetByID at h
  split at h
  · rename_i a2 hf
    injection h with h
    subst h
    exact ⟨List.mem_of_find?_eq_some hf, by simpa using List.find?_some hf⟩
  · cases h

theorem Download_eq (sys : System) (deviceID ddID : UUID) :
    DeploymentHandler.Download sys deviceID ddID =
      match DeploymentRepo.GetPendingDeploymentForDevice sys.db deviceID with
      | .error _ => .error 404
      | .ok t =>
        match ArtifactRepo.GetByID sys.db t.2.2.ID with
        | .error _ => .error 500
        | .ok artifact =>
          match LocalStore.Open sys.files artifact.StoragePath with
          | none => .error 500
          | some bytes => .ok (artifact, bytes) := by
  unfold DeploymentHandler.Download DeploymentService.GetNextForDevice ArtifactService.OpenFile
  simp only
  cases DeploymentRepo.GetPendingDeploymentForDevice sys.db deviceID with
  | error e => rfl
  | ok t =>
    obtain ⟨dd, dep, art⟩ := t
    simp only
    cases ArtifactRepo.GetByID sys.db art.ID with
    | error e => rfl
    | ok artifact =>
      simp only
      cases LocalStore.Open sys.files artifact.StoragePath with
      | none => rfl
      | some bytes => rfl

/-- Counterexample to C30 as stated: in `downloadSystem` the download of row
61 by device 1 gives the three bytes of artifact 10 while the row is pending;
after device 1 has reported `downloading` for row 61 the row is downloading,
and the download of row 61 is answered 404. -/
theorem Download_after_report_counterexample :
    Except.map (fun r : Artifact × List Nat => (r.1.ID, r.2))
      (DeploymentHandler.Download downloadSystem 1 61) = .ok (10, [1, 2, 3]) ∧
    (DeploymentHandler.UpdateStatus downloadSystem.db 500 1 61 "downloading" "").2 = 204 ∧
    (DeploymentHandler.UpdateStatus downloadSystem.db 500 1 61 "downloading"
      "").1.deploymentDevices =
      [mkRowAt 61 60 1 DeploymentDeviceStatus.Downloading 1 (some 500) none] ∧
    DeploymentHandler.Download
      { downloadSystem with
        db := (DeploymentHandler.UpdateStatus downloadSystem.db 500 1 61 "downloading" "").1 }
      1 61 = .error 404 := by
  decide

theorem ArtifactGetByID_of_mem {s : Store} {a : Artifact} (h : a ∈ s.artifacts) :
    ∃ a2, ArtifactRepo.GetByID s a.ID = .ok a2 := by
  unfold ArtifactRepo.GetByID
  cases hf : s.artifacts.find? (fun x => decide (x.ID = a.ID)) with
  | some a2 => exact ⟨a2, rfl⟩
  | none =>
    rw [List.find?_eq_none] at hf
    exact absurd (by simp) (hf a h)

/-- C30 (amended): `Download` does not select by the row id of the request:
its answer is the same for every id. When it answers with an artifact and
bytes, the device of the request has a pending row in a scheduled or active
deployment of that artifact, created no later than the deployment of any
other such row whose artifact is stored, and the bytes are the file at the
artifact's storage path. When the device has such a row, every such row is of
one artifact, that artifact is stored and its file opens, the answer is that
artifact and its bytes. When no row of the device is pending, as after the
device has reported downloading for its only pending row, the answer is
404. -/
theorem Download_selects_next_pending (sys : System) (deviceID ddID : UUID) :
    (∀ other, DeploymentHandler.Download sys deviceID other =
      DeploymentHandler.Download sys deviceID ddID) ∧
    (∀ artifact bytes, DeploymentHandler.Download sys deviceID ddID = .ok (artifact, bytes) →
      artifact ∈ sys.db.artifacts ∧
      LocalStore.Open sys.files artifact.StoragePath = some bytes ∧
      ∃ r d, isCandidate sys.db deviceID r d ∧ artifact.ID = d.ArtifactID ∧
        ∀ r2 d2 a2, isCandidate sys.db deviceID r2 d2 → a2 ∈ sys.db.artifacts →
          a2.ID = d2.ArtifactID → d.CreatedAt ≤ d2.CreatedAt) ∧
    (∀ r d artifact bytes, isCandidate sys.db deviceID r d →
      (∀ r2 d2, isCandidate sys.db deviceID r2 d2 → d2.ArtifactID = d.ArtifactID) →
      ArtifactRepo.GetByID sys.db d.ArtifactID = .ok artifact →
      LocalStore.Open sys.files artifact.StoragePath = some bytes →
      DeploymentHandler.Download sys deviceID ddID = .ok (artifact, bytes)) ∧
    ((∀ r ∈ sys.db.deploymentDevices, r.DeviceID = deviceID →
        r.Status ≠ DeploymentDeviceStatus.Pending) →
      DeploymentHandler.Download sys deviceID ddID = .error 404) := by
  refine ⟨fun other => rfl, ?_, ?_, ?_⟩
  · intro artifact bytes h
    rw [Download_eq] at h
    cases hg : DeploymentRepo.GetPendingDeploymentForDevice sys.db deviceID with
    | error e => rw [hg] at h; cases h
    | ok t =>
      rw [hg] at h
      simp only at h
      cases ha : ArtifactRepo.GetByID sys.db t.2.2.ID with
      | error e => rw [ha] at h; cases h
      | ok a =>
        rw [ha] at h
        simp only at h
        cases ho : LocalStore.Open sys.files a.StoragePath with
        | none => rw [ho] at h; cases h
        | some b =>
          rw [ho] at h
          injection h with h
          injection h with h1 h2
          subst h1
          subst h2
          obtain ⟨hmem, hid⟩ := ArtifactGetByID_ok ha
          obtain ⟨r, d, a0, hc, _, ha0, ht, hmin⟩ := GetPending_ok sys.db deviceID t hg
          have htid : t.2.2.ID = d.ArtifactID := by rw [ht]; exact ha0
          exact ⟨hmem, ho, r, d, hc, hid.trans htid, hmin⟩
  · intro r d artifact bytes hc hone ha ho
    rw [Download_eq]
    obtain ⟨hmem, hid⟩ := ArtifactGetByID_ok ha
    cases hg : DeploymentRepo.GetPendingDeploymentForDevice sys.db deviceID with
    | error e =>
      exact absurd hid ((GetPending_error sys.db deviceID e hg).2 r d artifact hc hmem)
    | ok t =>
      obtain ⟨r1, d1, a1, hc1, _, ha1, ht, _⟩ := GetPending_ok sys.db deviceID t hg
      have htid : t.2.2.ID = d1.ArtifactID := by rw [ht]; exact ha1
      simp only
      rw [htid, hone r1 d1 hc1, ha]
      simp only
      rw [ho]
  · intro hnone
    rw [Download_eq, GetPending_none sys.db deviceID hnone]

/-- Witness of C30 (amended): in `downloadSystem` device 1 has the pending
row 61 of deployment 60 and no other row; the download answers with artifact
10 and the three bytes of its file. -/
theorem Download_selects_next_pending_witness :
    isCandidate downloadSystem.db 1 (mkRow 61 60 1 DeploymentDeviceStatus.Pending)
      (mkDeployment 60 DeploymentStatus.Active 100) ∧
    DeploymentHandler.Download downloadSystem 1 61 = .ok (exArtifact, [1, 2, 3]) :=
  ⟨by decide,
   (Download_selects_next_pending downloadSystem 1 61).2.2.1
     (mkRow 61 60 1 DeploymentDeviceStatus.Pending) (mkDeployment 60 DeploymentStatus.Active 100)
     exArtifact [1, 2, 3] (by decide)
     (fun r2 d2 hc => by
       have hd : d2 ∈ [mkDeployment 60 DeploymentStatus.Active 100] := hc.2.1
       simp only [List.mem_singleton] at hd
       rw [hd])
     (by decide) (by decide)⟩

end Harbor
